import Mathlib

/-!
# Virtual character devices (`src/drivers/device/vdev.cpp`) and the simulated sensor
(`src/platforms/posix/drivers/gyrosim/gyrosim.cpp`)

A shallow embedding of the device registry of `vdev.cpp` (the static table
`devmap` and the functions that scan it), of the `VDev` base class (registration,
open and close, ioctl, poll waiters, listing, destruction) and of the `GYROSIM`
driver (the sampling tick, read, start and stop, ioctl, initialisation and
destruction), followed by the properties proved about them.

Conventions of the embedding

* a C string (`const char *` that is not `NULL`) is the list of the bytes that
  precede its terminating NUL; a pointer argument that may be `NULL` is an
  `Option`;
* an object address (`void *`, `VDev *`) is a natural number and `NULL` is `0`;
* a C `int` result is an `Int`; the `errno` constants carry their Linux values;
* the global `devmap` is passed in and returned explicitly.
-/

set_option maxRecDepth 100000

namespace device

/-! ## Data model -/

/-- The bytes of a NUL-terminated C string, terminator excluded. -/
abbrev CStr := List Char

/-- An object address; `NULL` is `0`. -/
abbrev Ptr := Nat

/-- The null pointer. -/
def NULL : Ptr := 0

/-- Success (`OK` and `PX4_OK` are both `0`). -/
def PX4_OK : Int := 0

/-- Same value as `PX4_OK`. -/
def OK : Int := 0

/-- Bad file descriptor, from `errno.h`. -/
def EBADF : Int := 9

/-- File exists, from `errno.h`. -/
def EEXIST : Int := 17

/-- Invalid argument, from `errno.h`. -/
def EINVAL : Int := 22

/-- No space left on device, from `errno.h`. -/
def ENOSPC : Int := 28

/-- No such file or directory, from `errno.h` (the error a lookup that finds nothing has). -/
def ENOENT : Int := 2

/-- One registry record: `struct px4_dev_t`, the name being the `strdup` copy. -/
structure px4_dev_t where
  name : CStr
  cdev : Ptr
deriving DecidableEq, Repr

/-- Number of slots of `devmap`. -/
def PX4_MAX_DEV : Nat := 100

/-- The table `static px4_dev_t *devmap[PX4_MAX_DEV]`: slot `i` holds `none` for a
null entry. Only the slots below `PX4_MAX_DEV` exist in the program; no operation
reads or writes an index at or beyond it. -/
abbrev DevMap := Nat → Option px4_dev_t

/-- The zero-initialised static table: every slot is null. -/
def emptyMap : DevMap := fun _ => none

/-- The test `devmap[i] && strcmp(devmap[i]->name, name) == 0`. -/
def nameAt (devmap : DevMap) (name : CStr) (i : Nat) : Bool :=
  match devmap i with
  | some d => decide (d.name = name)
  | none => false

/-- The test `devmap[i] == NULL`. -/
def freeAt (devmap : DevMap) (i : Nat) : Bool :=
  (devmap i).isNone

/-- The scanning loop `for (i = start; i < start + n; ++i) if (p i) <leave the loop at i>`:
the first index at which the test holds, if the loop meets one. -/
def firstIdx (p : Nat → Bool) : Nat → Nat → Option Nat
  | 0, _ => none
  | n + 1, i => if p i then some i else firstIdx p n (i + 1)

/-! ## Registry operations -/

/-- The function `VDev::register_driver(name, data)`. -/
def register_driver (devmap : DevMap) (name : Option CStr) (data : Ptr) : Int × DevMap :=
  match name with
  | none => (-EINVAL, devmap)
  | some n =>
    if data = NULL then (-EINVAL, devmap)
    else
      match firstIdx (nameAt devmap n) PX4_MAX_DEV 0 with
      | some _ => (-EEXIST, devmap)
      | none =>
        match firstIdx (freeAt devmap) PX4_MAX_DEV 0 with
        | some i => (PX4_OK, Function.update devmap i (some ⟨n, data⟩))
        | none => (-ENOSPC, devmap)

/-- The function `VDev::unregister_driver(name)`. -/
def unregister_driver (devmap : DevMap) (name : Option CStr) : Int × DevMap :=
  match name with
  | none => (-EINVAL, devmap)
  | some n =>
    match firstIdx (nameAt devmap n) PX4_MAX_DEV 0 with
    | some i => (PX4_OK, Function.update devmap i none)
    | none => (-ENOSPC, devmap)

/-- The function `VDev::getDev(path)`: the `cdev` of the first record named `path`, or `NULL`. -/
def getDev (devmap : DevMap) (path : CStr) : Ptr :=
  match firstIdx (nameAt devmap path) PX4_MAX_DEV 0 with
  | some i =>
    match devmap i with
    | some d => d.cdev
    | none => NULL
  | none => NULL

/-- What `snprintf(name, sizeof(name), "%s%d", class_devname, class_instance)` leaves in
`char name[32]` for a non-negative instance number (and likewise `"%s%u"`): the first 31
bytes of the name followed by the decimal digits. -/
def snprintf32 (class_devname : CStr) (class_instance : Nat) : CStr :=
  (class_devname ++ Nat.toDigits 10 class_instance).take 31

/-- The `while (class_instance < 4)` loop of `VDev::register_class_devname`; the first argument
counts the iterations left, the state is `(class_instance, ret, devmap)`. -/
def register_class_loop (this : Ptr) (class_devname : CStr) :
    Nat → Nat → Int → DevMap → Nat × Int × DevMap
  | 0, class_instance, ret, devmap => (class_instance, ret, devmap)
  | n + 1, class_instance, _, devmap =>
    let r := register_driver devmap (some (snprintf32 class_devname class_instance)) this
    if r.1 = OK then (class_instance, r.1, r.2)
    else register_class_loop this class_devname n (class_instance + 1) r.1 r.2

/-- The method `VDev::register_class_devname(class_devname)` of the object at `this`. -/
def register_class_devname (devmap : DevMap) (this : Ptr) (class_devname : Option CStr) :
    Int × DevMap :=
  match class_devname with
  | none => (-EINVAL, devmap)
  | some c =>
    let s := register_class_loop this c 4 0 (-ENOSPC) devmap
    if s.1 = 4 then (s.2.1, s.2.2) else ((s.1 : Int), s.2.2)

/-- The function `VDev::unregister_class_devname(class_devname, class_instance)`. -/
def unregister_class_devname (devmap : DevMap) (class_devname : CStr) (class_instance : Nat) :
    Int × DevMap :=
  match firstIdx (nameAt devmap (snprintf32 class_devname class_instance)) PX4_MAX_DEV 0 with
  | some i => (PX4_OK, Function.update devmap i none)
  | none => (-EINVAL, devmap)

/-- The results of `n` consecutive calls of `register_class_devname` by the object at `this`
with the same class name, and the table after them. -/
def register_class_repeat (this : Ptr) (class_devname : CStr) : Nat → DevMap → List Int × DevMap
  | 0, devmap => ([], devmap)
  | n + 1, devmap =>
    let r := register_class_devname devmap this (some class_devname)
    let rest := register_class_repeat this class_devname n r.2
    (r.1 :: rest.1, rest.2)

/-- A class name of 31 bytes, one more than fits the buffer together with a digit. -/
def longClassName : CStr := List.replicate 31 'a'

/-- One call on the registry, with its arguments. -/
inductive RegistryCall where
  | register_driver (name : Option CStr) (data : Ptr)
  | register_class_devname (this : Ptr) (class_devname : Option CStr)
  | unregister_driver (name : Option CStr)
  | unregister_class_devname (class_devname : CStr) (class_instance : Nat)

/-- The table after one call. -/
def RegistryCall.run (devmap : DevMap) : RegistryCall → DevMap
  | .register_driver name data => (device.register_driver devmap name data).2
  | .register_class_devname this class_devname =>
    (device.register_class_devname devmap this class_devname).2
  | .unregister_driver name => (device.unregister_driver devmap name).2
  | .unregister_class_devname class_devname class_instance =>
    (device.unregister_class_devname devmap class_devname class_instance).2

/-- The table after a sequence of calls, first call first. -/
def runCalls (devmap : DevMap) : List RegistryCall → DevMap
  | [] => devmap
  | c :: cs => runCalls (c.run devmap) cs

/-! ## The `VDev` object -/

/-- The registration state of a `VDev` object: the members the constructor of `vdev.cpp`
initialises, the waiter array apart. -/
structure VDev where
  _pub_blocked : Bool
  _devname : Option CStr
  _registered : Bool
  _open_count : Nat
deriving DecidableEq, Repr

/-- The constructor `VDev::VDev(name, devname)`. -/
def VDev.construct (devname : Option CStr) : VDev :=
  { _pub_blocked := false, _devname := devname, _registered := false, _open_count := 0 }

/-- The method `VDev::init()` of the object at `this`. `device_init` is the result of the
base-class call `Device::init()`, whose source is not among these files. -/
def VDev.init (d : VDev) (this : Ptr) (device_init : Int) (devmap : DevMap) :
    Int × VDev × DevMap :=
  if device_init ≠ PX4_OK then (device_init, d, devmap)
  else
    match d._devname with
    | some n =>
      let r := register_driver devmap (some n) this
      if r.1 ≠ PX4_OK then (r.1, d, r.2)
      else (r.1, { d with _registered := true }, r.2)
    | none => (device_init, d, devmap)

/-- The address of object number `k`: distinct objects have distinct non-null addresses. -/
def objAddr (k : Nat) : Ptr := k + 1

/-- The registry together with the `VDev` objects of the process, numbered from 0. -/
structure World where
  devmap : DevMap
  objects : Nat → VDev

/-- Every object freshly constructed with its registration name, the table empty. -/
def World.fresh (devnames : Nat → Option CStr) : World :=
  { devmap := emptyMap, objects := fun k => VDev.construct (devnames k) }

/-- One call that touches the registry: `init` or `register_class_devname` of object `k`, or
one of the two unregister functions. -/
inductive Call where
  | init (k : Nat) (device_init : Int)
  | register_class_devname (k : Nat) (class_devname : Option CStr)
  | unregister_driver (name : Option CStr)
  | unregister_class_devname (class_devname : CStr) (class_instance : Nat)

/-- The state after one call. -/
def World.step (w : World) : Call → World
  | .init k device_init =>
    let r := (w.objects k).init (objAddr k) device_init w.devmap
    { devmap := r.2.2, objects := Function.update w.objects k r.2.1 }
  | .register_class_devname k class_devname =>
    { w with devmap := (device.register_class_devname w.devmap (objAddr k) class_devname).2 }
  | .unregister_driver name => { w with devmap := (device.unregister_driver w.devmap name).2 }
  | .unregister_class_devname class_devname class_instance =>
    { w with devmap := (device.unregister_class_devname w.devmap class_devname class_instance).2 }

/-- The state after a sequence of calls, first call first. -/
def World.run (w : World) : List Call → World
  | [] => w
  | c :: cs => (w.step c).run cs

/-- The number of records of the table whose handle is `p`. -/
def recordsOf (devmap : DevMap) (p : Ptr) : Nat :=
  ((List.range PX4_MAX_DEV).filter (fun i =>
    match devmap i with
    | some d => decide (d.cdev = p)
    | none => false)).length

/-- The name an unregister call looks for, if it looks for one. -/
def Call.removedName : Call → Option CStr
  | .unregister_driver name => name
  | .unregister_class_devname class_devname class_instance =>
    some (snprintf32 class_devname class_instance)
  | _ => none

/-- The call does not look for the registration name of an object whose `_registered` is set. -/
def Call.sparesRegistered (w : World) (c : Call) : Prop :=
  ∀ k n, (w.objects k)._registered = true → (w.objects k)._devname = some n →
    c.removedName ≠ some n

/-- No call of the sequence, at the state it is made in, looks for the registration name of an
object whose `_registered` is set. -/
def SparesRegistered (w : World) : List Call → Prop
  | [] => True
  | c :: cs => c.sparesRegistered w ∧ SparesRegistered (w.step c) cs

/-- Object 0 is the accelerometer node `/dev/gyrosim_accel`; the other objects have no
registration name. -/
def accelOnly : Nat → Option CStr :=
  fun k => if k = 0 then some "/dev/gyrosim_accel".toList else none

/-! ## Predicates on the table -/

/-- Some slot of the table holds a record named `name`. -/
def Registered (devmap : DevMap) (name : CStr) : Prop :=
  ∃ i, i < PX4_MAX_DEV ∧ nameAt devmap name i = true

instance (devmap : DevMap) (name : CStr) : Decidable (Registered devmap name) := by
  unfold Registered; infer_instance

/-- Some slot of the table is null. -/
def HasFree (devmap : DevMap) : Prop :=
  ∃ i, i < PX4_MAX_DEV ∧ devmap i = none

instance (devmap : DevMap) : Decidable (HasFree devmap) := by
  unfold HasFree; infer_instance

/-- Slot `i` is the lowest-index null slot of the table. -/
def LowestFree (devmap : DevMap) (i : Nat) : Prop :=
  i < PX4_MAX_DEV ∧ devmap i = none ∧ ∀ j, j < i → devmap j ≠ none

/-- No two occupied slots of the table hold the same name. -/
def UniqueNames (devmap : DevMap) : Prop :=
  ∀ i j, i < PX4_MAX_DEV → j < PX4_MAX_DEV →
    ∀ a b, devmap i = some a → devmap j = some b → a.name = b.name → i = j

/-- The invariant that links the objects to the table: names are unique, and every object whose
`_registered` is set has a registration name and a record under that name whose handle is the
object. -/
def World.Inv (w : World) : Prop :=
  UniqueNames w.devmap ∧
  ∀ k, (w.objects k)._registered = true →
    ∃ n i, (w.objects k)._devname = some n ∧ i < PX4_MAX_DEV ∧
      w.devmap i = some ⟨n, objAddr k⟩

/-! ## Open and close -/

/-- The overridable hooks that `VDev::open` and `VDev::close` invoke. -/
inductive Hook where
  | open_first
  | close_last
deriving DecidableEq, Repr

/-- The method `VDev::open(handlep)`. `open_first` is what the hook `open_first(handlep)`
returns if it is invoked; the last component lists the hooks invoked. The member `_open_count`
is declared in `vdev.h`, which is not among these files; it is a count without an upper bound
here. -/
def VDev.open (d : VDev) (open_first : Int) : Int × VDev × List Hook :=
  let d1 := { d with _open_count := d._open_count + 1 }
  if d1._open_count = 1 then
    if open_first ≠ PX4_OK then
      (open_first, { d1 with _open_count := d1._open_count - 1 }, [Hook.open_first])
    else (open_first, d1, [Hook.open_first])
  else (PX4_OK, d1, [])

/-- The method `VDev::close(handlep)`. `close_last` is what the hook `close_last(handlep)`
returns if it is invoked; the last component lists the hooks invoked. -/
def VDev.close (d : VDev) (close_last : Int) : Int × VDev × List Hook :=
  if d._open_count > 0 then
    let d1 := { d with _open_count := d._open_count - 1 }
    if d1._open_count = 0 then (close_last, d1, [Hook.close_last])
    else (PX4_OK, d1, [])
  else (-EBADF, d, [])

/-- One `open` or `close` call on a device, with the result its hook has if invoked. -/
inductive OpenClose where
  | open (open_first : Int)
  | close (close_last : Int)
deriving DecidableEq, Repr

/-- The call made on a device: result, new state and hooks invoked. -/
def OpenClose.call (d : VDev) : OpenClose → Int × VDev × List Hook
  | .open open_first => d.open open_first
  | .close close_last => d.close close_last

/-- The record of a sequence of calls: every call with its result in the order made, the hooks
invoked in the order invoked, and the device after the last call. -/
structure OpenCloseRun where
  results : List (OpenClose × Int)
  hooks : List Hook
  dev : VDev

/-- The calls of the list made one after the other on a device, first call first. Each call
runs wholly under the device lock, so an interleaving of callers is such a sequence. -/
def runOpenClose (d : VDev) : List OpenClose → OpenCloseRun
  | [] => { results := [], hooks := [], dev := d }
  | c :: cs =>
    let r := c.call d
    let rest := runOpenClose r.2.1 cs
    { results := (c, r.1) :: rest.results, hooks := r.2.2 ++ rest.hooks, dev := rest.dev }

/-- The number of `open` calls of a record that returned `PX4_OK`. -/
def opensOk (results : List (OpenClose × Int)) : Nat :=
  results.countP (fun cr =>
    match cr.1 with
    | .open _ => decide (cr.2 = PX4_OK)
    | .close _ => false)

/-- The number of `close` calls of a record that did not return `-EBADF`. -/
def closesNotBadState (results : List (OpenClose × Int)) : Nat :=
  results.countP (fun cr =>
    match cr.1 with
    | .open _ => false
    | .close _ => decide (cr.2 ≠ -EBADF))

/-- No `close_last` hook of the calls returns `-EBADF` itself. -/
def HooksNotBadState (calls : List OpenClose) : Prop :=
  ∀ r, OpenClose.close r ∈ calls → r ≠ -EBADF

/-- The calls of a round: an `open` whose hook returns `PX4_OK`, one further `open` for every
entry of `rest`, then one `close` for every entry of `closes`; the entries are the results the
hooks would have. -/
def opensThenCloses (rest closes : List Int) : List OpenClose :=
  OpenClose.open PX4_OK :: (rest.map OpenClose.open ++ closes.map OpenClose.close)

/-! ## The generic ioctl commands and the two-stage dispatch -/

/-- Out of memory, from `errno.h`. -/
def ENOMEM : Int := 12

/-- Inappropriate ioctl for device, from `errno.h`. -/
def ENOTTY : Int := 25

/-- The complete object of class `VDev`: the members above, the device id `_device_id.devid`
inherited from the base class `Device`, and the waiter array `_pollset`, whose length is the
class constant `_max_pollwaiters` (declared in `vdev.h`, not among these files); a null entry
is `NULL`. -/
structure VDevObject extends VDev where
  _device_id : Nat
  _pollset : List Ptr
deriving DecidableEq, Repr

/-- The constructor `VDev::VDev(name, devname)` for the whole object; the device id is what the
base-class constructor leaves, the waiter array is filled with null entries. -/
def VDevObject.construct (max_pollwaiters devid : Nat) (devname : Option CStr) : VDevObject :=
  { toVDev := VDev.construct devname, _device_id := devid,
    _pollset := List.replicate max_pollwaiters NULL }

/-- The values of the four generic command macros, which are defined in headers that are not
among these files. -/
structure BaseCmds where
  PX4_DIOC_GETPRIV : Int
  PX4_DEVIOCSPUBBLOCK : Int
  PX4_DEVIOCGPUBBLOCK : Int
  PX4_DEVIOCGDEVICEID : Int
deriving DecidableEq, Repr

/-- The four `case` labels of the `switch` in `VDev::ioctl` are different values, as the
labels of one `switch` are. -/
def BaseCmds.Distinct (k : BaseCmds) : Prop :=
  [k.PX4_DIOC_GETPRIV, k.PX4_DEVIOCSPUBBLOCK, k.PX4_DEVIOCGPUBBLOCK, k.PX4_DEVIOCGDEVICEID].Nodup

/-- The cast `(int)` of a 32-bit unsigned value. -/
def int_of_uint32 (n : Nat) : Int :=
  if n % 2 ^ 32 < 2 ^ 31 then ((n % 2 ^ 32 : Nat) : Int) else ((n % 2 ^ 32 : Nat) : Int) - 2 ^ 32

/-- The method `VDev::ioctl(handlep, cmd, arg)` of the object at `this`. The last component is
the store `*(void **)arg = this` of `PX4_DIOC_GETPRIV`, as address and value, when it is made.
After `case PX4_DEVIOCGDEVICEID` control falls into `default: break`. -/
def VDev.ioctl (k : BaseCmds) (d : VDevObject) (this : Ptr) (cmd : Int) (arg : Nat) :
    Int × VDevObject × Option (Nat × Ptr) :=
  if cmd = k.PX4_DIOC_GETPRIV then (PX4_OK, d, some (arg, this))
  else if cmd = k.PX4_DEVIOCSPUBBLOCK then
    (PX4_OK, { d with _pub_blocked := decide (arg ≠ 0) }, none)
  else if cmd = k.PX4_DEVIOCGPUBBLOCK then ((if d._pub_blocked then 1 else 0), d, none)
  else if cmd = k.PX4_DEVIOCGDEVICEID then (int_of_uint32 d._device_id, d, none)
  else (-ENOTTY, d, none)

/-- The values of the command macros of the sensor driver interface (`drv_sensor.h`,
`drv_accel.h`, `drv_gyro.h`, `drv_device.h`), which are not among these files. -/
structure SensorCmds where
  SENSORIOCRESET : Int
  SENSORIOCSPOLLRATE : Int
  SENSORIOCGPOLLRATE : Int
  SENSORIOCSQUEUEDEPTH : Int
  SENSORIOCGQUEUEDEPTH : Int
  ACCELIOCGSAMPLERATE : Int
  ACCELIOCSSAMPLERATE : Int
  ACCELIOCGLOWPASS : Int
  ACCELIOCSLOWPASS : Int
  ACCELIOCSSCALE : Int
  ACCELIOCGSCALE : Int
  ACCELIOCSRANGE : Int
  ACCELIOCGRANGE : Int
  ACCELIOCSELFTEST : Int
  GYROIOCGSAMPLERATE : Int
  GYROIOCSSAMPLERATE : Int
  GYROIOCGLOWPASS : Int
  GYROIOCSLOWPASS : Int
  GYROIOCSSCALE : Int
  GYROIOCGSCALE : Int
  GYROIOCSRANGE : Int
  GYROIOCGRANGE : Int
  GYROIOCSELFTEST : Int
  DEVIOCGDEVICEID : Int

/-- The `case` labels of the `switch` in `GYROSIM::ioctl`. -/
def SensorCmds.accelLabels (c : SensorCmds) : List Int :=
  [c.SENSORIOCRESET, c.SENSORIOCSPOLLRATE, c.SENSORIOCGPOLLRATE, c.SENSORIOCSQUEUEDEPTH,
   c.SENSORIOCGQUEUEDEPTH, c.ACCELIOCGSAMPLERATE, c.ACCELIOCSSAMPLERATE, c.ACCELIOCGLOWPASS,
   c.ACCELIOCSLOWPASS, c.ACCELIOCSSCALE, c.ACCELIOCGSCALE, c.ACCELIOCSRANGE, c.ACCELIOCGRANGE,
   c.ACCELIOCSELFTEST]

/-- The `case` labels of `GYROSIM::gyro_ioctl` that are passed on to `GYROSIM::ioctl`. -/
def SensorCmds.sharedLabels (c : SensorCmds) : List Int :=
  [c.SENSORIOCSPOLLRATE, c.SENSORIOCGPOLLRATE, c.SENSORIOCRESET]

/-- The other `case` labels of the `switch` in `GYROSIM::gyro_ioctl`. -/
def SensorCmds.gyroLabels (c : SensorCmds) : List Int :=
  [c.SENSORIOCSQUEUEDEPTH, c.SENSORIOCGQUEUEDEPTH, c.GYROIOCGSAMPLERATE, c.GYROIOCSSAMPLERATE,
   c.GYROIOCGLOWPASS, c.GYROIOCSLOWPASS, c.GYROIOCSSCALE, c.GYROIOCGSCALE, c.GYROIOCSRANGE,
   c.GYROIOCGRANGE, c.GYROIOCSELFTEST]

/-- The sensor as the ioctl dispatch sees it: the `VDev` part of the `GYROSIM` object (the accel
endpoint), the `VDev` part of its `GYROSIM_gyro` object `_gyro` (the gyro endpoint), and the
members of `GYROSIM` itself, of a type `S` left open here. -/
structure Gyrosim (S : Type) where
  accel : VDevObject
  gyro : VDevObject
  sensor : S

/-- The bodies of the `case` labels of `GYROSIM::ioctl` and of the labels of
`GYROSIM::gyro_ioctl` that are not passed on: for the label value and the argument, the result
and the new state. -/
structure CaseBodies (S : Type) where
  accel_case : Int → Nat → Gyrosim S → Int × Gyrosim S
  gyro_case : Int → Nat → Gyrosim S → Int × Gyrosim S

/-- The method `GYROSIM::ioctl(filp, cmd, arg)` of the object at `this`: a labelled command
runs its body, any other goes to `VDev::ioctl` of the same object. -/
def GYROSIM.ioctl {S : Type} (c : SensorCmds) (k : BaseCmds) (b : CaseBodies S) (this : Ptr)
    (g : Gyrosim S) (cmd : Int) (arg : Nat) : Int × Gyrosim S × Option (Nat × Ptr) :=
  if cmd ∈ c.accelLabels then
    let r := b.accel_case cmd arg g
    (r.1, r.2, none)
  else
    let r := VDev.ioctl k g.accel this cmd arg
    (r.1, { g with accel := r.2.1 }, r.2.2)

/-- The method `GYROSIM::gyro_ioctl(filp, cmd, arg)` of the object at `this`: the shared
commands go to `ioctl`, a labelled command runs its body, any other goes to `VDev::ioctl` of
the `GYROSIM` object. -/
def GYROSIM.gyro_ioctl {S : Type} (c : SensorCmds) (k : BaseCmds) (b : CaseBodies S)
    (this : Ptr) (g : Gyrosim S) (cmd : Int) (arg : Nat) :
    Int × Gyrosim S × Option (Nat × Ptr) :=
  if cmd ∈ c.sharedLabels then GYROSIM.ioctl c k b this g cmd arg
  else if cmd ∈ c.gyroLabels then
    let r := b.gyro_case cmd arg g
    (r.1, r.2, none)
  else
    let r := VDev.ioctl k g.accel this cmd arg
    (r.1, { g with accel := r.2.1 }, r.2.2)

/-- The method `GYROSIM_gyro::ioctl(filp, cmd, arg)` of the object at `this`, whose `_parent`
is the `GYROSIM` object at `parent`: `DEVIOCGDEVICEID` goes to `VDev::ioctl` of the gyro object
itself, any other command to `_parent->gyro_ioctl`. -/
def GYROSIM_gyro.ioctl {S : Type} (c : SensorCmds) (k : BaseCmds) (b : CaseBodies S)
    (this parent : Ptr) (g : Gyrosim S) (cmd : Int) (arg : Nat) :
    Int × Gyrosim S × Option (Nat × Ptr) :=
  if cmd = c.DEVIOCGDEVICEID then
    let r := VDev.ioctl k g.gyro this cmd arg
    (r.1, { g with gyro := r.2.1 }, r.2.2)
  else GYROSIM.gyro_ioctl c k b parent g cmd arg

/-- Sample values for the generic command macros. -/
def sampleBaseCmds : BaseCmds :=
  { PX4_DIOC_GETPRIV := 1, PX4_DEVIOCSPUBBLOCK := 2, PX4_DEVIOCGPUBBLOCK := 3,
    PX4_DEVIOCGDEVICEID := 4 }

/-- Sample values for the sensor command macros. -/
def sampleSensorCmds : SensorCmds :=
  { SENSORIOCRESET := 10, SENSORIOCSPOLLRATE := 11, SENSORIOCGPOLLRATE := 12,
    SENSORIOCSQUEUEDEPTH := 13, SENSORIOCGQUEUEDEPTH := 14, ACCELIOCGSAMPLERATE := 20,
    ACCELIOCSSAMPLERATE := 21, ACCELIOCGLOWPASS := 22, ACCELIOCSLOWPASS := 23,
    ACCELIOCSSCALE := 24, ACCELIOCGSCALE := 25, ACCELIOCSRANGE := 26, ACCELIOCGRANGE := 27,
    ACCELIOCSELFTEST := 28, GYROIOCGSAMPLERATE := 30, GYROIOCSSAMPLERATE := 31,
    GYROIOCGLOWPASS := 32, GYROIOCSLOWPASS := 33, GYROIOCSSCALE := 34, GYROIOCGSCALE := 35,
    GYROIOCSRANGE := 36, GYROIOCGRANGE := 37, GYROIOCSELFTEST := 38, DEVIOCGDEVICEID := 4 }

/-- Case bodies that do nothing and return `PX4_OK`, for evaluating the dispatch. -/
def idleBodies : CaseBodies Unit :=
  { accel_case := fun _ _ g => (PX4_OK, g), gyro_case := fun _ _ g => (PX4_OK, g) }

/-- A sensor whose two endpoints are freshly constructed with 8 waiter slots. -/
def sampleGyrosim : Gyrosim Unit :=
  { accel := VDevObject.construct 8 1 (some "/dev/gyrosim_accel".toList),
    gyro := VDevObject.construct 8 2 (some "/dev/gyrosim_gyro".toList),
    sensor := () }

/-! ## Poll waiters -/

/-- The caller's `px4_pollfd_struct_t`, with the members the device touches: the interest mask
`events`, the observed mask `revents`, the address `sem` of the wake semaphore and `priv`. The
masks are of type `pollevent_t`, a bit set. -/
structure px4_pollfd_struct_t where
  events : Nat
  revents : Nat
  sem : Ptr
  priv : Ptr
deriving DecidableEq, Repr

/-- The memory the poll functions reach through pointers: the `px4_pollfd_struct_t` at each
address and the count of the semaphore at each address. -/
structure PollMem where
  fds : Ptr → px4_pollfd_struct_t
  sem_value : Ptr → Int

/-- The call `sem_post(sem)`: the count of that semaphore goes up by one. -/
def sem_post (mem : PollMem) (sem : Ptr) : PollMem :=
  { mem with sem_value := Function.update mem.sem_value sem (mem.sem_value sem + 1) }

/-- The method `VDev::store_poll_waiter(fds)`. -/
def VDev.store_poll_waiter (d : VDevObject) (fds : Ptr) : Int × VDevObject :=
  match firstIdx (fun i => decide (NULL = d._pollset.getD i NULL)) d._pollset.length 0 with
  | some i => (PX4_OK, { d with _pollset := d._pollset.set i fds })
  | none => (-ENOMEM, d)

/-- The method `VDev::remove_poll_waiter(fds)`; the line printed when no slot matches is not
part of the state. -/
def VDev.remove_poll_waiter (d : VDevObject) (fds : Ptr) : Int × VDevObject :=
  match firstIdx (fun i => decide (fds = d._pollset.getD i NULL)) d._pollset.length 0 with
  | some i => (PX4_OK, { d with _pollset := d._pollset.set i NULL })
  | none => (-EINVAL, d)

/-- The method `VDev::poll(handlep, fds, setup)`. `poll_state` is what the overridable
`poll_state(handlep)` returns when it is called. -/
def VDev.poll (d : VDevObject) (mem : PollMem) (poll_state : Nat) (handlep fds : Ptr)
    (setup : Bool) : Int × VDevObject × PollMem :=
  if setup then
    let f0 : px4_pollfd_struct_t := { mem.fds fds with priv := handlep }
    let mem1 : PollMem := { mem with fds := Function.update mem.fds fds f0 }
    let r := VDev.store_poll_waiter d fds
    if r.1 = PX4_OK then
      let f := mem1.fds fds
      let f1 : px4_pollfd_struct_t := { f with revents := f.revents ||| (f.events &&& poll_state) }
      let mem2 : PollMem := { mem1 with fds := Function.update mem1.fds fds f1 }
      if (mem2.fds fds).revents ≠ 0 then (r.1, r.2, sem_post mem2 (mem2.fds fds).sem)
      else (r.1, r.2, mem2)
    else (r.1, r.2, mem1)
  else
    let r := VDev.remove_poll_waiter d fds
    (r.1, r.2, mem)

/-- The method `VDev::poll_notify_one(fds, events)`. -/
def VDev.poll_notify_one (mem : PollMem) (fds : Ptr) (events : Nat) : PollMem :=
  let value := mem.sem_value (mem.fds fds).sem
  let f := mem.fds fds
  let f1 : px4_pollfd_struct_t := { f with revents := f.revents ||| (f.events &&& events) }
  let mem1 : PollMem := { mem with fds := Function.update mem.fds fds f1 }
  if (mem1.fds fds).revents ≠ 0 ∧ value ≤ 0 then sem_post mem1 (mem1.fds fds).sem else mem1

/-- The method `VDev::poll_notify(events)`: every non-null slot in index order. -/
def VDev.poll_notify (d : VDevObject) (mem : PollMem) (events : Nat) : PollMem :=
  d._pollset.foldl (fun m p => if p ≠ NULL then VDev.poll_notify_one m p events else m) mem

/-- One step in the life of a device's waiter array: a poll setup, a poll teardown, a notify,
or anything the callers do to their own structures and semaphores in between. -/
inductive PollCall where
  | setup (handlep fds : Ptr) (poll_state : Nat)
  | teardown (handlep fds : Ptr)
  | notify (events : Nat)
  | caller (write : PollMem → PollMem)

/-- The device and the memory after one step. -/
def PollCall.run (s : VDevObject × PollMem) : PollCall → VDevObject × PollMem
  | .setup handlep fds poll_state => (VDev.poll s.1 s.2 poll_state handlep fds true).2
  | .teardown handlep fds => (VDev.poll s.1 s.2 0 handlep fds false).2
  | .notify events => (s.1, VDev.poll_notify s.1 s.2 events)
  | .caller write => (s.1, write s.2)

/-- The device and the memory after a sequence of steps, first step first. -/
def runPoll (s : VDevObject × PollMem) : List PollCall → VDevObject × PollMem
  | [] => s
  | c :: cs => runPoll (c.run s) cs

/-- No setup of the sequence is made for a waiter that occupies a slot at the time. -/
def SetupFresh (s : VDevObject × PollMem) : List PollCall → Prop
  | [] => True
  | c :: cs =>
    (∀ handlep fds poll_state, c = PollCall.setup handlep fds poll_state → fds ∉ s.1._pollset) ∧
    SetupFresh (c.run s) cs

/-- Slot `i` is the lowest-index null slot of the waiter array. -/
def LowestNull (pollset : List Ptr) (i : Nat) : Prop :=
  i < pollset.length ∧ pollset.getD i NULL = NULL ∧ ∀ j, j < i → pollset.getD j NULL ≠ NULL

/-- Slot `i` is the lowest-index slot of the waiter array that holds `fds`. -/
def LowestHolding (pollset : List Ptr) (fds : Ptr) (i : Nat) : Prop :=
  i < pollset.length ∧ pollset.getD i NULL = fds ∧ ∀ j, j < i → pollset.getD j NULL ≠ fds

/-- Memory in which every structure has interest mask 1, a clear observed mask and the
semaphore at address 100, whose count is 0. -/
def sampleMem : PollMem :=
  { fds := fun _ => { events := 1, revents := 0, sem := 100, priv := 0 },
    sem_value := fun _ => 0 }

/-- A table with all 100 slots occupied, slot `i` by the record named by the digits of `i`. -/
def fullMap : DevMap := fun i => some ⟨Nat.toDigits 10 i, objAddr i⟩

/-- Every waiter occupies at most one slot of the waiter array. -/
def AtMostOnce (pollset : List Ptr) : Prop :=
  ∀ p, p ≠ NULL → pollset.count p ≤ 1

/-- The device after poll setups for the waiters 3 and 4 on a fresh device with two slots. -/
def twoWaiters : VDevObject × PollMem :=
  runPoll (VDevObject.construct 2 1 none, sampleMem)
    [PollCall.setup 1 3 0, PollCall.setup 1 4 0]

/-! ## Notification -/

/-- A `px4_pollfd_struct_t` after `revents |= events & mask`. -/
def notified (f : px4_pollfd_struct_t) (mask : Nat) : px4_pollfd_struct_t :=
  { f with revents := f.revents ||| (f.events &&& mask) }

/-- The waiters of the slots are different structures with different semaphores: for any two
slots, the one before the other, that both hold a waiter. -/
def IndepWaiters (pollset : List Ptr) (mem : PollMem) : Prop :=
  pollset.Pairwise (fun p q => p ≠ NULL → q ≠ NULL →
    p ≠ q ∧ (mem.fds p).sem ≠ (mem.fds q).sem)

/-- The memory after `poll_notify` has been called once for each mask of the list, in order,
the callers leaving their structures alone in between. -/
def notifyAll (d : VDevObject) (mem : PollMem) : List Nat → PollMem
  | [] => mem
  | e :: es => notifyAll d (VDev.poll_notify d mem e) es

/-- The masks of the list or-ed together. -/
def orAll : List Nat → Nat
  | [] => 0
  | e :: es => e ||| orAll es

/-- The loop of `VDev::poll_notify` over the slots `pollset`, for the mask `events`. -/
def notifySlots (pollset : List Ptr) (mem : PollMem) (events : Nat) : PollMem :=
  pollset.foldl (fun m p => if p ≠ NULL then VDev.poll_notify_one m p events else m) mem

/-- Memory in which the structure at address `p` has interest mask 1, a clear observed mask and
its own semaphore, at address `100 + p`, whose count is 0. -/
def ownSemMem : PollMem :=
  { fds := fun p => { events := 1, revents := 0, sem := 100 + p, priv := 0 },
    sem_value := fun _ => 0 }

/-- The device after poll setups for the waiters 3 and 4, each with its own semaphore, on a
fresh device with two slots. -/
def twoOwnSem : VDevObject × PollMem :=
  runPoll (VDevObject.construct 2 1 none, ownSemMem)
    [PollCall.setup 1 3 0, PollCall.setup 1 4 0]

/-! ## The sensor driver `gyrosim.cpp`: ring buffers, the sampling tick, read and start -/

/-- Resource temporarily unavailable, from `errno.h`. -/
def EAGAIN : Int := 11

/-- The data-available event, from `poll.h`. -/
def POLLIN : Nat := 1

/-- Modelled from the spec: the class `ringbuffer::RingBuffer`, whose source is not among these
files. A buffer has a capacity of at least 1 and an ordered sequence of at most that many
records, the oldest first. -/
structure RingBuffer (α : Type) where
  capacity : Nat
  records : List α

/-- Modelled from the spec: `RingBuffer::flush()`, missing with the class; it discards every
record. -/
def RingBuffer.flush {α : Type} (b : RingBuffer α) : RingBuffer α :=
  { b with records := [] }

/-- Modelled from the spec: `RingBuffer::empty()`, missing with the class. -/
def RingBuffer.empty {α : Type} (b : RingBuffer α) : Bool :=
  b.records.isEmpty

/-- Modelled from the spec: `RingBuffer::force(val)`, missing with the class; it never fails,
the oldest record being discarded to make room when the buffer is full. -/
def RingBuffer.force {α : Type} (b : RingBuffer α) (x : α) : RingBuffer α :=
  if b.records.length < b.capacity then { b with records := b.records ++ [x] }
  else { b with records := b.records.drop 1 ++ [x] }

/-- Modelled from the spec: `RingBuffer::get(val)`, missing with the class; it removes and
returns the oldest record, or indicates that there is none. -/
def RingBuffer.get {α : Type} (b : RingBuffer α) : Option α × RingBuffer α :=
  match b.records with
  | [] => (none, b)
  | x :: xs => (some x, { b with records := xs })

/-- The struct `accel_report` (declared in `drv_accel.h`, not among these files) with the
members `measure` fills: the integer members one by one, the floating-point members (`x`, `y`,
`z`, `scaling`, `range_m_s2`, `temperature`) together as a value of the open type `F`. -/
structure accel_report (F : Type) where
  timestamp : Nat
  error_count : Nat
  x_raw : Int
  y_raw : Int
  z_raw : Int
  temperature_raw : Int
  floats : F

/-- The struct `gyro_report` (declared in `drv_gyro.h`, not among these files), as
`accel_report`; its floating-point members are `x`, `y`, `z`, `scaling`, `range_rad_s`,
`temperature`. -/
structure gyro_report (F : Type) where
  timestamp : Nat
  error_count : Nat
  x_raw : Int
  y_raw : Int
  z_raw : Int
  temperature_raw : Int
  floats : F

/-- The local `struct Report` of `GYROSIM::measure`: the seven `int16_t` values of a reading,
after `int16_t_from_bytes`. -/
structure Report where
  accel_x : Int
  accel_y : Int
  accel_z : Int
  temp : Int
  gyro_x : Int
  gyro_y : Int
  gyro_z : Int
deriving DecidableEq, Repr

/-- The floating-point work of `measure`, left open: from the floating-point members of the
driver (rotation, range scales, offsets and scales, the state of the six filters,
`_last_temperature`) of the open type `Flt` and the raw `x`, `y`, `z` and temperature, the
floating-point members of the report and the new floating-point members of the driver. -/
structure Collab (F Flt : Type) where
  accel : Flt → Int → Int → Int → Int → F × Flt
  gyro : Flt → Int → Int → Int → Int → F × Flt

/-- Modelled from the spec: the timer entry `struct hrt_call _call`, whose source is not among
these files: whether a call is pending, and the delay and period it was armed with. -/
structure hrt_call where
  scheduled : Bool
  delay : Nat
  period : Nat
deriving DecidableEq, Repr

/-- The members of the `GYROSIM` object that the tick, read and start use. The `perf_counter_t`
members hold their event counts. -/
structure Sensor (F Flt : Type) where
  _call : hrt_call
  _call_interval : Nat
  _accel_reports : RingBuffer (accel_report F)
  _gyro_reports : RingBuffer (gyro_report F)
  _accel_reads : Nat
  _gyro_reads : Nat
  _sample_perf : Nat
  _bad_transfers : Nat
  _bad_registers : Nat
  _good_transfers : Nat
  _register_wait : Nat
  _sample_rate : Nat
  floats : Flt

/-- What the driver does outside its own members, in the order done: the timer calls, the
flushes of its buffers, the notifications of the two endpoints and the publications. -/
inductive Effect (F : Type) where
  | hrt_cancel
  | hrt_call_every (delay period : Nat)
  | flush_accel
  | flush_gyro
  | notify_accel (events : Nat)
  | notify_gyro (events : Nat)
  | publish_accel (r : accel_report F)
  | publish_gyro (r : gyro_report F)

/-- The test of `measure` for the all-zero reading. -/
def Report.allZero (r : Report) : Bool :=
  decide (r.accel_x = 0 ∧ r.accel_y = 0 ∧ r.accel_z = 0 ∧ r.temp = 0 ∧
    r.gyro_x = 0 ∧ r.gyro_y = 0 ∧ r.gyro_z = 0)

/-- The accel report `measure` builds from a reading at time `now`. -/
def GYROSIM.arb {F Flt : Type} (co : Collab F Flt) (s : Sensor F Flt) (report : Report)
    (now : Nat) : accel_report F :=
  let accel_xt := report.accel_y
  let accel_yt := if report.accel_x = -32768 then 32767 else -report.accel_x
  { timestamp := now, error_count := s._bad_transfers + s._bad_registers,
    x_raw := accel_xt, y_raw := accel_yt, z_raw := report.accel_z,
    temperature_raw := report.temp,
    floats := (co.accel s.floats accel_xt accel_yt report.accel_z report.temp).1 }

/-- The gyro report `measure` builds from a reading at time `now`; its floating-point part is
computed after that of the accel report. -/
def GYROSIM.grb {F Flt : Type} (co : Collab F Flt) (s : Sensor F Flt) (report : Report)
    (now : Nat) : gyro_report F :=
  let accel_xt := report.accel_y
  let accel_yt := if report.accel_x = -32768 then 32767 else -report.accel_x
  let gyro_xt := report.gyro_y
  let gyro_yt := if report.gyro_x = -32768 then 32767 else -report.gyro_x
  let flt := (co.accel s.floats accel_xt accel_yt report.accel_z report.temp).2
  { timestamp := now, error_count := s._bad_transfers + s._bad_registers,
    x_raw := gyro_xt, y_raw := gyro_yt, z_raw := report.gyro_z,
    temperature_raw := report.temp,
    floats := (co.gyro flt gyro_xt gyro_yt report.gyro_z report.temp).1 }

/-- The floating-point members of the driver after a tick that stages. -/
def GYROSIM.floatsAfter {F Flt : Type} (co : Collab F Flt) (s : Sensor F Flt)
    (report : Report) : Flt :=
  let accel_xt := report.accel_y
  let accel_yt := if report.accel_x = -32768 then 32767 else -report.accel_x
  let gyro_xt := report.gyro_y
  let gyro_yt := if report.gyro_x = -32768 then 32767 else -report.gyro_x
  let flt := (co.accel s.floats accel_xt accel_yt report.accel_z report.temp).2
  (co.gyro flt gyro_xt gyro_yt report.gyro_z report.temp).2

/-- The method `GYROSIM::measure()`. `transfer` is what `transfer()` delivers: `none` when it
does not return `OK` (no simulator instance), else the reading; `now` is what
`hrt_absolute_time()` returns. The result is the sensor, the memory of the pollers and the
effects in order. -/
def GYROSIM.measure {F Flt : Type} (co : Collab F Flt) (g : Gyrosim (Sensor F Flt))
    (mem : PollMem) (transfer : Option Report) (now : Nat) :
    Gyrosim (Sensor F Flt) × PollMem × List (Effect F) :=
  match transfer with
  | none => (g, mem, [])
  | some report =>
    if report.allZero then
      let s1 : Sensor F Flt :=
        { g.sensor with _bad_transfers := g.sensor._bad_transfers + 1,
                        _sample_perf := g.sensor._sample_perf + 1 }
      ({ g with sensor := s1 }, mem, [])
    else
      let s1 : Sensor F Flt := { g.sensor with _good_transfers := g.sensor._good_transfers + 1 }
      if s1._register_wait ≠ 0 then
        let s2 : Sensor F Flt := { s1 with _register_wait := s1._register_wait - 1 }
        ({ g with sensor := s2 }, mem, [])
      else
        let arb := GYROSIM.arb co s1 report now
        let grb := GYROSIM.grb co s1 report now
        let s2 : Sensor F Flt :=
          { s1 with _accel_reports := s1._accel_reports.force arb,
                    _gyro_reports := s1._gyro_reports.force grb,
                    floats := GYROSIM.floatsAfter co s1 report }
        let mem1 := VDev.poll_notify g.accel mem POLLIN
        let mem2 := VDev.poll_notify g.gyro mem1 POLLIN
        let pub_a : List (Effect F) :=
          if g.accel._pub_blocked then [] else [Effect.publish_accel arb]
        let pub_g : List (Effect F) :=
          if g.accel._pub_blocked then [] else [Effect.publish_gyro grb]
        let s3 : Sensor F Flt := { s2 with _sample_perf := s2._sample_perf + 1 }
        ({ g with sensor := s3 }, mem2,
          [Effect.notify_accel POLLIN, Effect.notify_gyro POLLIN] ++ pub_a ++ pub_g)

/-- The value of `unsigned count = buflen / sizeof(report)`. -/
def read_count (buflen size : Nat) : Nat :=
  (buflen / size) % 2 ^ 32

/-- The loop `while (count--) { if (!reports->get(p)) break; transferred++; p++; }`: the
records copied to the caller, oldest first, and the buffer left. -/
def drain {α : Type} : Nat → RingBuffer α → List α × RingBuffer α
  | 0, b => ([], b)
  | n + 1, b =>
    match b.get with
    | (some x, b1) =>
      let r := drain n b1
      (x :: r.1, r.2)
    | (none, _) => ([], b)

/-- The outcome of a read: the value returned, the records written to the caller's buffer, the
sensor, the memory of the pollers and the effects. -/
structure ReadOut (R F Flt : Type) where
  ret : Int
  out : List R
  state : Gyrosim (Sensor F Flt)
  mem : PollMem
  effects : List (Effect F)

/-- The method `GYROSIM::read(filp, buffer, buflen)`; `size` is `sizeof(accel_report)`. -/
def GYROSIM.read {F Flt : Type} (co : Collab F Flt) (size : Nat) (g : Gyrosim (Sensor F Flt))
    (mem : PollMem) (transfer : Option Report) (now : Nat) (buflen : Nat) :
    ReadOut (accel_report F) F Flt :=
  let count := read_count buflen size
  if count < 1 then { ret := -ENOSPC, out := [], state := g, mem := mem, effects := [] }
  else
    let m : Gyrosim (Sensor F Flt) × PollMem × List (Effect F) :=
      if g.sensor._call_interval = 0 then
        let s1 : Sensor F Flt := { g.sensor with _accel_reports := g.sensor._accel_reports.flush }
        let r := GYROSIM.measure co { g with sensor := s1 } mem transfer now
        (r.1, r.2.1, Effect.flush_accel :: r.2.2)
      else (g, mem, [])
    if m.1.sensor._accel_reports.empty then
      { ret := -EAGAIN, out := [], state := m.1, mem := m.2.1, effects := m.2.2 }
    else
      let dr := drain count m.1.sensor._accel_reports
      let s2 : Sensor F Flt :=
        { m.1.sensor with _accel_reads := m.1.sensor._accel_reads + 1, _accel_reports := dr.2 }
      { ret := ((dr.1.length * size : Nat) : Int), out := dr.1,
        state := { m.1 with sensor := s2 }, mem := m.2.1, effects := m.2.2 }

/-- The method `GYROSIM::gyro_read(filp, buffer, buflen)`, which `GYROSIM_gyro::read` calls;
`size` is `sizeof(gyro_report)`. -/
def GYROSIM.gyro_read {F Flt : Type} (co : Collab F Flt) (size : Nat)
    (g : Gyrosim (Sensor F Flt)) (mem : PollMem) (transfer : Option Report) (now : Nat)
    (buflen : Nat) : ReadOut (gyro_report F) F Flt :=
  let count := read_count buflen size
  if count < 1 then { ret := -ENOSPC, out := [], state := g, mem := mem, effects := [] }
  else
    let m : Gyrosim (Sensor F Flt) × PollMem × List (Effect F) :=
      if g.sensor._call_interval = 0 then
        let s1 : Sensor F Flt := { g.sensor with _gyro_reports := g.sensor._gyro_reports.flush }
        let r := GYROSIM.measure co { g with sensor := s1 } mem transfer now
        (r.1, r.2.1, Effect.flush_gyro :: r.2.2)
      else (g, mem, [])
    if m.1.sensor._gyro_reports.empty then
      { ret := -EAGAIN, out := [], state := m.1, mem := m.2.1, effects := m.2.2 }
    else
      let dr := drain count m.1.sensor._gyro_reports
      let s2 : Sensor F Flt :=
        { m.1.sensor with _gyro_reads := m.1.sensor._gyro_reads + 1, _gyro_reports := dr.2 }
      { ret := ((dr.1.length * size : Nat) : Int), out := dr.1,
        state := { m.1 with sensor := s2 }, mem := m.2.1, effects := m.2.2 }

/-- Modelled from the spec: `hrt_cancel(&_call)`, whose source is not among these files; no
call is pending afterwards. -/
def hrt_cancel (c : hrt_call) : hrt_call :=
  { c with scheduled := false }

/-- Modelled from the spec: `hrt_call_every(&_call, delay, interval, ...)`, whose source is not
among these files; a call is pending afterwards, first after `delay` and then every
`interval`. -/
def hrt_call_every (_c : hrt_call) (delay interval : Nat) : hrt_call :=
  { scheduled := true, delay := delay, period := interval }

/-- The method `GYROSIM::stop()`. -/
def GYROSIM.stop {F Flt : Type} (g : Gyrosim (Sensor F Flt)) :
    Gyrosim (Sensor F Flt) × List (Effect F) :=
  let s1 : Sensor F Flt := { g.sensor with _call := hrt_cancel g.sensor._call }
  ({ g with sensor := s1 }, [Effect.hrt_cancel])

/-- The method `GYROSIM::start()`. -/
def GYROSIM.start {F Flt : Type} (g : Gyrosim (Sensor F Flt)) :
    Gyrosim (Sensor F Flt) × List (Effect F) :=
  let r := GYROSIM.stop g
  let s1 : Sensor F Flt :=
    { r.1.sensor with _accel_reports := r.1.sensor._accel_reports.flush,
                      _gyro_reports := r.1.sensor._gyro_reports.flush }
  let s2 : Sensor F Flt :=
    { s1 with _call := hrt_call_every s1._call 1000 s1._call_interval }
  ({ r.1 with sensor := s2 },
    r.2 ++ [Effect.flush_accel, Effect.flush_gyro,
      Effect.hrt_call_every 1000 s1._call_interval])

/-- The sensor with the `_pub_blocked` member of the `GYROSIM` object set to `b`. -/
def setPubBlocked {S : Type} (g : Gyrosim S) (b : Bool) : Gyrosim S :=
  let a : VDevObject := { g.accel with _pub_blocked := b }
  { g with accel := a }

/-- One call on the sensor after it was started: a timer tick, a read on the accel endpoint or
a read on the gyro endpoint, with what the transport delivers, the time and the buffer
length. -/
inductive SensorCall where
  | tick (transfer : Option Report) (now : Nat)
  | read (transfer : Option Report) (now : Nat) (buflen : Nat)
  | gyro_read (transfer : Option Report) (now : Nat) (buflen : Nat)

/-- The time at which a call is made. -/
def SensorCall.now : SensorCall → Nat
  | .tick _ now => now
  | .read _ now _ => now
  | .gyro_read _ now _ => now

/-- One call: the sensor and memory after it and the timestamps of the records a read
returned. -/
def SensorCall.run {F Flt : Type} (co : Collab F Flt) (size_accel size_gyro : Nat)
    (st : Gyrosim (Sensor F Flt) × PollMem) :
    SensorCall → (Gyrosim (Sensor F Flt) × PollMem) × List Nat
  | .tick transfer now =>
    let r := GYROSIM.measure co st.1 st.2 transfer now
    ((r.1, r.2.1), [])
  | .read transfer now buflen =>
    let r := GYROSIM.read co size_accel st.1 st.2 transfer now buflen
    ((r.state, r.mem), r.out.map (fun x => x.timestamp))
  | .gyro_read transfer now buflen =>
    let r := GYROSIM.gyro_read co size_gyro st.1 st.2 transfer now buflen
    ((r.state, r.mem), r.out.map (fun x => x.timestamp))

/-- A sequence of calls, first call first: the sensor and memory after them and the timestamps
of all the records the reads returned. -/
def runSensor {F Flt : Type} (co : Collab F Flt) (size_accel size_gyro : Nat)
    (st : Gyrosim (Sensor F Flt) × PollMem) :
    List SensorCall → (Gyrosim (Sensor F Flt) × PollMem) × List Nat
  | [] => (st, [])
  | c :: cs =>
    let r := c.run co size_accel size_gyro st
    let rest := runSensor co size_accel size_gyro r.1 cs
    (rest.1, r.2 ++ rest.2)

/-- A collaborator for evaluation whose floating-point values carry no information. -/
def unitCollab : Collab Unit Unit :=
  { accel := fun _ _ _ _ _ => ((), ()), gyro := fun _ _ _ _ _ => ((), ()) }

/-- The sensor as `GYROSIM::init` sets it up: two buffers of capacity 2, manual mode, counters
at 0, no call pending; waiter 3 is stored on the accel endpoint. -/
def sampleSensor : Gyrosim (Sensor Unit Unit) :=
  { accel := (VDev.poll sampleGyrosim.accel ownSemMem 0 1 3 true).2.1,
    gyro := sampleGyrosim.gyro,
    sensor :=
      { _call := { scheduled := false, delay := 0, period := 0 }, _call_interval := 0,
        _accel_reports := { capacity := 2, records := [] },
        _gyro_reports := { capacity := 2, records := [] },
        _accel_reads := 0, _gyro_reads := 0, _sample_perf := 0, _bad_transfers := 0,
        _bad_registers := 0, _good_transfers := 0, _register_wait := 0, _sample_rate := 1000,
        floats := () } }

/-- A reading that is not all zero. -/
def sampleReport : Report :=
  { accel_x := 5, accel_y := -7, accel_z := 9, temp := 100, gyro_x := -32768, gyro_y := 2,
    gyro_z := 3 }

/-- The all-zero reading. -/
def zeroReport : Report :=
  { accel_x := 0, accel_y := 0, accel_z := 0, temp := 0, gyro_x := 0, gyro_y := 0, gyro_z := 0 }

/-- The sensor after `_accel_reports->flush()`. -/
def flushAccel {F Flt : Type} (g : Gyrosim (Sensor F Flt)) : Gyrosim (Sensor F Flt) :=
  let s1 : Sensor F Flt := { g.sensor with _accel_reports := g.sensor._accel_reports.flush }
  { g with sensor := s1 }

/-- The sensor after `_gyro_reports->flush()`. -/
def flushGyro {F Flt : Type} (g : Gyrosim (Sensor F Flt)) : Gyrosim (Sensor F Flt) :=
  let s1 : Sensor F Flt := { g.sensor with _gyro_reports := g.sensor._gyro_reports.flush }
  { g with sensor := s1 }

/-- The sensor after `perf_count(_accel_reads)` and the drain loop of `read` for `count`. -/
def drainAccel {F Flt : Type} (g : Gyrosim (Sensor F Flt)) (count : Nat) :
    Gyrosim (Sensor F Flt) :=
  let s1 : Sensor F Flt :=
    { g.sensor with _accel_reads := g.sensor._accel_reads + 1,
                    _accel_reports := (drain count g.sensor._accel_reports).2 }
  { g with sensor := s1 }

/-- The sensor after `perf_count(_gyro_reads)` and the drain loop of `gyro_read` for `count`. -/
def drainGyro {F Flt : Type} (g : Gyrosim (Sensor F Flt)) (count : Nat) :
    Gyrosim (Sensor F Flt) :=
  let s1 : Sensor F Flt :=
    { g.sensor with _gyro_reads := g.sensor._gyro_reads + 1,
                    _gyro_reports := (drain count g.sensor._gyro_reports).2 }
  { g with sensor := s1 }

/-- The tick stages records: the transport delivers a reading that is not all zero and no
register wait is pending. -/
def Stages {F Flt : Type} (g : Gyrosim (Sensor F Flt)) (transfer : Option Report) : Prop :=
  ∃ report, transfer = some report ∧ report.allZero = false ∧ g.sensor._register_wait = 0

/-- The accel ring buffer as the drain loop of `read` finds it: after the flush and the tick
in manual mode, as it is otherwise. -/
def stagedAccel {F Flt : Type} (co : Collab F Flt) (g : Gyrosim (Sensor F Flt)) (mem : PollMem)
    (transfer : Option Report) (now : Nat) : RingBuffer (accel_report F) :=
  if g.sensor._call_interval = 0 then
    (GYROSIM.measure co (flushAccel g) mem transfer now).1.sensor._accel_reports
  else g.sensor._accel_reports

/-- The gyro ring buffer as the drain loop of `gyro_read` finds it. -/
def stagedGyro {F Flt : Type} (co : Collab F Flt) (g : Gyrosim (Sensor F Flt)) (mem : PollMem)
    (transfer : Option Report) (now : Nat) : RingBuffer (gyro_report F) :=
  if g.sensor._call_interval = 0 then
    (GYROSIM.measure co (flushGyro g) mem transfer now).1.sensor._gyro_reports
  else g.sensor._gyro_reports

/-- What a read returns, for the size of a record, the count of records the caller's buffer
holds, the ring buffer `staged` that the drain loop finds, the value returned, the records
copied out and the ring buffer left: `-ENOSPC` when the count is below 1; `-EAGAIN` when nothing
is staged; else the number of bytes copied, which is the size of a record times the number of
records copied, these being the oldest `count` records staged, as many as there are. -/
def ReadReturns {R : Type} (size count : Nat) (staged : RingBuffer R) (ret : Int)
    (out : List R) (left : RingBuffer R) : Prop :=
  (ret = -ENOSPC ∧ ret < 0 ∧ count < 1 ∧ out = []) ∨
  (ret = -EAGAIN ∧ ret < 0 ∧ 1 ≤ count ∧ staged.records = [] ∧ out = []) ∨
  (ret = ((out.length * size : Nat) : Int) ∧ 0 < ret ∧ 1 ≤ out.length ∧
    out.length = min count staged.records.length ∧
    out = staged.records.take count ∧ left.records = staged.records.drop count)

/-! ## The sensor driver: the poll rate and the sample rate -/

/-- The values of the poll-rate and sample-rate macros of `drv_sensor.h`, `drv_accel.h` and
`drv_gyro.h`, which are not among these files, as values of `unsigned long`. -/
structure RateMacros where
  SENSOR_POLLRATE_MANUAL : Nat
  SENSOR_POLLRATE_EXTERNAL : Nat
  SENSOR_POLLRATE_MAX : Nat
  SENSOR_POLLRATE_DEFAULT : Nat
  GYRO_SAMPLERATE_DEFAULT : Nat
  ACCEL_SAMPLERATE_DEFAULT : Nat
deriving DecidableEq, Repr

/-- The macro `GYROSIM_ACCEL_DEFAULT_RATE` of `gyrosim.cpp`. -/
def GYROSIM_ACCEL_DEFAULT_RATE : Nat := 1000

/-- The macro `GYROSIM_GYRO_DEFAULT_RATE` of `gyrosim.cpp`. -/
def GYROSIM_GYRO_DEFAULT_RATE : Nat := 1000

/-- What the ioctl cases do outside the integer members, left open: the filter settings of the
poll-rate case from the floating-point members and `ticks`; the cases that only read or write
floating-point members (low pass, scale, range), from the command, the argument,
`_call_interval` and the floating-point members to the result and the new members; and
`resize` and `size` of the ring buffers, whose class is not among these files. -/
structure IoctlCollab (F Flt : Type) where
  set_filters : Flt → Nat → Flt
  float_case : Int → Nat → Nat → Flt → Int × Flt
  resize_accel : RingBuffer (accel_report F) → Nat → Bool × RingBuffer (accel_report F)
  resize_gyro : RingBuffer (gyro_report F) → Nat → Bool × RingBuffer (gyro_report F)
  size_accel : RingBuffer (accel_report F) → Int
  size_gyro : RingBuffer (gyro_report F) → Int

/-- The method `GYROSIM::_set_sample_rate(desired_sample_rate_hz)`; the argument is an
`unsigned`, `div` is a `uint8_t`. The register write `write_reg(MPUREG_SMPLRT_DIV, div-1)`
changes no member. -/
def GYROSIM._set_sample_rate {F Flt : Type} (p : RateMacros) (s : Sensor F Flt)
    (desired_sample_rate_hz : Nat) : Sensor F Flt :=
  let d :=
    if desired_sample_rate_hz = 0 ∨ desired_sample_rate_hz = p.GYRO_SAMPLERATE_DEFAULT ∨
        desired_sample_rate_hz = p.ACCEL_SAMPLERATE_DEFAULT then GYROSIM_GYRO_DEFAULT_RATE
    else desired_sample_rate_hz
  let div0 := (1000 / d) % 2 ^ 8
  let div1 := if div0 > 200 then 200 else div0
  let div2 := if div1 < 1 then 1 else div1
  { s with _sample_rate := 1000 / div2 }

/-- The body of `case SENSORIOCSPOLLRATE` of `GYROSIM::ioctl` for the argument `arg`. The cases
`SENSOR_POLLRATE_MAX` and `SENSOR_POLLRATE_DEFAULT` call `ioctl` again with the same command;
the first argument bounds the depth of these calls, and the result is `none` when the bound is
reached. The result is the value returned, the sensor and the timer effects. -/
def GYROSIM.ioctl_pollrate {F Flt : Type} (p : RateMacros) (ic : IoctlCollab F Flt) :
    Nat → Gyrosim (Sensor F Flt) → Nat → Option (Int × Gyrosim (Sensor F Flt) × List (Effect F))
  | 0, _, _ => none
  | fuel + 1, g, arg =>
    if arg = p.SENSOR_POLLRATE_MANUAL then
      let r := GYROSIM.stop g
      let s1 : Sensor F Flt := { r.1.sensor with _call_interval := 0 }
      some (OK, { r.1 with sensor := s1 }, r.2)
    else if arg = p.SENSOR_POLLRATE_EXTERNAL ∨ arg = 0 then some (-EINVAL, g, [])
    else if arg = p.SENSOR_POLLRATE_MAX then GYROSIM.ioctl_pollrate p ic fuel g 1000
    else if arg = p.SENSOR_POLLRATE_DEFAULT then
      GYROSIM.ioctl_pollrate p ic fuel g GYROSIM_ACCEL_DEFAULT_RATE
    else
      let want_start := decide (g.sensor._call_interval = 0)
      let ticks := (1000000 / arg) % 2 ^ 32
      if ticks < 1000 then some (-EINVAL, g, [])
      else
        let c1 : hrt_call := { g.sensor._call with period := ticks }
        let s1 : Sensor F Flt :=
          { g.sensor with floats := ic.set_filters g.sensor.floats ticks,
                          _call_interval := ticks, _call := c1 }
        let g1 : Gyrosim (Sensor F Flt) := { g with sensor := s1 }
        if want_start then
          let r := GYROSIM.start g1
          some (OK, r.1, r.2)
        else some (OK, g1, [])

/-- The body of `case SENSORIOCGPOLLRATE` of `GYROSIM::ioctl`. -/
def GYROSIM.ioctl_get_pollrate {F Flt : Type} (p : RateMacros) (g : Gyrosim (Sensor F Flt)) :
    Int :=
  if g.sensor._call_interval = 0 then (p.SENSOR_POLLRATE_MANUAL : Int)
  else ((1000000 / g.sensor._call_interval : Nat) : Int)

/-- The bodies of the `case` labels of `GYROSIM::ioctl`, in the order of the source:
`reset()` and `accel_self_test()` return `OK` at once; the cases of the low pass, the scale
and the range work on floating-point members only. `none` when the poll-rate case reaches the
bound of its depth. -/
def GYROSIM.accel_case {F Flt : Type} (c : SensorCmds) (p : RateMacros) (ic : IoctlCollab F Flt)
    (fuel : Nat) (cmd : Int) (arg : Nat) (g : Gyrosim (Sensor F Flt)) :
    Option (Int × Gyrosim (Sensor F Flt)) :=
  if cmd = c.SENSORIOCRESET then some (OK, g)
  else if cmd = c.SENSORIOCSPOLLRATE then
    match GYROSIM.ioctl_pollrate p ic fuel g arg with
    | some r => some (r.1, r.2.1)
    | none => none
  else if cmd = c.SENSORIOCGPOLLRATE then some (GYROSIM.ioctl_get_pollrate p g, g)
  else if cmd = c.SENSORIOCSQUEUEDEPTH then
    if arg < 1 ∨ arg > 100 then some (-EINVAL, g)
    else
      let r := ic.resize_accel g.sensor._accel_reports arg
      let s1 : Sensor F Flt := { g.sensor with _accel_reports := r.2 }
      some ((if r.1 then OK else -ENOMEM), { g with sensor := s1 })
  else if cmd = c.SENSORIOCGQUEUEDEPTH then some (ic.size_accel g.sensor._accel_reports, g)
  else if cmd = c.ACCELIOCGSAMPLERATE then some (int_of_uint32 g.sensor._sample_rate, g)
  else if cmd = c.ACCELIOCSSAMPLERATE then
    some (OK, { g with sensor := GYROSIM._set_sample_rate p g.sensor (arg % 2 ^ 32) })
  else if cmd = c.ACCELIOCSELFTEST then some (OK, g)
  else
    let r := ic.float_case cmd arg g.sensor._call_interval g.sensor.floats
    let s1 : Sensor F Flt := { g.sensor with floats := r.2 }
    some (r.1, { g with sensor := s1 })

/-- The bodies of the `case` labels of `GYROSIM::gyro_ioctl` that are not passed on to
`GYROSIM::ioctl`, in the order of the source: `GYROIOCSRANGE` returns `-EINVAL`,
`gyro_self_test()` returns `OK` at once. -/
def GYROSIM.gyro_case {F Flt : Type} (c : SensorCmds) (p : RateMacros) (ic : IoctlCollab F Flt)
    (cmd : Int) (arg : Nat) (g : Gyrosim (Sensor F Flt)) : Int × Gyrosim (Sensor F Flt) :=
  if cmd = c.SENSORIOCSQUEUEDEPTH then
    if arg < 1 ∨ arg > 100 then (-EINVAL, g)
    else
      let r := ic.resize_gyro g.sensor._gyro_reports arg
      let s1 : Sensor F Flt := { g.sensor with _gyro_reports := r.2 }
      ((if r.1 then OK else -ENOMEM), { g with sensor := s1 })
  else if cmd = c.SENSORIOCGQUEUEDEPTH then (ic.size_gyro g.sensor._gyro_reports, g)
  else if cmd = c.GYROIOCGSAMPLERATE then (int_of_uint32 g.sensor._sample_rate, g)
  else if cmd = c.GYROIOCSSAMPLERATE then
    (OK, { g with sensor := GYROSIM._set_sample_rate p g.sensor (arg % 2 ^ 32) })
  else if cmd = c.GYROIOCSRANGE then (-EINVAL, g)
  else if cmd = c.GYROIOCSELFTEST then (OK, g)
  else
    let r := ic.float_case cmd arg g.sensor._call_interval g.sensor.floats
    let s1 : Sensor F Flt := { g.sensor with floats := r.2 }
    (r.1, { g with sensor := s1 })

/-- The case bodies of the sensor for the dispatch of `GYROSIM::ioctl` and
`GYROSIM::gyro_ioctl`. Where the poll-rate case reaches the bound `fuel` of its depth (the
call does not return within it), the body stands for no run of the source and the sensor is
kept with `-EINVAL`. -/
def sensorBodies {F Flt : Type} (c : SensorCmds) (p : RateMacros) (ic : IoctlCollab F Flt)
    (fuel : Nat) : CaseBodies (Sensor F Flt) :=
  { accel_case := fun cmd arg g =>
      match GYROSIM.accel_case c p ic fuel cmd arg g with
      | some r => r
      | none => (-EINVAL, g),
    gyro_case := fun cmd arg g => GYROSIM.gyro_case c p ic cmd arg g }

/-- The poll-rate macros with the values `1000000`, `1000001`, `1000002`, `1000003`, and the
two default sample rates likewise outside the range of rates. -/
def sampleRates : RateMacros :=
  { SENSOR_POLLRATE_MANUAL := 1000000, SENSOR_POLLRATE_EXTERNAL := 1000001,
    SENSOR_POLLRATE_MAX := 1000002, SENSOR_POLLRATE_DEFAULT := 1000003,
    GYRO_SAMPLERATE_DEFAULT := 1000003, ACCEL_SAMPLERATE_DEFAULT := 1000003 }

/-- An ioctl collaborator for evaluation on the sample sensor: it keeps everything. -/
def unitIoctl : IoctlCollab Unit Unit :=
  { set_filters := fun _ _ => (), float_case := fun _ _ _ _ => (0, ()),
    resize_accel := fun b _ => (true, b), resize_gyro := fun b _ => (true, b),
    size_accel := fun b => (b.capacity : Int), size_gyro := fun b => (b.capacity : Int) }

/-- Every record in the two ring buffers carries a timestamp of the list `T`. -/
def StampsIn {F Flt : Type} (g : Gyrosim (Sensor F Flt)) (T : List Nat) : Prop :=
  (∀ r ∈ g.sensor._accel_reports.records, r.timestamp ∈ T) ∧
  (∀ r ∈ g.sensor._gyro_reports.records, r.timestamp ∈ T)

/-- The two records the tick forces into the ring buffers, when it gets as far as that: the
transport delivers a reading, the reading is not all zero and no register wait is pending. -/
def GYROSIM.staged {F Flt : Type} (co : Collab F Flt) (g : Gyrosim (Sensor F Flt))
    (transfer : Option Report) (now : Nat) : Option (accel_report F × gyro_report F) :=
  match transfer with
  | none => none
  | some report =>
    if report.allZero then none
    else if g.sensor._register_wait ≠ 0 then none
    else some (GYROSIM.arb co g.sensor report now, GYROSIM.grb co g.sensor report now)

/-- The first `n` ticks of the timer, tick `i` with the reading `readings i` at the time
`times i`: the sensor and the memory of the pollers after them and the pairs of records
staged, in order. -/
def runTicks {F Flt : Type} (co : Collab F Flt) (g : Gyrosim (Sensor F Flt)) (mem : PollMem)
    (readings : Nat → Option Report) (times : Nat → Nat) :
    Nat → (Gyrosim (Sensor F Flt) × PollMem) × List (accel_report F × gyro_report F)
  | 0 => ((g, mem), [])
  | n + 1 =>
    let r := runTicks co g mem readings times n
    let m := GYROSIM.measure co r.1.1 r.1.2 (readings n) (times n)
    ((m.1, m.2.1), r.2 ++ (GYROSIM.staged co r.1.1 (readings n) (times n)).toList)

/-- Readings of which exactly every third is all zero, the others being non-zero. -/
def thirdZero : Nat → Option Report :=
  fun i => if (i + 1) % 3 = 0 then some zeroReport else some sampleReport

/-! ## Destruction -/

/-- The destructor `VDev::~VDev()`: what it does to the table. -/
def VDev.destruct (d : VDev) (devmap : DevMap) : DevMap :=
  if d._registered then (unregister_driver devmap d._devname).2 else devmap

/-- The conversion of an `int` to `unsigned`, as for the argument `class_instance` of
`unregister_class_devname`. -/
def uint_of_int (n : Int) : Nat :=
  (n % 2 ^ 32).toNat

/-- The values of the macros `ACCEL_BASE_DEVICE_PATH` and `GYRO_BASE_DEVICE_PATH` (`drv_accel.h`
and `drv_gyro.h`, not among these files). -/
structure ClassPaths where
  ACCEL_BASE_DEVICE_PATH : CStr
  GYRO_BASE_DEVICE_PATH : CStr
deriving DecidableEq, Repr

/-- The registration members of the sensor: the `VDev` members of the `GYROSIM` object and of
its `GYROSIM_gyro` object, and the two class instance numbers. -/
structure SensorReg where
  accel : VDev
  gyro : VDev
  _accel_class_instance : Int
  _gyro_class_instance : Int
deriving DecidableEq, Repr

/-- The constructors `GYROSIM::GYROSIM(path_accel, path_gyro, rotation)` and
`GYROSIM_gyro::GYROSIM_gyro(parent, path)`, for the registration members. -/
def SensorReg.construct (path_accel path_gyro : Option CStr) : SensorReg :=
  { accel := VDev.construct path_accel, gyro := VDev.construct path_gyro,
    _accel_class_instance := -1, _gyro_class_instance := -1 }

/-- The method `GYROSIM_gyro::init()` of the object at `this`: the result, the `VDev` members,
`_gyro_class_instance` and the table. -/
def GYROSIM_gyro.init (paths : ClassPaths) (gyro : VDev) (gyro_class_instance : Int)
    (this : Ptr) (device_init : Int) (devmap : DevMap) : Int × VDev × Int × DevMap :=
  let r := gyro.init this device_init devmap
  if r.1 ≠ OK then (r.1, r.2.1, gyro_class_instance, r.2.2)
  else
    let c := register_class_devname r.2.2 this (some paths.GYRO_BASE_DEVICE_PATH)
    (r.1, r.2.1, c.1, c.2)

/-- The method `GYROSIM::init()` of the object at `this`, whose `_gyro` is at `gyro_this`, as
far as registration goes: the result, the registration members and the table. The results of
`Device::init()` for the two objects and whether the two `new` expressions yield a buffer are
given; `reset()` returns `OK`; the first tick and the advertisement of the topics, which
follow the class registration, do not touch the table. -/
def GYROSIM.init (paths : ClassPaths) (s : SensorReg) (this gyro_this : Ptr)
    (device_init gyro_device_init : Int) (accel_reports_ok gyro_reports_ok : Bool)
    (devmap : DevMap) : Int × SensorReg × DevMap :=
  let r := s.accel.init this device_init devmap
  if r.1 ≠ OK then (r.1, { s with accel := r.2.1 }, r.2.2)
  else if accel_reports_ok = false then (r.1, { s with accel := r.2.1 }, r.2.2)
  else if gyro_reports_ok = false then (r.1, { s with accel := r.2.1 }, r.2.2)
  else
    let rg := GYROSIM_gyro.init paths s.gyro s._gyro_class_instance gyro_this gyro_device_init
      r.2.2
    if rg.1 ≠ OK then
      (rg.1, { s with accel := r.2.1, gyro := rg.2.1, _gyro_class_instance := rg.2.2.1 },
        rg.2.2.2)
    else
      let c := register_class_devname rg.2.2.2 this (some paths.ACCEL_BASE_DEVICE_PATH)
      (rg.1, { accel := r.2.1, gyro := rg.2.1, _accel_class_instance := c.1,
               _gyro_class_instance := rg.2.2.1 }, c.2)

/-- The destructor `GYROSIM_gyro::~GYROSIM_gyro()` followed by `VDev::~VDev()` of the same
object: what they do to the table. -/
def GYROSIM_gyro.destruct (paths : ClassPaths) (gyro : VDev) (gyro_class_instance : Int)
    (devmap : DevMap) : DevMap :=
  let d1 :=
    if gyro_class_instance ≠ -1 then
      (unregister_class_devname devmap paths.GYRO_BASE_DEVICE_PATH
        (uint_of_int gyro_class_instance)).2
    else devmap
  gyro.destruct d1

/-- The destructor `GYROSIM::~GYROSIM()`, which deletes `_gyro`, followed by `VDev::~VDev()` of
the `GYROSIM` object: what they do to the table. -/
def GYROSIM.destruct (paths : ClassPaths) (s : SensorReg) (devmap : DevMap) : DevMap :=
  let d1 := GYROSIM_gyro.destruct paths s.gyro s._gyro_class_instance devmap
  let d2 :=
    if s._accel_class_instance ≠ -1 then
      (unregister_class_devname d1 paths.ACCEL_BASE_DEVICE_PATH
        (uint_of_int s._accel_class_instance)).2
    else d1
  s.accel.destruct d2

/-- The handle a registry call registers, if it registers one. -/
def RegistryCall.data : RegistryCall → Option Ptr
  | .register_driver _ data => some data
  | .register_class_devname this _ => some this
  | _ => none

/-- Every record of the table whose handle is `p` carries one of the names of `L`. -/
def NamedIn (devmap : DevMap) (p : Ptr) (L : List CStr) : Prop :=
  ∀ i, i < PX4_MAX_DEV → ∀ e, devmap i = some e → e.cdev = p → e.name ∈ L

/-- The names the destructors of an object look for: the registration name when `_registered`
is set and the class instance name when the class instance number is not negative. -/
def ownNames (d : VDev) (class_instance : Int) (base : CStr) : List CStr :=
  (if d._registered then d._devname.toList else []) ++
  (if 0 ≤ class_instance then [snprintf32 base (uint_of_int class_instance)] else [])

/-- Sample class paths. -/
def samplePaths : ClassPaths :=
  { ACCEL_BASE_DEVICE_PATH := "/dev/accel".toList, GYRO_BASE_DEVICE_PATH := "/dev/gyro".toList }

/-! ## Listing the names -/

/-- The test `devmap[i] && strncmp(devmap[i]->name, pre, 5) == 0` for a prefix `pre` of five
bytes: the slot is occupied and the first five bytes of its name are those of `pre`. -/
def prefixAt (devmap : DevMap) (pre : CStr) (i : Nat) : Bool :=
  match devmap i with
  | some d => decide (d.name.take 5 = pre)
  | none => false

/-- The loop `for (; *next < PX4_MAX_DEV; (*next)++) if (<test>) return devmap[(*next)++]->name;
return NULL;` shared by `topicList` and `devList`: the name returned (`none` for `NULL`) and
the cursor `*next` after the call. -/
def listScan (devmap : DevMap) (pre : CStr) (next : Nat) : Option CStr × Nat :=
  match firstIdx (prefixAt devmap pre) (PX4_MAX_DEV - next) next with
  | some i =>
    (match devmap i with
     | some d => some d.name
     | none => none, i + 1)
  | none => (none, max next PX4_MAX_DEV)

/-- The function `VDev::topicList(next)`. -/
def VDev.topicList (devmap : DevMap) (next : Nat) : Option CStr × Nat :=
  listScan devmap "/obj/".toList next

/-- The function `VDev::devList(next)`. -/
def VDev.devList (devmap : DevMap) (next : Nat) : Option CStr × Nat :=
  listScan devmap "/dev/".toList next

/-- The caller's loop `while ((name = list(&next)) != NULL) <take name>` from the cursor
`next`: the names taken, in order; the first argument bounds the number of calls, and the
result is `none` when the bound is reached before a call returns `NULL`. -/
def enumerate (list : Nat → Option CStr × Nat) : Nat → Nat → Option (List CStr)
  | 0, _ => none
  | fuel + 1, next =>
    match list next with
    | (some name, next1) =>
      match enumerate list fuel next1 with
      | some rest => some (name :: rest)
      | none => none
    | (none, _) => some []

/-- The name in slot `i` when it begins with the five bytes of `pre`. -/
def prefixedAt (devmap : DevMap) (pre : CStr) (i : Nat) : Option CStr :=
  match devmap i with
  | some d => if d.name.take 5 = pre then some d.name else none
  | none => none

/-- The registered names that begin with `pre`, one for each slot that holds such a name, in
increasing slot order. -/
def namesWithPrefix (devmap : DevMap) (pre : CStr) : List CStr :=
  (List.range PX4_MAX_DEV).filterMap (prefixedAt devmap pre)

/-- A table with two device nodes, a topic and a short name. -/
def mixedMap : DevMap :=
  fun i =>
    if i = 0 then some ⟨"/dev/accel0".toList, 1⟩
    else if i = 2 then some ⟨"/obj/sensor_accel".toList, 2⟩
    else if i = 5 then some ⟨"/dev".toList, 3⟩
    else if i = 99 then some ⟨"/dev/gyro0".toList, 4⟩
    else none

/-! ## Sequences of ioctl calls on the sensor -/

/-- One ioctl call on the sensor: on the gyro endpoint (`GYROSIM_gyro::ioctl`) or on the accel
endpoint (`GYROSIM::ioctl`), with the command, the argument and what the collaborators do
during this call. -/
structure IoctlCall (F Flt : Type) where
  on_gyro : Bool
  cmd : Int
  arg : Nat
  ic : IoctlCollab F Flt

/-- The call on the sensor whose `GYROSIM` object is at `this` and whose `GYROSIM_gyro` object
is at `gyro_this`. -/
def IoctlCall.run {F Flt : Type} (c : SensorCmds) (k : BaseCmds) (p : RateMacros) (fuel : Nat)
    (this gyro_this : Ptr) (g : Gyrosim (Sensor F Flt)) (call : IoctlCall F Flt) :
    Int × Gyrosim (Sensor F Flt) × Option (Nat × Ptr) :=
  if call.on_gyro then
    GYROSIM_gyro.ioctl c k (sensorBodies c p call.ic fuel) gyro_this this g call.cmd call.arg
  else GYROSIM.ioctl c k (sensorBodies c p call.ic fuel) this g call.cmd call.arg

/-- The sensor after a sequence of ioctl calls, first call first. -/
def runIoctls {F Flt : Type} (c : SensorCmds) (k : BaseCmds) (p : RateMacros) (fuel : Nat)
    (this gyro_this : Ptr) (g : Gyrosim (Sensor F Flt)) :
    List (IoctlCall F Flt) → Gyrosim (Sensor F Flt)
  | [] => g
  | call :: calls =>
    runIoctls c k p fuel this gyro_this (call.run c k p fuel this gyro_this g).2.1 calls

/-- The interval is 0 or between 1000 and 1000000 microseconds. -/
def IntervalOk (n : Nat) : Prop :=
  n = 0 ∨ (1000 ≤ n ∧ n ≤ 1000000)

/-- The conversion of an `int` to `int16_t`. -/
def int16_of_int (n : Int) : Int :=
  (n + 32768) % 65536 - 32768

/-- The seven values of a reading are values of `int16_t`. -/
def Report.InRange (r : Report) : Prop :=
  (-32768 ≤ r.accel_x ∧ r.accel_x ≤ 32767) ∧ (-32768 ≤ r.accel_y ∧ r.accel_y ≤ 32767) ∧
  (-32768 ≤ r.accel_z ∧ r.accel_z ≤ 32767) ∧ (-32768 ≤ r.temp ∧ r.temp ≤ 32767) ∧
  (-32768 ≤ r.gyro_x ∧ r.gyro_x ≤ 32767) ∧ (-32768 ≤ r.gyro_y ∧ r.gyro_y ≤ 32767) ∧
  (-32768 ≤ r.gyro_z ∧ r.gyro_z ≤ 32767)

/-! ## The scanning loop -/

theorem firstIdx_some {p : Nat → Bool} {n i j : Nat} (h : firstIdx p n i = some j) :
    i ≤ j ∧ j < i + n ∧ p j = true ∧ ∀ m, i ≤ m → m < j → p m = false := by
  induction n generalizing i with
  | zero => simp [firstIdx] at h
  | succ n ih =>
    simp only [firstIdx] at h
    split at h
    · rename_i hp
      injection h with h
      subst h
      exact ⟨le_refl _, by omega, hp, fun m h1 h2 => by omega⟩
    · rename_i hp
      obtain ⟨h1, h2, h3, h4⟩ := ih h
      refine ⟨by omega, by omega, h3, fun m hm1 hm2 => ?_⟩
      by_cases hmi : m = i
      · subst hmi; simpa using hp
      · exact h4 m (by omega) hm2

theorem firstIdx_none {p : Nat → Bool} {n i : Nat} (h : firstIdx p n i = none) :
    ∀ m, i ≤ m → m < i + n → p m = false := by
  induction n generalizing i with
  | zero => intro m h1 h2; omega
  | succ n ih =>
    simp only [firstIdx] at h
    split at h
    · simp at h
    · rename_i hp
      intro m h1 h2
      by_cases hmi : m = i
      · subst hmi; simpa using hp
      · exact ih h m (by omega) (by omega)

theorem firstIdx_eq_none {p : Nat → Bool} {n i : Nat}
    (h : ∀ m, i ≤ m → m < i + n → p m = false) : firstIdx p n i = none := by
  cases hf : firstIdx p n i with
  | none => rfl
  | some j =>
    obtain ⟨h1, h2, h3, _⟩ := firstIdx_some hf
    rw [h j h1 h2] at h3
    exact absurd h3 (by simp)

theorem firstIdx_eq_some {p : Nat → Bool} {n i j : Nat} (h1 : i ≤ j) (h2 : j < i + n)
    (h3 : p j = true) (h4 : ∀ m, i ≤ m → m < j → p m = false) : firstIdx p n i = some j := by
  cases hf : firstIdx p n i with
  | none =>
    have := firstIdx_none hf j h1 h2
    rw [this] at h3
    exact absurd h3 (by simp)
  | some k =>
    obtain ⟨k1, k2, k3, k4⟩ := firstIdx_some hf
    rcases Nat.lt_trichotomy k j with hlt | heq | hgt
    · rw [h4 k k1 hlt] at k3; exact absurd k3 (by simp)
    · rw [heq]
    · rw [k4 j h1 hgt] at h3; exact absurd h3 (by simp)

/-! ## Facts about the table -/

theorem nameAt_true {devmap : DevMap} {name : CStr} {i : Nat} :
    nameAt devmap name i = true ↔ ∃ d, devmap i = some d ∧ d.name = name := by
  unfold nameAt
  cases h : devmap i with
  | none => simp
  | some d => simp

theorem nameAt_update_ne {devmap : DevMap} {name : CStr} {i j : Nat} {v : Option px4_dev_t}
    (h : j ≠ i) : nameAt (Function.update devmap i v) name j = nameAt devmap name j := by
  unfold nameAt
  rw [Function.update_noteq h]

theorem not_registered_iff {devmap : DevMap} {name : CStr} :
    ¬ Registered devmap name ↔ ∀ m, 0 ≤ m → m < 0 + PX4_MAX_DEV → nameAt devmap name m = false := by
  unfold Registered
  constructor
  · intro h m _ hm
    cases hn : nameAt devmap name m with
    | false => rfl
    | true => exact absurd ⟨m, by omega, hn⟩ h
  · rintro h ⟨i, hi, hn⟩
    rw [h i (Nat.zero_le _) (by omega)] at hn
    exact absurd hn (by simp)

theorem scan_name_none {devmap : DevMap} {name : CStr} (h : ¬ Registered devmap name) :
    firstIdx (nameAt devmap name) PX4_MAX_DEV 0 = none :=
  firstIdx_eq_none (not_registered_iff.mp h)

theorem scan_name_some {devmap : DevMap} {name : CStr} (h : Registered devmap name) :
    ∃ i, firstIdx (nameAt devmap name) PX4_MAX_DEV 0 = some i := by
  cases hf : firstIdx (nameAt devmap name) PX4_MAX_DEV 0 with
  | some i => exact ⟨i, rfl⟩
  | none => exact absurd h (not_registered_iff.mpr (firstIdx_none hf))

theorem scan_free_some {devmap : DevMap} {i : Nat} (h : LowestFree devmap i) :
    firstIdx (freeAt devmap) PX4_MAX_DEV 0 = some i := by
  obtain ⟨h1, h2, h3⟩ := h
  refine firstIdx_eq_some (Nat.zero_le _) (by omega) (by simp [freeAt, h2]) ?_
  intro m _ hm
  have := h3 m hm
  cases hd : devmap m with
  | none => exact absurd hd this
  | some d => simp [freeAt, hd]

theorem scan_free_lowest {devmap : DevMap} {i : Nat}
    (h : firstIdx (freeAt devmap) PX4_MAX_DEV 0 = some i) : LowestFree devmap i := by
  obtain ⟨_, h2, h3, h4⟩ := firstIdx_some h
  refine ⟨by omega, by simpa [freeAt] using h3, fun j hj hn => ?_⟩
  have := h4 j (Nat.zero_le _) hj
  simp [freeAt, hn] at this

theorem scan_free_none {devmap : DevMap} (h : ¬ HasFree devmap) :
    firstIdx (freeAt devmap) PX4_MAX_DEV 0 = none := by
  apply firstIdx_eq_none
  intro m _ hm
  cases hd : devmap m with
  | none => exact absurd ⟨m, by omega, hd⟩ h
  | some d => simp [freeAt, hd]

theorem hasFree_lowest {devmap : DevMap} (h : HasFree devmap) : ∃ i, LowestFree devmap i := by
  cases hf : firstIdx (freeAt devmap) PX4_MAX_DEV 0 with
  | some i => exact ⟨i, scan_free_lowest hf⟩
  | none =>
    obtain ⟨i, hi, hd⟩ := h
    have := firstIdx_none hf i (Nat.zero_le _) (by omega)
    simp [freeAt, hd] at this

/-! ## What each registry operation does, case by case -/

theorem register_driver_exists {devmap : DevMap} {name : CStr} {data : Ptr}
    (hdata : data ≠ NULL) (h : Registered devmap name) :
    register_driver devmap (some name) data = (-EEXIST, devmap) := by
  obtain ⟨i, hi⟩ := scan_name_some h
  simp [register_driver, hdata, hi]

theorem register_driver_insert {devmap : DevMap} {name : CStr} {data : Ptr} {i : Nat}
    (hdata : data ≠ NULL) (h : ¬ Registered devmap name) (hfree : LowestFree devmap i) :
    register_driver devmap (some name) data
      = (PX4_OK, Function.update devmap i (some ⟨name, data⟩)) := by
  simp [register_driver, hdata, scan_name_none h, scan_free_some hfree]

theorem register_driver_full {devmap : DevMap} {name : CStr} {data : Ptr}
    (hdata : data ≠ NULL) (h : ¬ Registered devmap name) (hfull : ¬ HasFree devmap) :
    register_driver devmap (some name) data = (-ENOSPC, devmap) := by
  simp [register_driver, hdata, scan_name_none h, scan_free_none hfull]

/-- Every outcome of `register_driver` on a non-null name and handle. -/
theorem register_driver_cases (devmap : DevMap) (name : CStr) (data : Ptr) (hdata : data ≠ NULL) :
    (Registered devmap name ∧ register_driver devmap (some name) data = (-EEXIST, devmap)) ∨
    (¬ Registered devmap name ∧ ¬ HasFree devmap ∧
      register_driver devmap (some name) data = (-ENOSPC, devmap)) ∨
    (¬ Registered devmap name ∧ ∃ i, LowestFree devmap i ∧
      register_driver devmap (some name) data
        = (PX4_OK, Function.update devmap i (some ⟨name, data⟩))) := by
  by_cases h : Registered devmap name
  · exact Or.inl ⟨h, register_driver_exists hdata h⟩
  · by_cases hf : HasFree devmap
    · obtain ⟨i, hi⟩ := hasFree_lowest hf
      exact Or.inr (Or.inr ⟨h, i, hi, register_driver_insert hdata h hi⟩)
    · exact Or.inr (Or.inl ⟨h, hf, register_driver_full hdata h hf⟩)

theorem unregister_driver_absent {devmap : DevMap} {name : CStr} (h : ¬ Registered devmap name) :
    unregister_driver devmap (some name) = (-ENOSPC, devmap) := by
  simp [unregister_driver, scan_name_none h]

theorem getDev_absent {devmap : DevMap} {path : CStr} (h : ¬ Registered devmap path) :
    getDev devmap path = NULL := by
  simp [getDev, scan_name_none h]

/-- The first record named `path` decides `getDev`. -/
theorem getDev_first {devmap : DevMap} {path : CStr} {i : Nat} {d : px4_dev_t}
    (hi : i < PX4_MAX_DEV) (hd : devmap i = some d) (hn : d.name = path)
    (hlow : ∀ j, j < i → nameAt devmap path j = false) : getDev devmap path = d.cdev := by
  have : firstIdx (nameAt devmap path) PX4_MAX_DEV 0 = some i :=
    firstIdx_eq_some (Nat.zero_le _) (by omega) (nameAt_true.mpr ⟨d, hd, hn⟩)
      (fun m _ hm => hlow m hm)
  simp [getDev, this, hd]

/-- A lookup does not see a slot that holds another name. -/
theorem getDev_update_other {devmap : DevMap} {path : CStr} {i : Nat} {v : Option px4_dev_t}
    (hold : nameAt devmap path i = false)
    (hnew : nameAt (Function.update devmap i v) path i = false) :
    getDev (Function.update devmap i v) path = getDev devmap path := by
  have hp : ∀ m, nameAt (Function.update devmap i v) path m = nameAt devmap path m := by
    intro m
    by_cases hm : m = i
    · subst hm; rw [hold, hnew]
    · exact nameAt_update_ne hm
  have hfun : nameAt (Function.update devmap i v) path = nameAt devmap path := funext hp
  unfold getDev
  rw [hfun]
  cases hf : firstIdx (nameAt devmap path) PX4_MAX_DEV 0 with
  | none => rfl
  | some k =>
    have hk := (firstIdx_some hf).2.2.1
    have hki : k ≠ i := by
      intro hki
      rw [hki, hold] at hk
      exact absurd hk (by simp)
    simp [Function.update_noteq hki]

/-- A successful `register_driver` found the name absent and wrote the lowest null slot. -/
theorem register_driver_ok {devmap devmap1 : DevMap} {name : Option CStr} {data : Ptr}
    (h : register_driver devmap name data = (PX4_OK, devmap1)) :
    ∃ n i, name = some n ∧ data ≠ NULL ∧ ¬ Registered devmap n ∧ LowestFree devmap i ∧
      devmap1 = Function.update devmap i (some ⟨n, data⟩) := by
  cases name with
  | none => simp [register_driver, EINVAL, PX4_OK] at h
  | some n =>
    by_cases hdata : data = NULL
    · simp [register_driver, hdata, EINVAL, PX4_OK] at h
    · rcases register_driver_cases devmap n data hdata with ⟨_, hr⟩ | ⟨_, _, hr⟩ | ⟨ha, i, hi, hr⟩
      · rw [hr] at h; simp [EEXIST, PX4_OK] at h
      · rw [hr] at h; simp [ENOSPC, PX4_OK] at h
      · rw [hr] at h
        exact ⟨n, i, rfl, hdata, ha, hi, (Prod.mk.inj h).2.symm⟩

/-- After a record named `n` is written into a null slot of a table that had no such name,
a lookup of `n` returns its handle. -/
theorem getDev_inserted {devmap : DevMap} {n : CStr} {data : Ptr} {i : Nat}
    (ha : ¬ Registered devmap n) (hi : LowestFree devmap i) :
    getDev (Function.update devmap i (some ⟨n, data⟩)) n = data := by
  have hlow : ∀ j, j < i → nameAt (Function.update devmap i (some ⟨n, data⟩)) n j = false := by
    intro j hj
    rw [nameAt_update_ne (by omega)]
    exact not_registered_iff.mp ha j (Nat.zero_le _) (by have := hi.1; omega)
  exact getDev_first hi.1 (Function.update_same i _ devmap) rfl hlow

/-! ## Claims about `register_driver`, `unregister_driver` and `getDev` -/

/-- C1. For every table and every name already present in it, `register_driver` with that name
and a non-null handle returns `-EEXIST` and leaves the table as it was; `getDev` of the name
gives afterwards what it gave before, namely the handle of the lowest-index record of that
name, and when the table came from a successful `register_driver (name, h)` that handle is
`h`. -/
theorem register_driver_twice (devmap : DevMap) (name : CStr) (data : Ptr)
    (hdata : data ≠ NULL) (hpres : Registered devmap name) :
    register_driver devmap (some name) data = (-EEXIST, devmap) ∧
    getDev (register_driver devmap (some name) data).2 name = getDev devmap name ∧
    (∃ i d, i < PX4_MAX_DEV ∧ devmap i = some d ∧ d.name = name ∧
      (∀ j, j < i → nameAt devmap name j = false) ∧ getDev devmap name = d.cdev) ∧
    (∀ devmap0 h, register_driver devmap0 (some name) h = (PX4_OK, devmap) →
      getDev (register_driver devmap (some name) data).2 name = h) := by
  have hr := register_driver_exists hdata hpres
  refine ⟨hr, by rw [hr], ?_, ?_⟩
  · obtain ⟨i, hi⟩ := scan_name_some hpres
    obtain ⟨_, h2, h3, h4⟩ := firstIdx_some hi
    obtain ⟨d, hd, hn⟩ := nameAt_true.mp h3
    have hlow : ∀ j, j < i → nameAt devmap name j = false := fun j hj => h4 j (Nat.zero_le _) hj
    exact ⟨i, d, by omega, hd, hn, hlow, getDev_first (by omega) hd hn hlow⟩
  · intro devmap0 h h0
    obtain ⟨n, i, hn, _, ha, hi, hm⟩ := register_driver_ok h0
    injection hn with hn
    subst hn
    rw [hr, hm]
    exact getDev_inserted ha hi

/-- Instance of C1: the name registered in an empty table is refused the second time and still
resolves to the first handle. -/
theorem register_driver_twice_witness :
    register_driver (register_driver emptyMap (some "/dev/gyrosim_accel".toList) 7).2
        (some "/dev/gyrosim_accel".toList) 9
      = (-EEXIST, (register_driver emptyMap (some "/dev/gyrosim_accel".toList) 7).2) ∧
    getDev (register_driver (register_driver emptyMap (some "/dev/gyrosim_accel".toList) 7).2
        (some "/dev/gyrosim_accel".toList) 9).2 "/dev/gyrosim_accel".toList = 7 :=
  have h := register_driver_twice (register_driver emptyMap (some "/dev/gyrosim_accel".toList) 7).2
    "/dev/gyrosim_accel".toList 9 (by decide) (by decide)
  ⟨h.1, h.2.1.trans (by decide)⟩

/-- C2. For every table and every name not present in it (and a non-null handle): when some
slot is null, `register_driver` returns `PX4_OK`, the lowest-index null slot holds the new
record and no other slot changes; when all `PX4_MAX_DEV = 100` slots are occupied it returns
`-ENOSPC` and leaves the table as it was. -/
theorem register_driver_fresh (devmap : DevMap) (name : CStr) (data : Ptr)
    (hdata : data ≠ NULL) (habs : ¬ Registered devmap name) :
    PX4_MAX_DEV = 100 ∧
    (HasFree devmap → ∃ i, LowestFree devmap i ∧
      (register_driver devmap (some name) data).1 = PX4_OK ∧
      (register_driver devmap (some name) data).2 i = some ⟨name, data⟩ ∧
      ∀ j, j ≠ i → (register_driver devmap (some name) data).2 j = devmap j) ∧
    ((∀ i, i < PX4_MAX_DEV → devmap i ≠ none) →
      register_driver devmap (some name) data = (-ENOSPC, devmap)) := by
  refine ⟨rfl, ?_, ?_⟩
  · intro hf
    obtain ⟨i, hi⟩ := hasFree_lowest hf
    refine ⟨i, hi, ?_⟩
    rw [register_driver_insert hdata habs hi]
    exact ⟨rfl, Function.update_same _ _ _, fun j hj => Function.update_noteq hj _ _⟩
  · intro hfull
    exact register_driver_full hdata habs (fun ⟨i, hi, hd⟩ => hfull i hi hd)

/-- Instance of C2: with slot 0 occupied the new record goes to slot 1. -/
theorem register_driver_fresh_witness :
    ∃ i, LowestFree (register_driver emptyMap (some "/dev/a".toList) 7).2 i ∧
      (register_driver (register_driver emptyMap (some "/dev/a".toList) 7).2
        (some "/dev/b".toList) 9).1 = PX4_OK ∧
      (register_driver (register_driver emptyMap (some "/dev/a".toList) 7).2
        (some "/dev/b".toList) 9).2 i = some ⟨"/dev/b".toList, 9⟩ ∧
      ∀ j, j ≠ i → (register_driver (register_driver emptyMap (some "/dev/a".toList) 7).2
        (some "/dev/b".toList) 9).2 j = (register_driver emptyMap (some "/dev/a".toList) 7).2 j :=
  (register_driver_fresh (register_driver emptyMap (some "/dev/a".toList) 7).2 "/dev/b".toList 9
    (by decide) (by decide)).2.1 (by decide)

/-- C3, as stated, fails: the zero-length name is accepted. On the empty table
`register_driver ("", 7)` returns `PX4_OK` (not `-EINVAL`) and the table then resolves `""`. -/
theorem register_driver_empty_name_accepted :
    (register_driver emptyMap (some []) 7).1 = PX4_OK ∧
    (register_driver emptyMap (some []) 7).1 ≠ -EINVAL ∧
    getDev (register_driver emptyMap (some []) 7).2 [] = 7 := by
  decide

/-- C3, amended. `register_driver` with an absent (`NULL`) name returns `-EINVAL` and leaves the
table as it was, for every table and handle, and so does a `NULL` handle with any name; the
zero-length string is a name like any other: with a non-null handle it is never refused with
`-EINVAL`. -/
theorem register_driver_null_name (devmap : DevMap) (data : Ptr) :
    register_driver devmap none data = (-EINVAL, devmap) ∧
    (∀ name, register_driver devmap name NULL = (-EINVAL, devmap)) ∧
    (data ≠ NULL → (register_driver devmap (some []) data).1 ≠ -EINVAL) := by
  refine ⟨rfl, ?_, ?_⟩
  · intro name
    cases name <;> simp [register_driver]
  · intro hdata
    rcases register_driver_cases devmap [] data hdata with ⟨_, hr⟩ | ⟨_, _, hr⟩ | ⟨_, i, _, hr⟩ <;>
      rw [hr] <;> simp [EEXIST, ENOSPC, EINVAL, PX4_OK]

/-- Instance of C3 amended, on the empty table with handle 7. -/
theorem register_driver_null_name_witness :
    register_driver emptyMap none 7 = (-EINVAL, emptyMap) ∧
    (register_driver emptyMap (some []) 7).1 ≠ -EINVAL :=
  ⟨(register_driver_null_name emptyMap 7).1, (register_driver_null_name emptyMap 7).2.2 (by decide)⟩

/-- C4. Round trip. After a successful `register_driver (name, h)`, `getDev name` returns `h`;
the following `unregister_driver name` succeeds, after it `getDev name` returns `NULL` and the
table is the one before the registration; and `getDev` of any other name gives the same
result before the two operations, between them and after them. -/
theorem register_lookup_unregister (devmap devmap1 : DevMap) (name : CStr) (h : Ptr)
    (hreg : register_driver devmap (some name) h = (PX4_OK, devmap1)) :
    getDev devmap1 name = h ∧
    (unregister_driver devmap1 (some name)).1 = PX4_OK ∧
    getDev (unregister_driver devmap1 (some name)).2 name = NULL ∧
    (unregister_driver devmap1 (some name)).2 = devmap ∧
    ∀ other, other ≠ name →
      getDev devmap1 other = getDev devmap other ∧
      getDev (unregister_driver devmap1 (some name)).2 other = getDev devmap other := by
  obtain ⟨n, i, hn, _, ha, hi, hm⟩ := register_driver_ok hreg
  injection hn with hn
  subst hn
  have hfirst : firstIdx (nameAt devmap1 name) PX4_MAX_DEV 0 = some i := by
    rw [hm]
    refine firstIdx_eq_some (Nat.zero_le _) (by have := hi.1; omega)
      (nameAt_true.mpr ⟨_, Function.update_same _ _ _, rfl⟩) ?_
    intro j _ hj
    rw [nameAt_update_ne (by omega)]
    exact not_registered_iff.mp ha j (Nat.zero_le _) (by have := hi.1; omega)
  have hun : unregister_driver devmap1 (some name) = (PX4_OK, devmap) := by
    simp only [unregister_driver, hfirst]
    rw [hm, Function.update_idem, ← hi.2.1, Function.update_eq_self]
  refine ⟨by rw [hm]; exact getDev_inserted ha hi, by rw [hun], ?_, by rw [hun], ?_⟩
  · rw [hun]; exact getDev_absent ha
  · intro other hne
    rw [hun]
    refine ⟨?_, rfl⟩
    rw [hm]
    apply getDev_update_other
    · simp [nameAt, hi.2.1]
    · simp only [nameAt, Function.update_same]
      exact decide_eq_false (fun hc => hne hc.symm)

/-- Instance of C4 on the empty table. -/
theorem register_lookup_unregister_witness :
    getDev (register_driver emptyMap (some "/dev/gyrosim_gyro".toList) 7).2
        "/dev/gyrosim_gyro".toList = 7 ∧
    getDev (unregister_driver (register_driver emptyMap (some "/dev/gyrosim_gyro".toList) 7).2
        (some "/dev/gyrosim_gyro".toList)).2 "/dev/gyrosim_gyro".toList = NULL :=
  have h := register_lookup_unregister emptyMap
    (register_driver emptyMap (some "/dev/gyrosim_gyro".toList) 7).2 "/dev/gyrosim_gyro".toList 7
    (Prod.ext (by decide) rfl)
  ⟨h.1, h.2.2.1⟩

/-- C5, at the failing input: `unregister_driver` of a name that no record of the empty table
has returns `-ENOSPC`, the "no space" error, and not `-ENOENT`; the table is not changed. -/
theorem unregister_driver_missing_name :
    unregister_driver emptyMap (some "/dev/gyrosim_accel".toList) = (-ENOSPC, emptyMap) ∧
    (unregister_driver emptyMap (some "/dev/gyrosim_accel".toList)).1 = -28 ∧
    (unregister_driver emptyMap (some "/dev/gyrosim_accel".toList)).1 ≠ -ENOENT ∧
    (unregister_class_devname emptyMap "/dev/accel".toList 0).1 = -EINVAL :=
  ⟨unregister_driver_absent (by decide), by decide, by decide, by decide⟩

/-! ## Class device names -/

theorem register_driver_ret (devmap : DevMap) (name : Option CStr) (data : Ptr) :
    ((register_driver devmap name data).1 = PX4_OK ∨ (register_driver devmap name data).1 < 0) ∧
    ((register_driver devmap name data).1 ≠ OK → (register_driver devmap name data).2 = devmap) := by
  cases name with
  | none => simp [register_driver, EINVAL, OK]
  | some n =>
    by_cases hdata : data = NULL
    · simp [register_driver, hdata, EINVAL, OK]
    · rcases register_driver_cases devmap n data hdata with ⟨_, hr⟩ | ⟨_, _, hr⟩ | ⟨_, i, _, hr⟩ <;>
        rw [hr] <;> simp [EEXIST, ENOSPC, PX4_OK, OK]

/-- The loop of `register_class_devname` either stops at the first instance number whose
`register_driver` call succeeds, with the table that call produced, or runs through all its
iterations, every call failing, and leaves the table as it was with the last call's error. -/
theorem register_class_loop_spec (this : Ptr) (c : CStr) (n ci : Nat) (ret : Int)
    (devmap : DevMap) :
    (∃ k devmap1, ci ≤ k ∧ k < ci + n ∧
      register_class_loop this c n ci ret devmap = (k, OK, devmap1) ∧
      register_driver devmap (some (snprintf32 c k)) this = (PX4_OK, devmap1) ∧
      ∀ j, ci ≤ j → j < k → (register_driver devmap (some (snprintf32 c j)) this).1 ≠ OK) ∨
    (∃ ret1, register_class_loop this c n ci ret devmap = (ci + n, ret1, devmap) ∧
      ((n = 0 ∧ ret1 = ret) ∨ (0 < n ∧ ret1 < 0 ∧
        ret1 = (register_driver devmap (some (snprintf32 c (ci + n - 1))) this).1)) ∧
      ∀ j, ci ≤ j → j < ci + n →
        (register_driver devmap (some (snprintf32 c j)) this).1 ≠ OK) := by
  induction n generalizing ci ret with
  | zero =>
    right
    exact ⟨ret, rfl, Or.inl ⟨rfl, rfl⟩, fun j h1 h2 => by omega⟩
  | succ n ih =>
    by_cases hok : (register_driver devmap (some (snprintf32 c ci)) this).1 = OK
    · left
      refine ⟨ci, (register_driver devmap (some (snprintf32 c ci)) this).2, le_refl _, by omega,
        ?_, ?_, fun j h1 h2 => by omega⟩
      · simp only [register_class_loop, hok, if_true]
      · exact Prod.ext hok rfl
    · have hsame := (register_driver_ret devmap (some (snprintf32 c ci)) this).2 hok
      have hneg : (register_driver devmap (some (snprintf32 c ci)) this).1 < 0 := by
        rcases (register_driver_ret devmap (some (snprintf32 c ci)) this).1 with h | h
        · exact absurd h hok
        · exact h
      have hstep : register_class_loop this c (n + 1) ci ret devmap
          = register_class_loop this c n (ci + 1)
              (register_driver devmap (some (snprintf32 c ci)) this).1 devmap := by
        simp only [register_class_loop, hok, if_false, hsame]
      rcases ih (ci + 1) (register_driver devmap (some (snprintf32 c ci)) this).1 with
        ⟨k, devmap1, h1, h2, h3, h4, h5⟩ | ⟨ret1, h1, h2, h3⟩
      · left
        refine ⟨k, devmap1, by omega, by omega, by rw [hstep, h3], h4, fun j hj1 hj2 => ?_⟩
        by_cases hj : j = ci
        · subst hj; exact hok
        · exact h5 j (by omega) hj2
      · right
        refine ⟨ret1, ?_, Or.inr ⟨by omega, ?_, ?_⟩, fun j hj1 hj2 => ?_⟩
        · rw [hstep, h1]; congr 1; omega
        · rcases h2 with ⟨_, h2⟩ | ⟨_, h2, _⟩
          · rw [h2]; exact hneg
          · exact h2
        · rcases h2 with ⟨h0, h2⟩ | ⟨hpos, _, h2⟩
          · subst h0; rw [h2]; rfl
          · rw [h2]; congr 4; omega
        · by_cases hj : j = ci
          · subst hj; exact hok
          · exact h3 j (by omega) (by omega)

/-- The two outcomes of `register_class_devname` on a non-null class name: an instance number
`k < 4`, the first whose `register_driver` call succeeds, with the table of that call; or the
error of the fourth call, all four having failed, with the table as it was. -/
theorem register_class_devname_spec (devmap : DevMap) (this : Ptr) (c : CStr) :
    (∃ (k : Nat) (devmap1 : DevMap), k < 4 ∧
      register_class_devname devmap this (some c) = (Int.ofNat k, devmap1) ∧
      register_driver devmap (some (snprintf32 c k)) this = (PX4_OK, devmap1) ∧
      ∀ j, j < k → (register_driver devmap (some (snprintf32 c j)) this).1 ≠ OK) ∨
    (register_class_devname devmap this (some c)
        = ((register_driver devmap (some (snprintf32 c 3)) this).1, devmap) ∧
      (register_driver devmap (some (snprintf32 c 3)) this).1 < 0 ∧
      ∀ j, j < 4 → (register_driver devmap (some (snprintf32 c j)) this).1 ≠ OK) := by
  rcases register_class_loop_spec this c 4 0 (-ENOSPC) devmap with
    ⟨k, devmap1, _, h2, h3, h4, h5⟩ | ⟨ret1, h1, h2, h3⟩
  · left
    refine ⟨k, devmap1, by omega, ?_, h4, fun j hj => h5 j (Nat.zero_le _) hj⟩
    have hk : k ≠ 4 := by omega
    simp [register_class_devname, h3, hk]
  · right
    rcases h2 with ⟨h0, _⟩ | ⟨_, hneg, hlast⟩
    · omega
    · have hlast3 : ret1 = (register_driver devmap (some (snprintf32 c 3)) this).1 := hlast
      refine ⟨?_, hlast3 ▸ hneg, fun j hj => h3 j (Nat.zero_le _) (by omega)⟩
      simp [register_class_devname, h1, hlast3]

theorem toDigits_small (k : Nat) (hk : k < 4) : (Nat.toDigits 10 k).length = 1 := by
  interval_cases k <;> rfl

/-- A class name of at most 30 bytes and a one-digit instance number fit the 32-byte buffer. -/
theorem snprintf32_short (c : CStr) (k : Nat) (hlen : c.length ≤ 30) (hk : k < 4) :
    snprintf32 c k = c ++ Nat.toDigits 10 k := by
  unfold snprintf32
  apply List.take_of_length_le
  rw [List.length_append, toDigits_small k hk]
  omega

/-- With a non-null handle and a null slot in the table, `register_driver` can only fail
because the name is taken. -/
theorem register_driver_fail_registered {devmap : DevMap} {name : CStr} {data : Ptr}
    (hdata : data ≠ NULL) (hfree : HasFree devmap)
    (h : (register_driver devmap (some name) data).1 ≠ OK) : Registered devmap name := by
  rcases register_driver_cases devmap name data hdata with ⟨hr, _⟩ | ⟨_, hf, _⟩ | ⟨_, i, _, hr⟩
  · exact hr
  · exact absurd hfree hf
  · rw [hr] at h; exact absurd rfl h

theorem digits_zero_ne_one (c : CStr) : c ++ Nat.toDigits 10 0 ≠ c ++ Nat.toDigits 10 1 := by
  intro h
  have := List.append_cancel_left h
  revert this
  decide

/-- The table after the first record named `name` is removed, when names are unique. -/
theorem remove_first_named {devmap : DevMap} {name : CStr} {i : Nat}
    (huniq : UniqueNames devmap) (hi : firstIdx (nameAt devmap name) PX4_MAX_DEV 0 = some i) :
    ¬ Registered (Function.update devmap i none) name ∧ HasFree (Function.update devmap i none) ∧
    ∀ other, other ≠ name → Registered devmap other →
      Registered (Function.update devmap i none) other := by
  obtain ⟨_, h2, h3, _⟩ := firstIdx_some hi
  obtain ⟨d, hd, hn⟩ := nameAt_true.mp h3
  refine ⟨?_, ⟨i, by omega, Function.update_same _ _ _⟩, ?_⟩
  · rintro ⟨j, hj, hjn⟩
    by_cases hji : j = i
    · subst hji
      simp [nameAt] at hjn
    · rw [nameAt_update_ne hji] at hjn
      obtain ⟨e, he, hen⟩ := nameAt_true.mp hjn
      exact hji (huniq j i hj (by omega) e d he hd (hen.trans hn.symm))
  · rintro other hne ⟨j, hj, hjn⟩
    have hji : j ≠ i := by
      intro hji
      subst hji
      obtain ⟨e, he, hen⟩ := nameAt_true.mp hjn
      rw [hd] at he
      injection he with he
      subst he
      exact hne (hen.symm.trans hn)
    exact ⟨j, hj, by rw [nameAt_update_ne hji]; exact hjn⟩

/-- First half of the class-instance property, for names that fit the buffer. -/
theorem register_class_devname_first_fit {devmap : DevMap} {this : Ptr} {c : CStr}
    (hthis : this ≠ NULL) (hlen : c.length ≤ 30) (hfree : HasFree devmap)
    (hsome : ∃ k, k < 4 ∧ ¬ Registered devmap (c ++ Nat.toDigits 10 k)) :
    ∃ i f, i < 4 ∧ ¬ Registered devmap (c ++ Nat.toDigits 10 i) ∧
      (∀ k, k < i → Registered devmap (c ++ Nat.toDigits 10 k)) ∧ LowestFree devmap f ∧
      register_class_devname devmap this (some c)
        = (Int.ofNat i, Function.update devmap f (some ⟨c ++ Nat.toDigits 10 i, this⟩)) := by
  rcases register_class_devname_spec devmap this c with ⟨k, devmap1, hk, hres, hreg, hlow⟩ | ⟨_, _, hall⟩
  · obtain ⟨n, f, hn, _, ha, hf, hm⟩ := register_driver_ok hreg
    injection hn with hn
    rw [snprintf32_short c k hlen hk] at hn
    subst hn
    refine ⟨k, f, hk, ha, fun j hj => ?_, hf, by rw [hres, hm]⟩
    have := register_driver_fail_registered hthis hfree (hlow j hj)
    rwa [snprintf32_short c j hlen (by omega)] at this
  · obtain ⟨k, hk, hnot⟩ := hsome
    have := register_driver_fail_registered hthis hfree (hall k hk)
    rw [snprintf32_short c k hlen hk] at this
    exact absurd this hnot

/-! ## Uniqueness of names is kept by every operation -/

theorem unique_empty : UniqueNames emptyMap := by
  intro i j _ _ a b ha
  simp [emptyMap] at ha

theorem unique_insert {devmap : DevMap} {n : CStr} {data : Ptr} (i : Nat)
    (huniq : UniqueNames devmap) (ha : ¬ Registered devmap n) :
    UniqueNames (Function.update devmap i (some ⟨n, data⟩)) := by
  intro x y hx hy a b hxa hyb hab
  by_cases hxi : x = i
  · by_cases hyi : y = i
    · rw [hxi, hyi]
    · exfalso
      subst hxi
      rw [Function.update_same] at hxa
      rw [Function.update_noteq hyi] at hyb
      injection hxa with hxa
      subst hxa
      exact ha ⟨y, hy, nameAt_true.mpr ⟨b, hyb, hab.symm⟩⟩
  · by_cases hyi : y = i
    · exfalso
      subst hyi
      rw [Function.update_same] at hyb
      rw [Function.update_noteq hxi] at hxa
      injection hyb with hyb
      subst hyb
      exact ha ⟨x, hx, nameAt_true.mpr ⟨a, hxa, hab⟩⟩
    · rw [Function.update_noteq hxi] at hxa
      rw [Function.update_noteq hyi] at hyb
      exact huniq x y hx hy a b hxa hyb hab

theorem unique_remove {devmap : DevMap} (i : Nat) (huniq : UniqueNames devmap) :
    UniqueNames (Function.update devmap i none) := by
  intro x y hx hy a b hxa hyb hab
  have hxi : x ≠ i := by
    intro h; subst h; simp at hxa
  have hyi : y ≠ i := by
    intro h; subst h; simp at hyb
  rw [Function.update_noteq hxi] at hxa
  rw [Function.update_noteq hyi] at hyb
  exact huniq x y hx hy a b hxa hyb hab

theorem unique_register_driver {devmap : DevMap} (name : Option CStr) (data : Ptr)
    (huniq : UniqueNames devmap) : UniqueNames (register_driver devmap name data).2 := by
  by_cases hok : (register_driver devmap name data).1 = OK
  · obtain ⟨n, i, _, _, ha, _, hm⟩ :=
      @register_driver_ok devmap (register_driver devmap name data).2 name data (Prod.ext hok rfl)
    rw [hm]
    exact unique_insert i huniq ha
  · rw [(register_driver_ret devmap name data).2 hok]
    exact huniq

theorem unique_register_class_devname {devmap : DevMap} (this : Ptr)
    (class_devname : Option CStr) (huniq : UniqueNames devmap) :
    UniqueNames (register_class_devname devmap this class_devname).2 := by
  cases class_devname with
  | none => exact huniq
  | some c =>
    rcases register_class_devname_spec devmap this c with ⟨k, dm, _, hres, hreg, _⟩ | ⟨hres, _, _⟩
    · rw [hres]
      have := unique_register_driver (some (snprintf32 c k)) this huniq
      rwa [hreg] at this
    · rw [hres]
      exact huniq

theorem unique_unregister_driver {devmap : DevMap} (name : Option CStr)
    (huniq : UniqueNames devmap) : UniqueNames (unregister_driver devmap name).2 := by
  cases name with
  | none => exact huniq
  | some n =>
    simp only [unregister_driver]
    cases firstIdx (nameAt devmap n) PX4_MAX_DEV 0 with
    | none => exact huniq
    | some i => exact unique_remove i huniq

theorem unique_unregister_class_devname {devmap : DevMap} (c : CStr) (k : Nat)
    (huniq : UniqueNames devmap) : UniqueNames (unregister_class_devname devmap c k).2 := by
  unfold unregister_class_devname
  cases firstIdx (nameAt devmap (snprintf32 c k)) PX4_MAX_DEV 0 with
  | none => exact huniq
  | some i => exact unique_remove i huniq

theorem unique_register_class_repeat (this : Ptr) (c : CStr) (n : Nat) {devmap : DevMap}
    (huniq : UniqueNames devmap) : UniqueNames (register_class_repeat this c n devmap).2 := by
  induction n generalizing devmap with
  | zero => exact huniq
  | succ n ih => exact ih (unique_register_class_devname this (some c) huniq)

/-! ## Claims about `register_class_devname` -/

/-- C6, as stated, fails for a class name that does not fit the 32-byte buffer: the table holds
one record, named by the 31 bytes of `longClassName`; it has a null slot and none of
`longClassName ++ "0"` .. `"3"` is registered, yet `register_class_devname longClassName`
returns `-EEXIST` instead of the index 0, because the name it tries is cut to those 31 bytes. -/
theorem register_class_devname_long_name_refused :
    HasFree (register_driver emptyMap (some longClassName) 7).2 ∧
    (∀ k, k < 4 → ¬ Registered (register_driver emptyMap (some longClassName) 7).2
      (longClassName ++ Nat.toDigits 10 k)) ∧
    (register_class_devname (register_driver emptyMap (some longClassName) 7).2 9
      (some longClassName)).1 = -EEXIST ∧
    (register_class_devname (register_driver emptyMap (some longClassName) 7).2 9
      (some longClassName)).1 ≠ 0 := by
  decide

/-- C6, amended to class names of at most 30 bytes. For every table with a null slot and every
such class name for which one of `c ++ "0"` .. `c ++ "3"` is not registered,
`register_class_devname` returns the smallest `i` in `0..3` whose name `c ++ i` is not taken and
writes the record `(c ++ i, this)` into the lowest null slot, changing nothing else. In
particular, in a table with unique names where instances 0..3 are registered, after
`unregister_class_devname (c, 1)` the next call returns 1. -/
theorem register_class_devname_smallest (devmap : DevMap) (this : Ptr) (c : CStr)
    (hthis : this ≠ NULL) (hlen : c.length ≤ 30) :
    (HasFree devmap → (∃ k, k < 4 ∧ ¬ Registered devmap (c ++ Nat.toDigits 10 k)) →
      ∃ i f, i < 4 ∧ ¬ Registered devmap (c ++ Nat.toDigits 10 i) ∧
        (∀ k, k < i → Registered devmap (c ++ Nat.toDigits 10 k)) ∧ LowestFree devmap f ∧
        register_class_devname devmap this (some c)
          = (Int.ofNat i, Function.update devmap f (some ⟨c ++ Nat.toDigits 10 i, this⟩))) ∧
    (UniqueNames devmap → (∀ k, k < 4 → Registered devmap (c ++ Nat.toDigits 10 k)) →
      (unregister_class_devname devmap c 1).1 = PX4_OK ∧
      (register_class_devname (unregister_class_devname devmap c 1).2 this (some c)).1 = 1) := by
  refine ⟨register_class_devname_first_fit hthis hlen, ?_⟩
  intro huniq hall
  have h1 : Registered devmap (snprintf32 c 1) := by
    rw [snprintf32_short c 1 hlen (by omega)]; exact hall 1 (by omega)
  obtain ⟨s, hs⟩ := scan_name_some h1
  have hun : unregister_class_devname devmap c 1 = (PX4_OK, Function.update devmap s none) := by
    simp [unregister_class_devname, hs]
  obtain ⟨hgone, hfree, hkeep⟩ := remove_first_named huniq hs
  rw [snprintf32_short c 1 hlen (by omega)] at hgone
  have h0 : Registered (Function.update devmap s none) (c ++ Nat.toDigits 10 0) := by
    apply hkeep _ _ (hall 0 (by omega))
    rw [snprintf32_short c 1 hlen (by omega)]
    exact digits_zero_ne_one c
  obtain ⟨i, f, hi, hni, hlow, _, hres⟩ :=
    @register_class_devname_first_fit (Function.update devmap s none) this c
      hthis hlen hfree ⟨1, by omega, hgone⟩
  have hi1 : i = 1 := by
    rcases Nat.lt_trichotomy i 1 with hlt | heq | hgt
    · have : i = 0 := by omega
      subst this
      exact absurd h0 hni
    · exact heq
    · exact absurd (hlow 1 hgt) hgone
  subst hi1
  rw [hun]
  exact ⟨rfl, by rw [hres]; rfl⟩

/-- Instance of C6 amended: on the table that holds `/dev/accel0` only, the next instance of
`/dev/accel` is 1; and after four registrations and the removal of instance 1 it is 1 again. -/
theorem register_class_devname_smallest_witness :
    (∃ i f, i < 4 ∧
      ¬ Registered (register_class_devname emptyMap 7 (some "/dev/accel".toList)).2
        ("/dev/accel".toList ++ Nat.toDigits 10 i) ∧
      (∀ k, k < i → Registered (register_class_devname emptyMap 7 (some "/dev/accel".toList)).2
        ("/dev/accel".toList ++ Nat.toDigits 10 k)) ∧
      LowestFree (register_class_devname emptyMap 7 (some "/dev/accel".toList)).2 f ∧
      register_class_devname (register_class_devname emptyMap 7 (some "/dev/accel".toList)).2 9
          (some "/dev/accel".toList)
        = (Int.ofNat i,
           Function.update (register_class_devname emptyMap 7 (some "/dev/accel".toList)).2 f
             (some ⟨"/dev/accel".toList ++ Nat.toDigits 10 i, 9⟩))) ∧
    (register_class_devname
      (unregister_class_devname (register_class_repeat 7 "/dev/accel".toList 4 emptyMap).2
        "/dev/accel".toList 1).2 9 (some "/dev/accel".toList)).1 = 1 :=
  ⟨(register_class_devname_smallest (register_class_devname emptyMap 7 (some "/dev/accel".toList)).2
      9 "/dev/accel".toList (by decide) (by decide)).1 (by decide) ⟨1, by decide, by decide⟩,
   ((register_class_devname_smallest (register_class_repeat 7 "/dev/accel".toList 4 emptyMap).2
      9 "/dev/accel".toList (by decide) (by decide)).2
      (unique_register_class_repeat 7 "/dev/accel".toList 4 unique_empty) (by decide)).2⟩

/-- C7, evaluated: five consecutive `register_class_devname "foo"` calls on the empty table
return 0, 1, 2, 3 and then `-EEXIST` (-17), the error of the last `register_driver` call, not
`-ENOSPC` (-28), the value `ret` is initialised with; the fifth call leaves the four records
in place. -/
theorem register_class_devname_fifth_call :
    (register_class_repeat 7 "foo".toList 5 emptyMap).1 = [0, 1, 2, 3, -EEXIST] ∧
    -EEXIST ≠ -ENOSPC ∧
    (∀ k, k < 4 → getDev (register_class_repeat 7 "foo".toList 5 emptyMap).2
      ("foo".toList ++ Nat.toDigits 10 k) = 7) := by
  decide

/-- C8, as stated, fails: for the 31-byte class name `longClassName` on the empty table,
`register_class_devname` returns the index 0, but the name `longClassName ++ "0"` does not
resolve; the record is stored under the 31 bytes without the digit. -/
theorem register_class_devname_truncates :
    (register_class_devname emptyMap 9 (some longClassName)).1 = 0 ∧
    getDev (register_class_devname emptyMap 9 (some longClassName)).2
      (longClassName ++ Nat.toDigits 10 0) = NULL ∧
    getDev (register_class_devname emptyMap 9 (some longClassName)).2 longClassName = 9 := by
  decide

/-- C8, amended to class names of at most 30 bytes: when `register_class_devname c` returns an
index `i` (a non-negative result), `getDev` of `c` followed by the decimal digits of `i`
returns the registering object. -/
theorem register_class_devname_lookup (devmap devmap1 : DevMap) (this : Ptr) (c : CStr)
    (i : Int) (hlen : c.length ≤ 30)
    (hret : register_class_devname devmap this (some c) = (i, devmap1)) (hi : 0 ≤ i) :
    getDev devmap1 (c ++ Nat.toDigits 10 i.toNat) = this := by
  rcases register_class_devname_spec devmap this c with ⟨k, dm, hk, hres, hreg, _⟩ | ⟨hres, hneg, _⟩
  · rw [hres] at hret
    obtain ⟨h1, h2⟩ := Prod.mk.inj hret
    subst h1 h2
    obtain ⟨n, f, hn, _, ha, hf, hm⟩ := register_driver_ok hreg
    injection hn with hn
    subst hn
    have hk' : (Int.ofNat k).toNat = k := rfl
    rw [hm, hk', ← snprintf32_short c k hlen hk]
    exact getDev_inserted ha hf
  · rw [hres] at hret
    have := (Prod.mk.inj hret).1
    omega

/-- Instance of C8 amended: `/dev/accel` on the empty table gives index 0 and `/dev/accel0`
resolves to the object. -/
theorem register_class_devname_lookup_witness :
    getDev (register_class_devname emptyMap 7 (some "/dev/accel".toList)).2
      ("/dev/accel".toList ++ Nat.toDigits 10 (0 : Int).toNat) = 7 :=
  register_class_devname_lookup emptyMap
    (register_class_devname emptyMap 7 (some "/dev/accel".toList)).2 7 "/dev/accel".toList 0
    (by decide) (Prod.ext (by decide) rfl) (by decide)

/-! ## Claims about the registry as a whole -/

theorem unique_runCalls (calls : List RegistryCall) {devmap : DevMap}
    (huniq : UniqueNames devmap) : UniqueNames (runCalls devmap calls) := by
  induction calls generalizing devmap with
  | nil => exact huniq
  | cons c cs ih =>
    apply ih
    cases c with
    | register_driver name data => exact unique_register_driver name data huniq
    | register_class_devname this c => exact unique_register_class_devname this c huniq
    | unregister_driver name => exact unique_unregister_driver name huniq
    | unregister_class_devname c k => exact unique_unregister_class_devname c k huniq

/-- C9. In every table reached from the empty one by a sequence of `register_driver`,
`register_class_devname`, `unregister_driver` and `unregister_class_devname` calls, with any
arguments, no two occupied slots hold the same name. -/
theorem registry_names_unique (calls : List RegistryCall) :
    UniqueNames (runCalls emptyMap calls) :=
  unique_runCalls calls unique_empty

/-! ## The `_registered` flag and the records of an object -/

/-- The two outcomes of `VDev::init`: nothing changes, or the registration name was absent, its
record went to the lowest null slot and the flag is set. -/
theorem init_cases (d : VDev) (this : Ptr) (device_init : Int) (devmap : DevMap) :
    ((d.init this device_init devmap).2.1 = d ∧ (d.init this device_init devmap).2.2 = devmap) ∨
    (∃ n f, d._devname = some n ∧ ¬ Registered devmap n ∧ LowestFree devmap f ∧
      (d.init this device_init devmap).2.2 = Function.update devmap f (some ⟨n, this⟩) ∧
      (d.init this device_init devmap).2.1 = { d with _registered := true }) := by
  unfold VDev.init
  by_cases hdi : device_init ≠ PX4_OK
  · left; simp [hdi]
  · cases hn : d._devname with
    | none => left; simp [hdi]
    | some n =>
      by_cases hok : (register_driver devmap (some n) this).1 = PX4_OK
      · right
        obtain ⟨m, f, hm, _, ha, hf, hmap⟩ :=
          @register_driver_ok devmap (register_driver devmap (some n) this).2 (some n) this
            (Prod.ext hok rfl)
        injection hm with hm
        subst hm
        exact ⟨n, f, rfl, ha, hf, by simp [hdi, hok, hmap], by simp [hdi, hok]⟩
      · left
        have := (register_driver_ret devmap (some n) this).2 hok
        simp [hdi, hok, this]

/-- The table after `register_class_devname` is the old one, or the old one with one record
written into a null slot under a name that was absent. -/
theorem register_class_devname_table (devmap : DevMap) (this : Ptr) (c : Option CStr) :
    (register_class_devname devmap this c).2 = devmap ∨
    ∃ n f, ¬ Registered devmap n ∧ LowestFree devmap f ∧
      (register_class_devname devmap this c).2 = Function.update devmap f (some ⟨n, this⟩) := by
  cases c with
  | none => left; rfl
  | some c =>
    rcases register_class_devname_spec devmap this c with ⟨k, dm, _, hres, hreg, _⟩ | ⟨hres, _, _⟩
    · right
      obtain ⟨n, f, _, _, ha, hf, hm⟩ := register_driver_ok hreg
      exact ⟨n, f, ha, hf, by rw [hres, hm]⟩
    · left; rw [hres]

theorem insert_keeps {devmap : DevMap} {f i : Nat} {x : px4_dev_t} (v : Option px4_dev_t)
    (hf : devmap f = none) (hi : devmap i = some x) : Function.update devmap f v i = some x := by
  have : i ≠ f := by
    intro h; subst h; rw [hf] at hi; exact absurd hi (by simp)
  rw [Function.update_noteq this]; exact hi

theorem remove_keeps {devmap : DevMap} {n : CStr} {s i : Nat} {x : px4_dev_t}
    (hs : firstIdx (nameAt devmap n) PX4_MAX_DEV 0 = some s) (hi : devmap i = some x)
    (hx : x.name ≠ n) : Function.update devmap s none i = some x := by
  have : i ≠ s := by
    intro h
    subst h
    obtain ⟨d, hd, hn⟩ := nameAt_true.mp (firstIdx_some hs).2.2.1
    rw [hi] at hd
    injection hd with hd
    subst hd
    exact hx hn
  rw [Function.update_noteq this]; exact hi

/-- A call that removes no record of a registered object keeps the invariant. -/
theorem inv_step {w : World} (c : Call) (hinv : w.Inv) (hsp : c.sparesRegistered w) :
    (w.step c).Inv := by
  obtain ⟨huniq, hrec⟩ := hinv
  cases c with
  | init k device_init =>
    rcases init_cases (w.objects k) (objAddr k) device_init w.devmap with
      ⟨h1, h2⟩ | ⟨n, f, hn, ha, hf, h2, h1⟩
    · have hw : w.step (.init k device_init) = w := by
        simp only [World.step, h1, h2, Function.update_eq_self]
      rw [hw]; exact ⟨huniq, hrec⟩
    · refine ⟨?_, ?_⟩
      · simp only [World.step, h2]
        exact unique_insert f huniq ha
      · intro k1 hk1
        simp only [World.step, h2, h1] at hk1 ⊢
        by_cases hkk : k1 = k
        · subst hkk
          simp only [Function.update_same]
          exact ⟨n, f, hn, hf.1, Function.update_same _ _ _⟩
        · rw [Function.update_noteq hkk] at hk1 ⊢
          obtain ⟨m, i, hm, hi, hslot⟩ := hrec k1 hk1
          exact ⟨m, i, hm, hi, insert_keeps _ hf.2.1 hslot⟩
  | register_class_devname k c =>
    rcases register_class_devname_table w.devmap (objAddr k) c with h | ⟨n, f, ha, hf, h⟩
    · have hw : w.step (.register_class_devname k c) = w := by
        simp only [World.step, h]
      rw [hw]; exact ⟨huniq, hrec⟩
    · refine ⟨?_, ?_⟩
      · simp only [World.step, h]
        exact unique_insert f huniq ha
      · intro k1 hk1
        simp only [World.step, h] at hk1 ⊢
        obtain ⟨m, i, hm, hi, hslot⟩ := hrec k1 hk1
        exact ⟨m, i, hm, hi, insert_keeps _ hf.2.1 hslot⟩
  | unregister_driver name =>
    refine ⟨unique_unregister_driver name huniq, ?_⟩
    intro k1 hk1
    simp only [World.step] at hk1 ⊢
    obtain ⟨m, i, hm, hi, hslot⟩ := hrec k1 hk1
    refine ⟨m, i, hm, hi, ?_⟩
    cases name with
    | none => exact hslot
    | some n =>
      simp only [unregister_driver]
      cases hs : firstIdx (nameAt w.devmap n) PX4_MAX_DEV 0 with
      | none => exact hslot
      | some s =>
        refine remove_keeps hs hslot ?_
        intro hmn
        exact hsp k1 m hk1 hm (by simp [Call.removedName, ← hmn])
  | unregister_class_devname c ci =>
    refine ⟨unique_unregister_class_devname c ci huniq, ?_⟩
    intro k1 hk1
    simp only [World.step] at hk1 ⊢
    obtain ⟨m, i, hm, hi, hslot⟩ := hrec k1 hk1
    refine ⟨m, i, hm, hi, ?_⟩
    simp only [unregister_class_devname]
    cases hs : firstIdx (nameAt w.devmap (snprintf32 c ci)) PX4_MAX_DEV 0 with
    | none => exact hslot
    | some s =>
      refine remove_keeps hs hslot ?_
      intro hmn
      exact hsp k1 m hk1 hm (by simp [Call.removedName, ← hmn])

theorem inv_run (calls : List Call) {w : World} (hinv : w.Inv)
    (hsp : SparesRegistered w calls) : (w.run calls).Inv := by
  induction calls generalizing w with
  | nil => exact hinv
  | cons c cs ih => exact ih (inv_step c hinv hsp.1) hsp.2

theorem inv_fresh (devnames : Nat → Option CStr) : (World.fresh devnames).Inv :=
  ⟨unique_empty, fun k hk => by simp [World.fresh, VDev.construct] at hk⟩

/-- No call changes the registration name of an object. -/
theorem devname_step (w : World) (c : Call) (k : Nat) :
    ((w.step c).objects k)._devname = (w.objects k)._devname := by
  cases c with
  | init k0 device_init =>
    simp only [World.step]
    by_cases hk : k = k0
    · subst hk
      rw [Function.update_same]
      rcases init_cases (w.objects k) (objAddr k) device_init w.devmap with
        ⟨h1, _⟩ | ⟨_, _, _, _, _, _, h1⟩ <;> rw [h1]
    · rw [Function.update_noteq hk]
  | register_class_devname k0 c => rfl
  | unregister_driver name => rfl
  | unregister_class_devname c ci => rfl

/-- C10, as stated, fails in each direction. Object 0 is constructed with the name
`/dev/gyrosim_accel`, object 1 with none. After `init` and `register_class_devname`, the two
calls of `GYROSIM::init`, object 0 has `_registered` set and two records; after
`register_class_devname` alone object 1 has `_registered` clear and one record; after `init`
and `unregister_driver` of its name object 0 has `_registered` set and no record. -/
theorem registered_flag_record_count :
    ((((World.fresh accelOnly).run
        [.init 0 0, .register_class_devname 0 (some "/dev/accel".toList)]).objects 0)._registered
        = true ∧
      recordsOf ((World.fresh accelOnly).run
        [.init 0 0, .register_class_devname 0 (some "/dev/accel".toList)]).devmap (objAddr 0)
        = 2) ∧
    ((((World.fresh accelOnly).run
        [.register_class_devname 1 (some "/dev/accel".toList)]).objects 1)._registered = false ∧
      recordsOf ((World.fresh accelOnly).run
        [.register_class_devname 1 (some "/dev/accel".toList)]).devmap (objAddr 1) = 1) ∧
    ((((World.fresh accelOnly).run
        [.init 0 0, .unregister_driver (some "/dev/gyrosim_accel".toList)]).objects 0)._registered
        = true ∧
      recordsOf ((World.fresh accelOnly).run
        [.init 0 0, .unregister_driver (some "/dev/gyrosim_accel".toList)]).devmap (objAddr 0)
        = 0) := by
  decide

/-- C10, amended. In every state reached from freshly constructed objects and the empty table
by `init`, `register_class_devname` and unregister calls that do not look for the registration
name of an object whose `_registered` is set, an object whose `_registered` is set has exactly
one record under its registration name, the handle of that record is the object, and `getDev`
of the name returns the object. -/
theorem registered_has_named_record (devnames : Nat → Option CStr) (calls : List Call)
    (hsp : SparesRegistered (World.fresh devnames) calls) (k : Nat)
    (hreg : (((World.fresh devnames).run calls).objects k)._registered = true) :
    ∃ n i, (((World.fresh devnames).run calls).objects k)._devname = some n ∧
      i < PX4_MAX_DEV ∧
      ((World.fresh devnames).run calls).devmap i = some ⟨n, objAddr k⟩ ∧
      (∀ j, j < PX4_MAX_DEV → nameAt ((World.fresh devnames).run calls).devmap n j = true →
        j = i) ∧
      getDev ((World.fresh devnames).run calls).devmap n = objAddr k := by
  obtain ⟨huniq, hrec⟩ := inv_run calls (inv_fresh devnames) hsp
  obtain ⟨n, i, hn, hi, hslot⟩ := hrec k hreg
  have hone : ∀ j, j < PX4_MAX_DEV →
      nameAt ((World.fresh devnames).run calls).devmap n j = true → j = i := by
    intro j hj hjn
    obtain ⟨e, he, hen⟩ := nameAt_true.mp hjn
    exact huniq j i hj hi e _ he hslot hen
  refine ⟨n, i, hn, hi, hslot, hone, ?_⟩
  refine getDev_first hi hslot rfl (fun j hj => ?_)
  cases hjn : nameAt ((World.fresh devnames).run calls).devmap n j with
  | false => rfl
  | true => have := hone j (by omega) hjn; omega

/-- Instance of C10 amended: the accelerometer object after `init`, a class registration and
the removal of that class instance still resolves under `/dev/gyrosim_accel`. -/
theorem registered_has_named_record_witness :
    ∃ n i, (((World.fresh accelOnly).run
        [.init 0 0, .register_class_devname 0 (some "/dev/accel".toList),
         .unregister_class_devname "/dev/accel".toList 0]).objects 0)._devname = some n ∧
      i < PX4_MAX_DEV ∧
      ((World.fresh accelOnly).run
        [.init 0 0, .register_class_devname 0 (some "/dev/accel".toList),
         .unregister_class_devname "/dev/accel".toList 0]).devmap i = some ⟨n, objAddr 0⟩ ∧
      (∀ j, j < PX4_MAX_DEV → nameAt ((World.fresh accelOnly).run
        [.init 0 0, .register_class_devname 0 (some "/dev/accel".toList),
         .unregister_class_devname "/dev/accel".toList 0]).devmap n j = true → j = i) ∧
      getDev ((World.fresh accelOnly).run
        [.init 0 0, .register_class_devname 0 (some "/dev/accel".toList),
         .unregister_class_devname "/dev/accel".toList 0]).devmap n = objAddr 0 :=
  registered_has_named_record accelOnly
    [.init 0 0, .register_class_devname 0 (some "/dev/accel".toList),
     .unregister_class_devname "/dev/accel".toList 0]
    ⟨fun _ _ _ _ h => by simp [Call.removedName] at h,
     fun _ _ _ _ h => by simp [Call.removedName] at h,
     fun k n _ hd h => by
       rw [devname_step, devname_step] at hd
       simp only [Call.removedName, Option.some.injEq] at h
       subst h
       simp only [World.fresh, VDev.construct, accelOnly] at hd
       split at hd
       · revert hd; decide
       · simp at hd,
     trivial⟩
    0 (by decide)

/-! ## Claims about `init`, `open` and `close` -/

/-- C11. `VDev::init` once `Device::init` has succeeded: with a registration name, when
`register_driver` fails with `e` it returns exactly `e` and leaves the object (so a clear
`_registered` stays clear) and the table as they were; when `register_driver` succeeds it
returns `PX4_OK`, sets `_registered` and the table is the one `register_driver` produced; with
no registration name it returns `PX4_OK` and touches neither the table nor the flag. An error
of `Device::init` is returned as it is, nothing else being done. -/
theorem init_outcomes (d : VDev) (this : Ptr) (devmap : DevMap) :
    (∀ n e devmap1, d._devname = some n → register_driver devmap (some n) this = (e, devmap1) →
      e ≠ PX4_OK →
      d.init this PX4_OK devmap = (e, d, devmap) ∧
      (d._registered = false → (d.init this PX4_OK devmap).2.1._registered = false)) ∧
    (∀ n devmap1, d._devname = some n →
      register_driver devmap (some n) this = (PX4_OK, devmap1) →
      d.init this PX4_OK devmap = (PX4_OK, { d with _registered := true }, devmap1)) ∧
    (d._devname = none → d.init this PX4_OK devmap = (PX4_OK, d, devmap)) ∧
    (∀ e, e ≠ PX4_OK → d.init this e devmap = (e, d, devmap)) := by
  refine ⟨?_, ?_, ?_, ?_⟩
  · intro n e devmap1 hn hr he
    have hsame : devmap1 = devmap := by
      have h1 := (register_driver_ret devmap (some n) this).2
      rw [hr] at h1
      exact h1 he
    have hinit : d.init this PX4_OK devmap = (e, d, devmap) := by
      simp [VDev.init, hn, hr, he, hsame]
    exact ⟨hinit, fun hf => by rw [hinit]; exact hf⟩
  · intro n devmap1 hn hr
    simp [VDev.init, hn, hr]
  · intro hn
    simp [VDev.init, hn]
  · intro e he
    simp [VDev.init, he]

/-- Instance of C11: the accelerometer node on the empty table is registered by `init`, and a
second object of the same name is refused with `-EEXIST`, its flag staying clear. -/
theorem init_outcomes_witness :
    (VDev.construct (some "/dev/gyrosim_accel".toList)).init 7 PX4_OK emptyMap
      = (PX4_OK, { VDev.construct (some "/dev/gyrosim_accel".toList) with _registered := true },
          (register_driver emptyMap (some "/dev/gyrosim_accel".toList) 7).2) ∧
    (VDev.construct (some "/dev/gyrosim_accel".toList)).init 9 PX4_OK
        (register_driver emptyMap (some "/dev/gyrosim_accel".toList) 7).2
      = (-EEXIST, VDev.construct (some "/dev/gyrosim_accel".toList),
          (register_driver emptyMap (some "/dev/gyrosim_accel".toList) 7).2) :=
  ⟨(init_outcomes (VDev.construct (some "/dev/gyrosim_accel".toList)) 7 emptyMap).2.1
      "/dev/gyrosim_accel".toList (register_driver emptyMap (some "/dev/gyrosim_accel".toList) 7).2
      rfl (Prod.ext (by decide) rfl),
   ((init_outcomes (VDev.construct (some "/dev/gyrosim_accel".toList)) 9
      (register_driver emptyMap (some "/dev/gyrosim_accel".toList) 7).2).1
      "/dev/gyrosim_accel".toList (-EEXIST)
      (register_driver (register_driver emptyMap (some "/dev/gyrosim_accel".toList) 7).2
        (some "/dev/gyrosim_accel".toList) 9).2
      rfl (Prod.ext (by decide) rfl) (by decide)).1⟩

/-- C12. `VDev::open` increments `_open_count` and invokes `open_first` exactly when the new
count is 1. On a count of 0: if the hook returns `PX4_OK` the count becomes 1; if the hook
fails with `e`, `open` returns `e` and the object is as before the call, the count back at 0.
On a count of at least 1 the hook is not invoked and `open` returns `PX4_OK`. -/
theorem open_outcomes (d : VDev) (open_first : Int) :
    ((d.open open_first).2.2
      = if d._open_count + 1 = 1 then [Hook.open_first] else []) ∧
    (d._open_count = 0 → open_first = PX4_OK →
      d.open open_first = (PX4_OK, { d with _open_count := 1 }, [Hook.open_first])) ∧
    (d._open_count = 0 → open_first ≠ PX4_OK →
      d.open open_first = (open_first, d, [Hook.open_first]) ∧
      (d.open open_first).2.1._open_count = 0) ∧
    (1 ≤ d._open_count →
      d.open open_first = (PX4_OK, { d with _open_count := d._open_count + 1 }, [])) := by
  refine ⟨?_, ?_, ?_, ?_⟩
  · unfold VDev.open
    by_cases h : d._open_count + 1 = 1
    · by_cases he : open_first ≠ PX4_OK <;> simp [h, he]
    · simp [h]
  · intro h he
    simp [VDev.open, h, he]
  · intro h he
    have hopen : d.open open_first = (open_first, d, [Hook.open_first]) := by
      cases d
      simp only at h
      subst h
      simp [VDev.open, he]
    exact ⟨hopen, by rw [hopen]; exact h⟩
  · intro h
    have : ¬ d._open_count + 1 = 1 := by omega
    simp [VDev.open, this]

/-- Instance of C12 on a freshly constructed device whose hook fails with `-EINVAL`, and on a
device that is already open. -/
theorem open_outcomes_witness :
    (VDev.construct none).open (-EINVAL) = (-EINVAL, VDev.construct none, [Hook.open_first]) ∧
    ((VDev.construct none).open PX4_OK).2.1.open (-EINVAL)
      = (PX4_OK, { ((VDev.construct none).open PX4_OK).2.1 with
          _open_count := ((VDev.construct none).open PX4_OK).2.1._open_count + 1 }, []) :=
  ⟨((open_outcomes (VDev.construct none) (-EINVAL)).2.2.1 rfl (by decide)).1,
   (open_outcomes ((VDev.construct none).open PX4_OK).2.1 (-EINVAL)).2.2.2 (by decide)⟩

theorem runOpenClose_append (d : VDev) (a b : List OpenClose) :
    (runOpenClose d (a ++ b)).results
      = (runOpenClose d a).results ++ (runOpenClose (runOpenClose d a).dev b).results ∧
    (runOpenClose d (a ++ b)).hooks
      = (runOpenClose d a).hooks ++ (runOpenClose (runOpenClose d a).dev b).hooks ∧
    (runOpenClose d (a ++ b)).dev = (runOpenClose (runOpenClose d a).dev b).dev := by
  induction a generalizing d with
  | nil => simp [runOpenClose]
  | cons c cs ih =>
    obtain ⟨h1, h2, h3⟩ := ih (c.call d).2.1
    rw [List.cons_append]
    simp only [runOpenClose]
    rw [h1, h2, h3]
    simp

/-- Further opens of an open device: no hook, every result `PX4_OK`, the count grows by one
for each. -/
theorem run_opens (os : List Int) (d : VDev) (hd : 1 ≤ d._open_count) :
    (runOpenClose d (os.map OpenClose.open)).dev._open_count = d._open_count + os.length ∧
    (runOpenClose d (os.map OpenClose.open)).hooks = [] ∧
    ∀ cr, cr ∈ (runOpenClose d (os.map OpenClose.open)).results → cr.2 = PX4_OK := by
  induction os generalizing d with
  | nil => simp [runOpenClose]
  | cons o os ih =>
    have hne : ¬ d._open_count + 1 = 1 := by omega
    have hcall : (OpenClose.open o).call d
        = (PX4_OK, { d with _open_count := d._open_count + 1 }, []) := by
      simp [OpenClose.call, VDev.open, hne]
    obtain ⟨h1, h2, h3⟩ := ih { d with _open_count := d._open_count + 1 } (by simp)
    simp only [List.map_cons, runOpenClose, hcall, h2, List.length_cons]
    refine ⟨by rw [h1]; simp; omega, rfl, ?_⟩
    intro cr hcr
    rcases List.mem_cons.mp hcr with h | h
    · rw [h]
    · exact h3 cr h

/-- Closes that leave the device open: no hook, every result `PX4_OK`, the count falls by one
for each. -/
theorem run_closes (cs : List Int) (d : VDev) (hd : cs.length < d._open_count) :
    (runOpenClose d (cs.map OpenClose.close)).dev._open_count = d._open_count - cs.length ∧
    (runOpenClose d (cs.map OpenClose.close)).hooks = [] ∧
    ∀ cr, cr ∈ (runOpenClose d (cs.map OpenClose.close)).results → cr.2 = PX4_OK := by
  induction cs generalizing d with
  | nil => simp [runOpenClose]
  | cons c cs ih =>
    simp only [List.length_cons] at hd
    have hpos : d._open_count > 0 := by omega
    have hne : ¬ d._open_count - 1 = 0 := by omega
    have hcall : (OpenClose.close c).call d
        = (PX4_OK, { d with _open_count := d._open_count - 1 }, []) := by
      simp [OpenClose.call, VDev.close, hpos, hne]
    obtain ⟨h1, h2, h3⟩ := ih { d with _open_count := d._open_count - 1 } (by simp; omega)
    simp only [List.map_cons, runOpenClose, hcall, h2, List.length_cons]
    refine ⟨by rw [h1]; simp; omega, rfl, ?_⟩
    intro cr hcr
    rcases List.mem_cons.mp hcr with h | h
    · rw [h]
    · exact h3 cr h

/-- The state of a round before its last close: one hook call so far, the count at 1. -/
theorem run_round (d : VDev) (hd : d._open_count = 0) (rest closes : List Int)
    (hlen : closes.length = rest.length) :
    (runOpenClose d (opensThenCloses rest closes)).hooks = [Hook.open_first] ∧
    (runOpenClose d (opensThenCloses rest closes)).dev._open_count = 1 ∧
    (∀ cr, cr ∈ (runOpenClose d (opensThenCloses rest [])).results → cr.2 = PX4_OK) ∧
    (runOpenClose d (opensThenCloses rest [])).dev._open_count = rest.length + 1 := by
  have hfirst : (OpenClose.open PX4_OK).call d
      = (PX4_OK, { d with _open_count := 1 }, [Hook.open_first]) := by
    simp [OpenClose.call, VDev.open, hd]
  obtain ⟨o1, o2, o3⟩ := run_opens rest { d with _open_count := 1 } (by simp)
  obtain ⟨a1, a2, a3⟩ := runOpenClose_append { d with _open_count := 1 }
    (rest.map OpenClose.open) (closes.map OpenClose.close)
  obtain ⟨c1, c2, _⟩ := run_closes closes
    (runOpenClose { d with _open_count := 1 } (rest.map OpenClose.open)).dev
    (by rw [o1]; simp; omega)
  refine ⟨?_, ?_, ?_, ?_⟩
  · simp only [opensThenCloses, runOpenClose, hfirst, a2, o2, c2, List.append_nil]
  · simp only [opensThenCloses, runOpenClose, hfirst, a3, c1, o1]
    omega
  · intro cr hcr
    simp only [opensThenCloses, List.map_nil, List.append_nil, runOpenClose, hfirst] at hcr
    rcases List.mem_cons.mp hcr with h | h
    · rw [h]
    · exact o3 cr h
  · simp only [opensThenCloses, List.map_nil, List.append_nil, runOpenClose, hfirst, o1]
    omega

theorem runOpenClose_single (d : VDev) (c : OpenClose) :
    (runOpenClose d [c]).dev = (c.call d).2.1 ∧ (runOpenClose d [c]).hooks = (c.call d).2.2 := by
  simp [runOpenClose]

theorem opensThenCloses_snoc (rest closes : List Int) (last : Int) :
    opensThenCloses rest (closes ++ [last])
      = opensThenCloses rest closes ++ [OpenClose.close last] := by
  simp [opensThenCloses]

/-- C13. `VDev::close` on a count of 0 returns `-EBADF`, leaves the object as it was and
invokes no hook. For every `n = rest.length + 1 >= 1`: on a device with count 0, `n` opens
(all returning `PX4_OK`) bring the count to `n`; after `n - 1` closes `close_last` has not been
invoked and the count is 1; the `n`-th close invokes `close_last`, once, and leaves the count
at 0; one further close returns `-EBADF`, invokes nothing and changes nothing. -/
theorem close_after_opens (d : VDev) (hd : d._open_count = 0) (rest closes : List Int)
    (last x : Int) (hlen : closes.length = rest.length) :
    d.close x = (-EBADF, d, []) ∧
    (∀ cr, cr ∈ (runOpenClose d (opensThenCloses rest [])).results → cr.2 = PX4_OK) ∧
    (runOpenClose d (opensThenCloses rest [])).dev._open_count = rest.length + 1 ∧
    (runOpenClose d (opensThenCloses rest closes)).hooks = [Hook.open_first] ∧
    (runOpenClose d (opensThenCloses rest closes)).dev._open_count = 1 ∧
    (runOpenClose d (opensThenCloses rest (closes ++ [last]))).hooks
      = [Hook.open_first, Hook.close_last] ∧
    (runOpenClose d (opensThenCloses rest (closes ++ [last]))).dev._open_count = 0 ∧
    (runOpenClose d (opensThenCloses rest (closes ++ [last]))).dev.close x
      = (-EBADF, (runOpenClose d (opensThenCloses rest (closes ++ [last]))).dev, []) := by
  obtain ⟨r1, r2, r3, r4⟩ := run_round d hd rest closes hlen
  obtain ⟨_, a2, a3⟩ := runOpenClose_append d (opensThenCloses rest closes) [OpenClose.close last]
  have hlast : (OpenClose.close last).call (runOpenClose d (opensThenCloses rest closes)).dev
      = (last, { (runOpenClose d (opensThenCloses rest closes)).dev with _open_count := 0 },
          [Hook.close_last]) := by
    simp [OpenClose.call, VDev.close, r2]
  have hzero : (runOpenClose d (opensThenCloses rest (closes ++ [last]))).dev._open_count = 0 := by
    rw [opensThenCloses_snoc, a3, (runOpenClose_single _ _).1, hlast]
  refine ⟨by simp [VDev.close, hd], r3, r4, r1, r2, ?_, hzero, by simp [VDev.close, hzero]⟩
  rw [opensThenCloses_snoc, a2, r1, (runOpenClose_single _ _).2, hlast]
  rfl

/-- Instance of C13: two opens and two closes on a fresh device, then a third close. -/
theorem close_after_opens_witness :
    (runOpenClose (VDev.construct none) (opensThenCloses [0] ([0] ++ [0]))).hooks
      = [Hook.open_first, Hook.close_last] ∧
    (runOpenClose (VDev.construct none) (opensThenCloses [0] ([0] ++ [0]))).dev._open_count = 0 ∧
    (runOpenClose (VDev.construct none) (opensThenCloses [0] ([0] ++ [0]))).dev.close 0
      = (-EBADF, (runOpenClose (VDev.construct none) (opensThenCloses [0] ([0] ++ [0]))).dev,
          []) :=
  (close_after_opens (VDev.construct none) rfl [0] [0] 0 0 rfl).2.2.2.2.2

/-- What one call does to the count, in terms of its result: an `open` adds one exactly when
it returns `PX4_OK`; a `close` whose hook does not return `-EBADF` takes one off exactly when
it does not return `-EBADF`. -/
theorem call_count (d : VDev) (c : OpenClose) (hc : ∀ r, c = OpenClose.close r → r ≠ -EBADF) :
    (c.call d).2.1._open_count + closesNotBadState [(c, (c.call d).1)]
      = d._open_count + opensOk [(c, (c.call d).1)] := by
  cases c with
  | «open» o =>
    simp only [OpenClose.call, VDev.open, opensOk, closesNotBadState, List.countP_cons,
      List.countP_nil]
    by_cases h1 : d._open_count + 1 = 1
    · by_cases h2 : o = PX4_OK
      · simp [h1, h2]
      · simp [h1, h2]; omega
    · simp [h1]
  | close r =>
    have hr := hc r rfl
    simp only [OpenClose.call, VDev.close, opensOk, closesNotBadState, List.countP_cons,
      List.countP_nil]
    by_cases h1 : d._open_count > 0
    · by_cases h2 : d._open_count - 1 = 0
      · simp [h1, h2, hr]; omega
      · simp [h1, h2, PX4_OK, EBADF]; omega
    · simp [h1]

theorem counts_cons (c : OpenClose) (r : Int) (rest : List (OpenClose × Int)) :
    opensOk ((c, r) :: rest) = opensOk rest + opensOk [(c, r)] ∧
    closesNotBadState ((c, r) :: rest)
      = closesNotBadState rest + closesNotBadState [(c, r)] := by
  simp [opensOk, closesNotBadState, List.countP_cons]

/-- The balance of a run from any count. -/
theorem run_balance (calls : List OpenClose) (d : VDev) (hh : HooksNotBadState calls) :
    (runOpenClose d calls).dev._open_count + closesNotBadState (runOpenClose d calls).results
      = d._open_count + opensOk (runOpenClose d calls).results := by
  induction calls generalizing d with
  | nil => simp [runOpenClose, opensOk, closesNotBadState]
  | cons c cs ih =>
    have h1 := call_count d c (fun r hr => hh r (by rw [hr]; exact List.mem_cons_self _ _))
    have h2 := ih (c.call d).2.1 (fun r hr => hh r (List.mem_cons_of_mem _ hr))
    obtain ⟨k1, k2⟩ := counts_cons c (c.call d).1 (runOpenClose (c.call d).2.1 cs).results
    simp only [runOpenClose]
    rw [k1, k2]
    omega

/-- C14, as stated, fails when `close_last` itself returns `-EBADF`: after an `open` that
returned `PX4_OK` and a `close` whose hook returns `-EBADF`, the count is 0, one open returned
`PX4_OK` and no close returned anything but `-EBADF`, so the count is not the difference 1. -/
theorem open_count_hook_badstate :
    (runOpenClose (VDev.construct none)
      [OpenClose.open PX4_OK, OpenClose.close (-EBADF)]).dev._open_count = 0 ∧
    opensOk (runOpenClose (VDev.construct none)
      [OpenClose.open PX4_OK, OpenClose.close (-EBADF)]).results = 1 ∧
    closesNotBadState (runOpenClose (VDev.construct none)
      [OpenClose.open PX4_OK, OpenClose.close (-EBADF)]).results = 0 := by
  decide

/-- C14, amended. For every finite sequence of `open` and `close` calls on a device that starts
with count 0, whatever `open_first` returns and whatever `close_last` returns other than
`-EBADF` itself, the count after the sequence (hence after each call, every initial part being
such a sequence) is the number of opens that returned `PX4_OK` minus the number of closes that
did not return `-EBADF`; that number of closes never exceeds that number of opens; and a
failing `close_last` does not restore the count: the close returns the error with the count
at 0. -/
theorem open_count_balance (d : VDev) (hd : d._open_count = 0) (calls : List OpenClose)
    (hh : HooksNotBadState calls) :
    (runOpenClose d calls).dev._open_count + closesNotBadState (runOpenClose d calls).results
      = opensOk (runOpenClose d calls).results ∧
    closesNotBadState (runOpenClose d calls).results ≤ opensOk (runOpenClose d calls).results ∧
    (∀ (d1 : VDev) (e : Int), d1._open_count = 1 →
      (d1.close e).1 = e ∧ (d1.close e).2.1._open_count = 0) := by
  have h := run_balance calls d hh
  rw [hd] at h
  refine ⟨by omega, by omega, ?_⟩
  intro d1 e h1
  simp [VDev.close, h1]

/-- Instance of C14 amended: open, open, close with a failing hook result that is not used,
close with a hook that fails with `-EINVAL`, close again. -/
theorem open_count_balance_witness :
    (runOpenClose (VDev.construct none)
      [OpenClose.open 0, OpenClose.open 0, OpenClose.close (-EINVAL), OpenClose.close (-EINVAL),
       OpenClose.close 0]).dev._open_count
      + closesNotBadState (runOpenClose (VDev.construct none)
          [OpenClose.open 0, OpenClose.open 0, OpenClose.close (-EINVAL),
           OpenClose.close (-EINVAL), OpenClose.close 0]).results
      = opensOk (runOpenClose (VDev.construct none)
          [OpenClose.open 0, OpenClose.open 0, OpenClose.close (-EINVAL),
           OpenClose.close (-EINVAL), OpenClose.close 0]).results :=
  (open_count_balance (VDev.construct none) rfl
    [OpenClose.open 0, OpenClose.open 0, OpenClose.close (-EINVAL), OpenClose.close (-EINVAL),
     OpenClose.close 0]
    (fun r hr => by
      simp only [List.mem_cons, OpenClose.close.injEq, List.mem_singleton, List.not_mem_nil,
        or_false, false_or, reduceCtorEq] at hr
      rcases hr with h | h | h <;> rw [h] <;> decide)).1

/-! ## Claims about ioctl -/

theorem ioctl_default (k : BaseCmds) (d : VDevObject) (this : Ptr) (cmd : Int) (arg : Nat)
    (h1 : cmd ≠ k.PX4_DIOC_GETPRIV) (h2 : cmd ≠ k.PX4_DEVIOCSPUBBLOCK)
    (h3 : cmd ≠ k.PX4_DEVIOCGPUBBLOCK) (h4 : cmd ≠ k.PX4_DEVIOCGDEVICEID) :
    VDev.ioctl k d this cmd arg = (-ENOTTY, d, none) := by
  simp [VDev.ioctl, h1, h2, h3, h4]

/-- C15. Two-stage dispatch. For every command value that is none of the four generic commands:
`VDev::ioctl` returns `-ENOTTY` and changes nothing; `GYROSIM::ioctl` (accel endpoint) does the
same when the command is none of its `case` labels; and `GYROSIM_gyro::ioctl` (gyro endpoint)
does the same when the command is neither its own label `DEVIOCGDEVICEID` nor a label of
`GYROSIM::gyro_ioctl`. No object changes and no store is made. -/
theorem ioctl_unsupported (S : Type) (c : SensorCmds) (k : BaseCmds) (b : CaseBodies S)
    (d : VDevObject) (g : Gyrosim S) (this parent : Ptr) (cmd : Int) (arg : Nat)
    (h1 : cmd ≠ k.PX4_DIOC_GETPRIV) (h2 : cmd ≠ k.PX4_DEVIOCSPUBBLOCK)
    (h3 : cmd ≠ k.PX4_DEVIOCGPUBBLOCK) (h4 : cmd ≠ k.PX4_DEVIOCGDEVICEID) :
    VDev.ioctl k d this cmd arg = (-ENOTTY, d, none) ∧
    (cmd ∉ c.accelLabels → GYROSIM.ioctl c k b this g cmd arg = (-ENOTTY, g, none)) ∧
    (cmd ≠ c.DEVIOCGDEVICEID → cmd ∉ c.sharedLabels → cmd ∉ c.gyroLabels →
      GYROSIM_gyro.ioctl c k b this parent g cmd arg = (-ENOTTY, g, none)) := by
  refine ⟨ioctl_default k d this cmd arg h1 h2 h3 h4, ?_, ?_⟩
  · intro ha
    simp only [GYROSIM.ioctl, ha, if_false, ioctl_default k g.accel this cmd arg h1 h2 h3 h4]
  · intro hd hs hg
    simp only [GYROSIM_gyro.ioctl, GYROSIM.gyro_ioctl, hd, hs, hg, if_false,
      ioctl_default k g.accel parent cmd arg h1 h2 h3 h4]

/-- Instance of C15: command 99 with the sample command values, on the base object and on both
endpoints of the sample sensor. -/
theorem ioctl_unsupported_witness :
    VDev.ioctl sampleBaseCmds sampleGyrosim.accel 7 99 0 = (-ENOTTY, sampleGyrosim.accel, none) ∧
    GYROSIM.ioctl sampleSensorCmds sampleBaseCmds idleBodies 7 sampleGyrosim 99 0
      = (-ENOTTY, sampleGyrosim, none) ∧
    GYROSIM_gyro.ioctl sampleSensorCmds sampleBaseCmds idleBodies 9 7 sampleGyrosim 99 0
      = (-ENOTTY, sampleGyrosim, none) :=
  have h := ioctl_unsupported Unit sampleSensorCmds sampleBaseCmds idleBodies sampleGyrosim.accel
    sampleGyrosim 7 7 99 0 (by decide) (by decide) (by decide) (by decide)
  have h9 := ioctl_unsupported Unit sampleSensorCmds sampleBaseCmds idleBodies sampleGyrosim.accel
    sampleGyrosim 9 7 99 0 (by decide) (by decide) (by decide) (by decide)
  ⟨h.1, h.2.1 (by decide), h9.2.2 (by decide) (by decide) (by decide)⟩

/-- C16. With the four generic command values distinct: `PX4_DEVIOCSPUBBLOCK` with argument
`a` returns `PX4_OK`, makes no store and sets `_pub_blocked` to `a != 0`, leaving `_open_count`,
`_registered`, the registration name, the device id and the waiter slots as they were; a
following `PX4_DEVIOCGPUBBLOCK` returns 1 if `a != 0` and 0 otherwise; `PX4_DEVIOCGPUBBLOCK`
and `PX4_DEVIOCGDEVICEID` change nothing, and `PX4_DEVIOCGDEVICEID` returns the device id as
an `int`, which is the id itself when it is below `2^31`. -/
theorem ioctl_pub_block (k : BaseCmds) (hk : k.Distinct) (d : VDevObject) (this : Ptr)
    (a a1 : Nat) :
    VDev.ioctl k d this k.PX4_DEVIOCSPUBBLOCK a
      = (PX4_OK, { d with _pub_blocked := decide (a ≠ 0) }, none) ∧
    ((VDev.ioctl k d this k.PX4_DEVIOCSPUBBLOCK a).2.1._open_count = d._open_count ∧
      (VDev.ioctl k d this k.PX4_DEVIOCSPUBBLOCK a).2.1._registered = d._registered ∧
      (VDev.ioctl k d this k.PX4_DEVIOCSPUBBLOCK a).2.1._devname = d._devname ∧
      (VDev.ioctl k d this k.PX4_DEVIOCSPUBBLOCK a).2.1._device_id = d._device_id ∧
      (VDev.ioctl k d this k.PX4_DEVIOCSPUBBLOCK a).2.1._pollset = d._pollset) ∧
    VDev.ioctl k (VDev.ioctl k d this k.PX4_DEVIOCSPUBBLOCK a).2.1 this k.PX4_DEVIOCGPUBBLOCK a1
      = ((if a ≠ 0 then 1 else 0), (VDev.ioctl k d this k.PX4_DEVIOCSPUBBLOCK a).2.1, none) ∧
    VDev.ioctl k d this k.PX4_DEVIOCGPUBBLOCK a1
      = ((if d._pub_blocked then 1 else 0), d, none) ∧
    VDev.ioctl k d this k.PX4_DEVIOCGDEVICEID a1 = (int_of_uint32 d._device_id, d, none) ∧
    (d._device_id < 2 ^ 31 →
      (VDev.ioctl k d this k.PX4_DEVIOCGDEVICEID a1).1 = (d._device_id : Int)) := by
  simp only [BaseCmds.Distinct, List.nodup_cons, List.mem_cons, List.mem_singleton,
    List.not_mem_nil, or_false, not_or, List.nodup_nil, and_true] at hk
  obtain ⟨⟨h12, h13, h14⟩, ⟨h23, h24⟩, h34, _⟩ := hk
  have hset : VDev.ioctl k d this k.PX4_DEVIOCSPUBBLOCK a
      = (PX4_OK, { d with _pub_blocked := decide (a ≠ 0) }, none) := by
    simp [VDev.ioctl, Ne.symm h12]
  have hget : ∀ e : VDevObject, VDev.ioctl k e this k.PX4_DEVIOCGPUBBLOCK a1
      = ((if e._pub_blocked then 1 else 0), e, none) := by
    intro e
    simp [VDev.ioctl, Ne.symm h13, Ne.symm h23]
  have hid : VDev.ioctl k d this k.PX4_DEVIOCGDEVICEID a1
      = (int_of_uint32 d._device_id, d, none) := by
    simp [VDev.ioctl, Ne.symm h14, Ne.symm h24, Ne.symm h34]
  refine ⟨hset, by rw [hset]; exact ⟨rfl, rfl, rfl, rfl, rfl⟩, ?_, hget d, hid, ?_⟩
  · rw [hget, hset]
    by_cases ha : a = 0 <;> simp [ha]
  · intro hlt
    rw [hid]
    have hmod : d._device_id % 2 ^ 32 = d._device_id := Nat.mod_eq_of_lt (by omega)
    simp only [int_of_uint32, hmod, hlt, if_true]

/-- Instance of C16 with the sample command values on a fresh object with device id 1:
blocking with argument 5, then reading the flag and the id. -/
theorem ioctl_pub_block_witness :
    VDev.ioctl sampleBaseCmds
        (VDev.ioctl sampleBaseCmds sampleGyrosim.accel 7 sampleBaseCmds.PX4_DEVIOCSPUBBLOCK 5).2.1
        7 sampleBaseCmds.PX4_DEVIOCGPUBBLOCK 0
      = ((if 5 ≠ 0 then 1 else 0),
         (VDev.ioctl sampleBaseCmds sampleGyrosim.accel 7 sampleBaseCmds.PX4_DEVIOCSPUBBLOCK 5).2.1,
         none) ∧
    (VDev.ioctl sampleBaseCmds sampleGyrosim.accel 7 sampleBaseCmds.PX4_DEVIOCGDEVICEID 0).1
      = ((sampleGyrosim.accel._device_id : Nat) : Int) :=
  have h := ioctl_pub_block sampleBaseCmds (by unfold BaseCmds.Distinct; decide)
    sampleGyrosim.accel 7 5 0
  ⟨h.2.2.1, h.2.2.2.2.2 (by decide)⟩

/-! ## The waiter array -/

theorem store_scan {l : List Ptr} {i : Nat} (h : LowestNull l i) :
    firstIdx (fun i => decide (NULL = l.getD i NULL)) l.length 0 = some i := by
  obtain ⟨h1, h2, h3⟩ := h
  refine firstIdx_eq_some (Nat.zero_le _) (by omega) (by simp only [h2, decide_True]) ?_
  intro m _ hm
  exact decide_eq_false (fun hc => h3 m hm hc.symm)

theorem store_scan_lowest {l : List Ptr} {i : Nat}
    (h : firstIdx (fun i => decide (NULL = l.getD i NULL)) l.length 0 = some i) :
    LowestNull l i := by
  obtain ⟨_, h2, h3, h4⟩ := firstIdx_some h
  refine ⟨by omega, (of_decide_eq_true h3).symm, fun j hj hc => ?_⟩
  have := h4 j (Nat.zero_le _) hj
  exact absurd hc.symm (of_decide_eq_false this)

theorem store_scan_none {l : List Ptr} (h : ∀ i, i < l.length → l.getD i NULL ≠ NULL) :
    firstIdx (fun i => decide (NULL = l.getD i NULL)) l.length 0 = none := by
  apply firstIdx_eq_none
  intro m _ hm
  exact decide_eq_false (fun hc => h m (by omega) hc.symm)

theorem lowestNull_exists {l : List Ptr} (h : ∃ i, i < l.length ∧ l.getD i NULL = NULL) :
    ∃ i, LowestNull l i := by
  cases hf : firstIdx (fun i => decide (NULL = l.getD i NULL)) l.length 0 with
  | some i => exact ⟨i, store_scan_lowest hf⟩
  | none =>
    obtain ⟨i, hi, hn⟩ := h
    have := firstIdx_none hf i (Nat.zero_le _) (by omega)
    exact absurd hn.symm (of_decide_eq_false this)

theorem remove_scan {l : List Ptr} {fds : Ptr} {i : Nat} (h : LowestHolding l fds i) :
    firstIdx (fun i => decide (fds = l.getD i NULL)) l.length 0 = some i := by
  obtain ⟨h1, h2, h3⟩ := h
  refine firstIdx_eq_some (Nat.zero_le _) (by omega) (by simp only [h2, decide_True]) ?_
  intro m _ hm
  exact decide_eq_false (fun hc => h3 m hm hc.symm)

theorem remove_scan_lowest {l : List Ptr} {fds : Ptr} {i : Nat}
    (h : firstIdx (fun i => decide (fds = l.getD i NULL)) l.length 0 = some i) :
    LowestHolding l fds i := by
  obtain ⟨_, h2, h3, h4⟩ := firstIdx_some h
  refine ⟨by omega, (of_decide_eq_true h3).symm, fun j hj hc => ?_⟩
  have := h4 j (Nat.zero_le _) hj
  exact absurd hc.symm (of_decide_eq_false this)

theorem remove_scan_none {l : List Ptr} {fds : Ptr}
    (h : ∀ i, i < l.length → l.getD i NULL ≠ fds) :
    firstIdx (fun i => decide (fds = l.getD i NULL)) l.length 0 = none := by
  apply firstIdx_eq_none
  intro m _ hm
  exact decide_eq_false (fun hc => h m (by omega) hc.symm)

theorem lowestHolding_exists {l : List Ptr} {fds : Ptr}
    (h : ∃ i, i < l.length ∧ l.getD i NULL = fds) : ∃ i, LowestHolding l fds i := by
  cases hf : firstIdx (fun i => decide (fds = l.getD i NULL)) l.length 0 with
  | some i => exact ⟨i, remove_scan_lowest hf⟩
  | none =>
    obtain ⟨i, hi, hn⟩ := h
    have := firstIdx_none hf i (Nat.zero_le _) (by omega)
    exact absurd hn.symm (of_decide_eq_false this)

theorem store_poll_waiter_free {d : VDevObject} {i : Nat} (fds : Ptr)
    (h : LowestNull d._pollset i) :
    VDev.store_poll_waiter d fds = (PX4_OK, { d with _pollset := d._pollset.set i fds }) := by
  simp only [VDev.store_poll_waiter, store_scan h]

theorem store_poll_waiter_full {d : VDevObject} (fds : Ptr)
    (h : ∀ i, i < d._pollset.length → d._pollset.getD i NULL ≠ NULL) :
    VDev.store_poll_waiter d fds = (-ENOMEM, d) := by
  simp only [VDev.store_poll_waiter, store_scan_none h]

theorem remove_poll_waiter_found {d : VDevObject} {fds : Ptr} {i : Nat}
    (h : LowestHolding d._pollset fds i) :
    VDev.remove_poll_waiter d fds = (PX4_OK, { d with _pollset := d._pollset.set i NULL }) := by
  simp only [VDev.remove_poll_waiter, remove_scan h]

theorem remove_poll_waiter_missing {d : VDevObject} {fds : Ptr}
    (h : ∀ i, i < d._pollset.length → d._pollset.getD i NULL ≠ fds) :
    VDev.remove_poll_waiter d fds = (-EINVAL, d) := by
  simp only [VDev.remove_poll_waiter, remove_scan_none h]

theorem lor_ne_zero_right (a b : Nat) (h : b ≠ 0) : a ||| b ≠ 0 := by
  intro hz
  obtain ⟨i, hi⟩ := Nat.ne_zero_implies_bit_true h
  have := Nat.testBit_or a b i
  rw [hz, Nat.zero_testBit, hi, Bool.or_true] at this
  exact absurd this (by simp)

/-- What a successful poll setup leaves in memory. -/
theorem poll_setup_stored (d : VDevObject) (mem : PollMem) (poll_state : Nat)
    (handlep fds : Ptr) (i : Nat) (h : LowestNull d._pollset i) :
    (VDev.poll d mem poll_state handlep fds true).1 = PX4_OK ∧
    (VDev.poll d mem poll_state handlep fds true).2.1
      = { d with _pollset := d._pollset.set i fds } ∧
    (VDev.poll d mem poll_state handlep fds true).2.2.fds fds
      = { events := (mem.fds fds).events,
          revents := (mem.fds fds).revents ||| ((mem.fds fds).events &&& poll_state),
          sem := (mem.fds fds).sem, priv := handlep } ∧
    (∀ q, q ≠ fds → (VDev.poll d mem poll_state handlep fds true).2.2.fds q = mem.fds q) ∧
    (VDev.poll d mem poll_state handlep fds true).2.2.sem_value
      = if (mem.fds fds).revents ||| ((mem.fds fds).events &&& poll_state) ≠ 0 then
          Function.update mem.sem_value (mem.fds fds).sem (mem.sem_value (mem.fds fds).sem + 1)
        else mem.sem_value := by
  have hs := store_poll_waiter_free fds h
  by_cases hnew : (mem.fds fds).revents ||| ((mem.fds fds).events &&& poll_state) = 0
  · simp [VDev.poll, hs, hnew]
    intro q hq
    simp [Function.update_noteq hq]
  · simp [VDev.poll, hs, hnew, sem_post]
    intro q hq
    simp [Function.update_noteq hq]

/-! ## Claims about poll setup and teardown -/

/-- C17. Poll setup when a slot is null: the waiter goes into the lowest-index null slot, the
other slots stay, and `PX4_OK` is returned; the observed mask becomes
`old_observed | (interest & poll_state)` (the interest mask and the semaphore address stay,
`priv` becomes `handlep`, other structures are untouched); the semaphore is posted exactly once
if that mask is non-zero and not at all if it is zero. Hence a device whose `poll_state`
meets the interest is signalled at once, and a setup with a clear observed mask on a device
with no matching readiness posts nothing. -/
theorem poll_setup (d : VDevObject) (mem : PollMem) (poll_state : Nat) (handlep fds : Ptr)
    (hfree : ∃ i, i < d._pollset.length ∧ d._pollset.getD i NULL = NULL) :
    ∃ i, LowestNull d._pollset i ∧
      (VDev.poll d mem poll_state handlep fds true).1 = PX4_OK ∧
      (VDev.poll d mem poll_state handlep fds true).2.1
        = { d with _pollset := d._pollset.set i fds } ∧
      (VDev.poll d mem poll_state handlep fds true).2.1._pollset[i]? = some fds ∧
      (∀ j, j ≠ i →
        (VDev.poll d mem poll_state handlep fds true).2.1._pollset[j]? = d._pollset[j]?) ∧
      (VDev.poll d mem poll_state handlep fds true).2.2.fds fds
        = { events := (mem.fds fds).events,
            revents := (mem.fds fds).revents ||| ((mem.fds fds).events &&& poll_state),
            sem := (mem.fds fds).sem, priv := handlep } ∧
      (∀ q, q ≠ fds → (VDev.poll d mem poll_state handlep fds true).2.2.fds q = mem.fds q) ∧
      (VDev.poll d mem poll_state handlep fds true).2.2.sem_value
        = (if (mem.fds fds).revents ||| ((mem.fds fds).events &&& poll_state) ≠ 0 then
            Function.update mem.sem_value (mem.fds fds).sem
              (mem.sem_value (mem.fds fds).sem + 1)
          else mem.sem_value) ∧
      ((mem.fds fds).events &&& poll_state ≠ 0 →
        (VDev.poll d mem poll_state handlep fds true).2.2.sem_value (mem.fds fds).sem
          = mem.sem_value (mem.fds fds).sem + 1) ∧
      ((mem.fds fds).revents = 0 → (mem.fds fds).events &&& poll_state = 0 →
        (VDev.poll d mem poll_state handlep fds true).2.2.sem_value = mem.sem_value) := by
  obtain ⟨i, hi⟩ := lowestNull_exists hfree
  obtain ⟨h1, h2, h3, h4, h5⟩ := poll_setup_stored d mem poll_state handlep fds i hi
  refine ⟨i, hi, h1, h2, ?_, ?_, h3, h4, h5, ?_, ?_⟩
  · rw [h2]
    exact List.getElem?_set_self hi.1
  · intro j hj
    rw [h2]
    exact List.getElem?_set_ne (Ne.symm hj)
  · intro hne
    rw [h5, if_pos (lor_ne_zero_right _ _ hne), Function.update_same]
  · intro hr he
    rw [h5, hr, he]
    simp

/-- Instance of C17 on a fresh device with two slots: a waiter with interest mask 1 is
signalled at once when `poll_state` is 1. -/
theorem poll_setup_witness :
    ∃ i, LowestNull (VDevObject.construct 2 1 none)._pollset i ∧
      (VDev.poll (VDevObject.construct 2 1 none) sampleMem 1 1 5 true).2.1._pollset[i]?
        = some 5 ∧
      (VDev.poll (VDevObject.construct 2 1 none) sampleMem 1 1 5 true).2.2.sem_value
          (sampleMem.fds 5).sem
        = sampleMem.sem_value (sampleMem.fds 5).sem + 1 := by
  obtain ⟨i, h1, _, _, h4, _, _, _, _, h9, _⟩ :=
    poll_setup (VDevObject.construct 2 1 none) sampleMem 1 1 5 ⟨0, by decide, by decide⟩
  exact ⟨i, h1, h4, h9 (by decide)⟩

/-- C18, as stated, fails on the error kind: with both slots of a two-slot device occupied,
poll setup returns `-ENOMEM` (-12), whereas `register_driver` on a full table returns
`-ENOSPC` (-28). -/
theorem poll_setup_full_errno :
    (∀ i, i < twoWaiters.1._pollset.length → twoWaiters.1._pollset.getD i NULL ≠ NULL) ∧
    (VDev.poll twoWaiters.1 twoWaiters.2 1 1 5 true).1 = -ENOMEM ∧
    (register_driver fullMap (some "/dev/gyrosim_accel".toList) 7).1 = -ENOSPC ∧
    (VDev.poll twoWaiters.1 twoWaiters.2 1 1 5 true).1
      ≠ (register_driver fullMap (some "/dev/gyrosim_accel".toList) 7).1 := by
  decide

/-- C18, amended. When every slot of the waiter array is occupied, poll setup returns `-ENOMEM`,
which is not the `-ENOSPC` of a full registry; it posts no semaphore, leaves the waiter's
observed mask and every other structure as they were, and changes no slot. When some slot is
null, setup returns `PX4_OK`. -/
theorem poll_setup_full (d : VDevObject) (mem : PollMem) (poll_state : Nat)
    (handlep fds : Ptr) :
    ((∀ i, i < d._pollset.length → d._pollset.getD i NULL ≠ NULL) →
      (VDev.poll d mem poll_state handlep fds true).1 = -ENOMEM ∧
      (VDev.poll d mem poll_state handlep fds true).2.1 = d ∧
      (VDev.poll d mem poll_state handlep fds true).2.2.sem_value = mem.sem_value ∧
      ((VDev.poll d mem poll_state handlep fds true).2.2.fds fds).revents
        = (mem.fds fds).revents ∧
      (∀ q, q ≠ fds → (VDev.poll d mem poll_state handlep fds true).2.2.fds q = mem.fds q)) ∧
    -ENOMEM ≠ -ENOSPC ∧
    ((∃ i, i < d._pollset.length ∧ d._pollset.getD i NULL = NULL) →
      (VDev.poll d mem poll_state handlep fds true).1 = PX4_OK) := by
  refine ⟨?_, by decide, ?_⟩
  · intro hfull
    have hs := store_poll_waiter_full fds hfull
    have hne : ¬ (-ENOMEM = PX4_OK) := by decide
    simp only [VDev.poll, hs, hne, if_true, if_false, Function.update_same, true_and]
    intro q hq
    exact Function.update_noteq hq _ _
  · intro hfree
    obtain ⟨i, hi⟩ := lowestNull_exists hfree
    exact (poll_setup_stored d mem poll_state handlep fds i hi).1

/-- Instance of C18 amended on the two-slot device whose slots are both occupied. -/
theorem poll_setup_full_witness :
    (VDev.poll twoWaiters.1 twoWaiters.2 1 1 5 true).1 = -ENOMEM ∧
    (VDev.poll twoWaiters.1 twoWaiters.2 1 1 5 true).2.1 = twoWaiters.1 ∧
    (VDev.poll twoWaiters.1 twoWaiters.2 1 1 5 true).2.2.sem_value = twoWaiters.2.sem_value :=
  have h := (poll_setup_full twoWaiters.1 twoWaiters.2 1 1 5).1 (by decide)
  ⟨h.1, h.2.1, h.2.2.1⟩

/-- C19, as stated, fails on the error kind: a teardown for a waiter that no slot holds
returns `-EINVAL` (-22), whereas `close` on a device that is not open returns `-EBADF` (-9). -/
theorem poll_teardown_errno :
    (VDev.poll (VDevObject.construct 2 1 none) sampleMem 0 1 5 false).1 = -EINVAL ∧
    ((VDevObject.construct 2 1 none).toVDev.close 0).1 = -EBADF ∧
    (VDev.poll (VDevObject.construct 2 1 none) sampleMem 0 1 5 false).1
      ≠ ((VDevObject.construct 2 1 none).toVDev.close 0).1 := by
  decide

/-- C19, amended. Poll teardown: if some slot holds the given waiter, the lowest-index such
slot is made null, all other slots and the memory stay as they were and `PX4_OK` is returned;
if no slot holds it, teardown returns `-EINVAL`, which is not the `-EBADF` of a close on an
unopened device, and nothing changes. -/
theorem poll_teardown (d : VDevObject) (mem : PollMem) (poll_state : Nat)
    (handlep fds : Ptr) :
    ((∃ i, i < d._pollset.length ∧ d._pollset.getD i NULL = fds) →
      ∃ i, LowestHolding d._pollset fds i ∧
        VDev.poll d mem poll_state handlep fds false
          = (PX4_OK, { d with _pollset := d._pollset.set i NULL }, mem) ∧
        (VDev.poll d mem poll_state handlep fds false).2.1._pollset[i]? = some NULL ∧
        ∀ j, j ≠ i →
          (VDev.poll d mem poll_state handlep fds false).2.1._pollset[j]? = d._pollset[j]?) ∧
    ((∀ i, i < d._pollset.length → d._pollset.getD i NULL ≠ fds) →
      VDev.poll d mem poll_state handlep fds false = (-EINVAL, d, mem)) ∧
    -EINVAL ≠ -EBADF := by
  refine ⟨?_, ?_, by decide⟩
  · intro hex
    obtain ⟨i, hi⟩ := lowestHolding_exists hex
    have hr := remove_poll_waiter_found hi
    have hp : VDev.poll d mem poll_state handlep fds false
        = (PX4_OK, { d with _pollset := d._pollset.set i NULL }, mem) := by
      simp [VDev.poll, hr]
    refine ⟨i, hi, hp, ?_, ?_⟩
    · rw [hp]
      exact List.getElem?_set_self hi.1
    · intro j hj
      rw [hp]
      exact List.getElem?_set_ne (Ne.symm hj)
  · intro hmiss
    simp [VDev.poll, remove_poll_waiter_missing hmiss]

/-- Instance of C19 amended: on the device holding waiters 3 and 4, the teardown of 4 clears
slot 1, and a teardown of 5 is refused. -/
theorem poll_teardown_witness :
    (∃ i, LowestHolding twoWaiters.1._pollset 4 i ∧
      VDev.poll twoWaiters.1 twoWaiters.2 0 1 4 false
        = (PX4_OK, { twoWaiters.1 with _pollset := twoWaiters.1._pollset.set i NULL },
            twoWaiters.2)) ∧
    VDev.poll twoWaiters.1 twoWaiters.2 0 1 5 false = (-EINVAL, twoWaiters.1, twoWaiters.2) := by
  have h := poll_teardown twoWaiters.1 twoWaiters.2 0 1
  obtain ⟨i, h1, h2, _⟩ := (h 4).1 ⟨1, by decide, by decide⟩
  exact ⟨⟨i, h1, h2⟩, (h 5).2.1 (by decide)⟩

/-! ## One slot per waiter -/

theorem getD_of_lt {l : List Ptr} {i : Nat} (h : i < l.length) : l.getD i NULL = l.get ⟨i, h⟩ := by
  simp [List.getD_eq_getElem?_getD, List.getElem?_eq_getElem h]

theorem count_set_le {l : List Ptr} {i : Nat} (h : i < l.length) (a p : Ptr) :
    (l.set i a).count p
      = l.count p - (if l.get ⟨i, h⟩ = p then 1 else 0) + (if a = p then 1 else 0) := by
  have := List.count_set a p l i h
  simpa using this

theorem atMostOnce_store {l : List Ptr} {i : Nat} {fds : Ptr} (hl : AtMostOnce l)
    (hi : LowestNull l i) (hfresh : fds ∉ l) : AtMostOnce (l.set i fds) := by
  intro p hp
  have hget : l.get ⟨i, hi.1⟩ = NULL := by rw [← getD_of_lt hi.1]; exact hi.2.1
  rw [count_set_le hi.1, hget, if_neg (Ne.symm hp)]
  by_cases hf : fds = p
  · subst hf
    rw [List.count_eq_zero_of_not_mem hfresh]
    simp
  · have := hl p hp
    simp [hf]
    exact this

theorem atMostOnce_remove {l : List Ptr} {i : Nat} (hl : AtMostOnce l) (hi : i < l.length) :
    AtMostOnce (l.set i NULL) := by
  intro p hp
  have := hl p hp
  rw [count_set_le hi, if_neg (Ne.symm hp)]
  omega

theorem count_after_remove {l : List Ptr} {i : Nat} {p : Ptr} (hl : AtMostOnce l)
    (hp : p ≠ NULL) (hi : LowestHolding l p i) : (l.set i NULL).count p = 0 := by
  have hget : l.get ⟨i, hi.1⟩ = p := by rw [← getD_of_lt hi.1]; exact hi.2.1
  have := hl p hp
  rw [count_set_le hi.1, hget, if_pos rfl, if_neg (Ne.symm hp)]
  omega

/-- The slots after a poll call: as before, or with the waiter in the lowest null slot (setup),
or with the lowest slot holding the waiter made null (teardown). -/
theorem poll_slots (d : VDevObject) (mem : PollMem) (poll_state : Nat) (handlep fds : Ptr)
    (setup : Bool) :
    (VDev.poll d mem poll_state handlep fds setup).2.1._pollset = d._pollset ∨
    (setup = true ∧ ∃ i, LowestNull d._pollset i ∧
      (VDev.poll d mem poll_state handlep fds setup).2.1._pollset = d._pollset.set i fds) ∨
    (setup = false ∧ ∃ i, LowestHolding d._pollset fds i ∧
      (VDev.poll d mem poll_state handlep fds setup).2.1._pollset = d._pollset.set i NULL) := by
  cases setup with
  | true =>
    cases hf : firstIdx (fun i => decide (NULL = d._pollset.getD i NULL)) d._pollset.length 0 with
    | some i =>
      right; left
      have hi := store_scan_lowest hf
      exact ⟨rfl, i, hi, by rw [(poll_setup_stored d mem poll_state handlep fds i hi).2.1]⟩
    | none =>
      left
      have hne : ¬ (-ENOMEM = PX4_OK) := by decide
      have hs : VDev.store_poll_waiter d fds = (-ENOMEM, d) := by
        simp only [VDev.store_poll_waiter, hf]
      simp [VDev.poll, hs, hne]
  | false =>
    cases hf : firstIdx (fun i => decide (fds = d._pollset.getD i NULL)) d._pollset.length 0 with
    | some i =>
      right; right
      have hr : VDev.remove_poll_waiter d fds
          = (PX4_OK, { d with _pollset := d._pollset.set i NULL }) := by
        simp only [VDev.remove_poll_waiter, hf]
      exact ⟨rfl, i, remove_scan_lowest hf, by simp [VDev.poll, hr]⟩
    | none =>
      left
      have hr : VDev.remove_poll_waiter d fds = (-EINVAL, d) := by
        simp only [VDev.remove_poll_waiter, hf]
      simp [VDev.poll, hr]

theorem atMostOnce_step (s : VDevObject × PollMem) (c : PollCall) (hs : AtMostOnce s.1._pollset)
    (hc : ∀ handlep fds poll_state, c = PollCall.setup handlep fds poll_state →
      fds ∉ s.1._pollset) :
    AtMostOnce (c.run s).1._pollset := by
  cases c with
  | setup handlep fds poll_state =>
    rcases poll_slots s.1 s.2 poll_state handlep fds true with h | ⟨_, i, hi, h⟩ | ⟨hf, _⟩
    · simp only [PollCall.run, h]; exact hs
    · simp only [PollCall.run, h]
      exact atMostOnce_store hs hi (hc handlep fds poll_state rfl)
    · exact absurd hf (by simp)
  | teardown handlep fds =>
    rcases poll_slots s.1 s.2 0 handlep fds false with h | ⟨hf, _⟩ | ⟨_, i, hi, h⟩
    · simp only [PollCall.run, h]; exact hs
    · exact absurd hf (by simp)
    · simp only [PollCall.run, h]
      exact atMostOnce_remove hs hi.1
  | notify events => exact hs
  | caller write => exact hs

theorem atMostOnce_run (calls : List PollCall) (s : VDevObject × PollMem)
    (hs : AtMostOnce s.1._pollset) (hc : SetupFresh s calls) :
    AtMostOnce (runPoll s calls).1._pollset := by
  induction calls generalizing s with
  | nil => exact hs
  | cons c cs ih => exact ih (c.run s) (atMostOnce_step s c hs hc.1) hc.2

theorem atMostOnce_fresh (m devid : Nat) (devname : Option CStr) :
    AtMostOnce (VDevObject.construct m devid devname)._pollset := by
  intro p hp
  simp only [VDevObject.construct, List.count_replicate]
  have : ¬ (NULL == p) = true := by simpa using Ne.symm hp
  simp [this]

/-- C20, as stated, fails: two poll setups for the same waiter 5 on a fresh two-slot device
leave it in both slots, and the teardown that follows removes it from one slot only. -/
theorem waiter_set_up_twice :
    (runPoll (VDevObject.construct 2 1 none, sampleMem)
      [PollCall.setup 1 5 0, PollCall.setup 1 5 0]).1._pollset = [5, 5] ∧
    (runPoll (VDevObject.construct 2 1 none, sampleMem)
      [PollCall.setup 1 5 0, PollCall.setup 1 5 0]).1._pollset.count 5 = 2 ∧
    (runPoll (VDevObject.construct 2 1 none, sampleMem)
      [PollCall.setup 1 5 0, PollCall.setup 1 5 0, PollCall.teardown 1 5]).1._pollset.count 5
      = 1 := by
  decide

/-- C20, amended. In every state reached from a freshly constructed device by a sequence of
poll setups, poll teardowns, notifies and writes of the callers to their own structures, in
which no setup is made for a waiter that occupies a slot at the time, a waiter occupies at
most one slot, and one teardown for it leaves it in no slot. -/
theorem waiter_in_one_slot (m devid : Nat) (devname : Option CStr) (mem : PollMem)
    (calls : List PollCall)
    (hc : SetupFresh (VDevObject.construct m devid devname, mem) calls)
    (p : Ptr) (hp : p ≠ NULL) (handlep : Ptr) :
    (runPoll (VDevObject.construct m devid devname, mem) calls).1._pollset.count p ≤ 1 ∧
    (VDev.poll (runPoll (VDevObject.construct m devid devname, mem) calls).1
      (runPoll (VDevObject.construct m devid devname, mem) calls).2 0 handlep p
      false).2.1._pollset.count p = 0 := by
  have hinv := atMostOnce_run calls _ (atMostOnce_fresh m devid devname) hc
  refine ⟨hinv p hp, ?_⟩
  rcases poll_slots (runPoll (VDevObject.construct m devid devname, mem) calls).1
      (runPoll (VDevObject.construct m devid devname, mem) calls).2 0 handlep p false with
    h | ⟨hf, _⟩ | ⟨_, i, hi, h⟩
  · rw [h]
    by_cases hmem : p ∈ (runPoll (VDevObject.construct m devid devname, mem) calls).1._pollset
    · exfalso
      obtain ⟨n, hn, hget⟩ := List.getElem_of_mem hmem
      have hex : ∃ i, i < (runPoll (VDevObject.construct m devid devname, mem)
          calls).1._pollset.length ∧
          (runPoll (VDevObject.construct m devid devname, mem) calls).1._pollset.getD i NULL
            = p := ⟨n, hn, by rw [getD_of_lt hn]; exact hget⟩
      obtain ⟨i, hi⟩ := lowestHolding_exists hex
      have hp2 : (VDev.poll (runPoll (VDevObject.construct m devid devname, mem) calls).1
          (runPoll (VDevObject.construct m devid devname, mem) calls).2 0 handlep p
          false).2.1._pollset
          = (runPoll (VDevObject.construct m devid devname, mem) calls).1._pollset.set i NULL := by
        simp [VDev.poll, remove_poll_waiter_found hi]
      rw [hp2] at h
      have hc0 := count_after_remove hinv hp hi
      have hc1 : (runPoll (VDevObject.construct m devid devname, mem) calls).1._pollset.count p
          = 0 := by
        rw [← h]; exact hc0
      exact (List.count_pos_iff.mpr hmem).ne' hc1
    · exact List.count_eq_zero_of_not_mem hmem
  · exact absurd hf (by simp)
  · rw [h]
    exact count_after_remove hinv hp hi

/-- Instance of C20 amended: waiters 3 and 4 set up, 3 torn down and set up again, a notify in
between; waiter 3 is in one slot and a teardown removes it. -/
theorem waiter_in_one_slot_witness :
    (runPoll (VDevObject.construct 2 1 none, sampleMem)
      [PollCall.setup 1 3 0, PollCall.setup 1 4 0, PollCall.teardown 1 3, PollCall.notify 1,
       PollCall.setup 1 3 1]).1._pollset.count 3 ≤ 1 ∧
    (VDev.poll (runPoll (VDevObject.construct 2 1 none, sampleMem)
      [PollCall.setup 1 3 0, PollCall.setup 1 4 0, PollCall.teardown 1 3, PollCall.notify 1,
       PollCall.setup 1 3 1]).1
      (runPoll (VDevObject.construct 2 1 none, sampleMem)
      [PollCall.setup 1 3 0, PollCall.setup 1 4 0, PollCall.teardown 1 3, PollCall.notify 1,
       PollCall.setup 1 3 1]).2 0 1 3 false).2.1._pollset.count 3 = 0 :=
  waiter_in_one_slot 2 1 none sampleMem
    [PollCall.setup 1 3 0, PollCall.setup 1 4 0, PollCall.teardown 1 3, PollCall.notify 1,
     PollCall.setup 1 3 1]
    ⟨fun _ _ _ h => by injection h with _ h2 _; subst h2; decide,
     fun _ _ _ h => by injection h with _ h2 _; subst h2; decide,
     fun _ _ _ h => by injection h,
     fun _ _ _ h => by injection h,
     fun _ _ _ h => by injection h with _ h2 _; subst h2; decide,
     trivial⟩
    3 (by decide) 1

/-! ## Notification, slot by slot -/

theorem notified_idem (f : px4_pollfd_struct_t) (e : Nat) :
    notified (notified f e) e = notified f e := by
  simp only [notified, Nat.or_assoc, Nat.or_self]

theorem poll_notify_eq (d : VDevObject) (mem : PollMem) (e : Nat) :
    VDev.poll_notify d mem e = notifySlots d._pollset mem e := rfl

/-- What `poll_notify_one` does to the structures. -/
theorem notify_one_fds (mem : PollMem) (p : Ptr) (e : Nat) (q : Ptr) :
    (VDev.poll_notify_one mem p e).fds q
      = if q = p then notified (mem.fds p) e else mem.fds q := by
  unfold VDev.poll_notify_one
  by_cases hq : q = p
  · subst hq
    simp only [if_true]
    split <;> simp [sem_post, notified]
  · simp only [hq, if_false]
    split <;> simp [sem_post, Function.update_noteq hq]

/-- What `poll_notify_one` does to the semaphores. -/
theorem notify_one_sem (mem : PollMem) (p : Ptr) (e : Nat) :
    (VDev.poll_notify_one mem p e).sem_value
      = if (notified (mem.fds p) e).revents ≠ 0 ∧ mem.sem_value (mem.fds p).sem ≤ 0 then
          Function.update mem.sem_value (mem.fds p).sem (mem.sem_value (mem.fds p).sem + 1)
        else mem.sem_value := by
  unfold VDev.poll_notify_one
  simp only [Function.update_same, notified]
  split <;> simp [sem_post]

theorem notifySlots_cons (p : Ptr) (l : List Ptr) (mem : PollMem) (e : Nat) :
    notifySlots (p :: l) mem e
      = notifySlots l (if p ≠ NULL then VDev.poll_notify_one mem p e else mem) e := by
  simp [notifySlots]

theorem step_fds (mem : PollMem) (p : Ptr) (e : Nat) (q : Ptr) :
    (if p ≠ NULL then VDev.poll_notify_one mem p e else mem).fds q
      = if q = p ∧ p ≠ NULL then notified (mem.fds q) e else mem.fds q := by
  by_cases hp : p = NULL
  · simp [hp]
  · simp only [hp, ne_eq, not_false_eq_true, if_true, and_true, notify_one_fds]
    by_cases hq : q = p
    · simp [hq]
    · simp [hq]

theorem step_sem_field (mem : PollMem) (p : Ptr) (e : Nat) (q : Ptr) :
    ((if p ≠ NULL then VDev.poll_notify_one mem p e else mem).fds q).sem = (mem.fds q).sem ∧
    ((if p ≠ NULL then VDev.poll_notify_one mem p e else mem).fds q).events
      = (mem.fds q).events := by
  rw [step_fds]
  split <;> simp [notified]

/-- After the loop, the structure of every waiter in a slot has the mask or-ed in, once; no
other structure changes. -/
theorem notifySlots_fds (l : List Ptr) (mem : PollMem) (e : Nat) (q : Ptr) :
    (notifySlots l mem e).fds q
      = if q ∈ l ∧ q ≠ NULL then notified (mem.fds q) e else mem.fds q := by
  induction l generalizing mem with
  | nil => simp [notifySlots]
  | cons p l ih =>
    rw [notifySlots_cons, ih, step_fds]
    by_cases hq : q = NULL
    · simp [hq]
      intro h1 h2
      exact absurd h1.symm h2
    · by_cases hqp : q = p
      · subst hqp
        simp [hq, notified_idem]
      · by_cases hql : q ∈ l
        · simp [hq, hqp, hql]
        · simp [hq, hqp, hql]

/-- The loop leaves alone every semaphore that belongs to no waiter of the slots. -/
theorem notifySlots_sem_other (l : List Ptr) (mem : PollMem) (e : Nat) (s : Ptr)
    (h : ∀ q, q ∈ l → q ≠ NULL → (mem.fds q).sem ≠ s) :
    (notifySlots l mem e).sem_value s = mem.sem_value s := by
  induction l generalizing mem with
  | nil => simp [notifySlots]
  | cons p l ih =>
    rw [notifySlots_cons, ih]
    · by_cases hp : p = NULL
      · simp [hp]
      · have hs := h p (List.mem_cons_self _ _) hp
        simp only [hp, ne_eq, not_false_eq_true, if_true, notify_one_sem]
        split
        · exact Function.update_noteq (Ne.symm hs) _ _
        · rfl
    · intro q hq hqn
      rw [(step_sem_field mem p e q).1]
      exact h q (List.mem_cons_of_mem _ hq) hqn

theorem indep_congr {l : List Ptr} {mem mem1 : PollMem}
    (hsem : ∀ q, (mem1.fds q).sem = (mem.fds q).sem) (h : IndepWaiters l mem) :
    IndepWaiters l mem1 := by
  unfold IndepWaiters at h ⊢
  refine List.Pairwise.imp ?_ h
  intro a b hab ha hb
  rw [hsem a, hsem b]
  exact hab ha hb

/-- With different waiters and different semaphores in the slots, the loop posts the semaphore
of a waiter once exactly when its new mask is non-zero and the count was at most 0. -/
theorem notifySlots_sem (l : List Ptr) (mem : PollMem) (e : Nat) (h : IndepWaiters l mem)
    (p : Ptr) (hp : p ∈ l) (hpn : p ≠ NULL) :
    (notifySlots l mem e).sem_value (mem.fds p).sem
      = mem.sem_value (mem.fds p).sem
        + (if (notified (mem.fds p) e).revents ≠ 0 ∧ mem.sem_value (mem.fds p).sem ≤ 0
            then 1 else 0) := by
  induction l generalizing mem with
  | nil => exact absurd hp (List.not_mem_nil _)
  | cons a l ih =>
    obtain ⟨h1, h2⟩ := List.pairwise_cons.mp h
    rw [notifySlots_cons]
    by_cases ha : a = NULL
    · have hpl : p ∈ l := by
        rcases List.mem_cons.mp hp with hpa | hpl
        · exact absurd (hpa.trans ha) hpn
        · exact hpl
      simp only [ha, ne_eq, not_true_eq_false, if_false]
      exact ih mem h2 hpl
    · by_cases hpa : p = a
      · subst hpa
        rw [notifySlots_sem_other]
        · simp only [ha, ne_eq, not_false_eq_true, if_true, notify_one_sem]
          split
          · simp [Function.update_same]
          · simp
        · intro q hq hqn
          rw [(step_sem_field mem p e q).1]
          exact Ne.symm (h1 q hq ha hqn).2
      · have hpl : p ∈ l := by
          rcases List.mem_cons.mp hp with h | h
          · exact absurd h hpa
          · exact h
        obtain ⟨_, hsem⟩ := h1 p hpl ha hpn
        have hih := ih (if a ≠ NULL then VDev.poll_notify_one mem a e else mem)
          (indep_congr (fun q => (step_sem_field mem a e q).1) h2) hpl
        have hfds : (if a ≠ NULL then VDev.poll_notify_one mem a e else mem).fds p = mem.fds p := by
          rw [step_fds]; simp [hpa]
        have hval : (if a ≠ NULL then VDev.poll_notify_one mem a e else mem).sem_value
            (mem.fds p).sem = mem.sem_value (mem.fds p).sem := by
          simp only [ha, ne_eq, not_false_eq_true, if_true, notify_one_sem]
          split
          · exact Function.update_noteq (Ne.symm hsem) _ _
          · rfl
        rw [hfds, hval] at hih
        exact hih

/-! ## Claims about notification -/

/-- C21. `VDev::poll_notify` with mask `e`. Each occupied slot is handed to `poll_notify_one`,
which or-s `events & e` into the waiter's `revents` and posts its semaphore exactly when the
new `revents` is non-zero and the count read before was at most 0, changing nothing else. After
the whole call the structure of every waiter in a slot has `revents = old | (events & e)`;
structures in no slot are untouched; a semaphore of no stored waiter is untouched; when the
slots hold different waiters with different semaphores, each waiter's semaphore has gone up by
one exactly when its new `revents` is non-zero and its count was at most 0 before the call;
and the slot array is as it was. -/
theorem poll_notify_slots (d : VDevObject) (mem : PollMem) (e : Nat) :
    (∀ (m : PollMem) (p : Ptr),
      (VDev.poll_notify_one m p e).fds p = notified (m.fds p) e ∧
      (∀ q, q ≠ p → (VDev.poll_notify_one m p e).fds q = m.fds q) ∧
      (VDev.poll_notify_one m p e).sem_value
        = (if (notified (m.fds p) e).revents ≠ 0 ∧ m.sem_value (m.fds p).sem ≤ 0 then
            Function.update m.sem_value (m.fds p).sem (m.sem_value (m.fds p).sem + 1)
          else m.sem_value)) ∧
    (∀ p, p ∈ d._pollset → p ≠ NULL →
      (VDev.poll_notify d mem e).fds p = notified (mem.fds p) e ∧
      ((VDev.poll_notify d mem e).fds p).revents
        = (mem.fds p).revents ||| ((mem.fds p).events &&& e)) ∧
    (∀ q, (q ∉ d._pollset ∨ q = NULL) → (VDev.poll_notify d mem e).fds q = mem.fds q) ∧
    (∀ s, (∀ q, q ∈ d._pollset → q ≠ NULL → (mem.fds q).sem ≠ s) →
      (VDev.poll_notify d mem e).sem_value s = mem.sem_value s) ∧
    (IndepWaiters d._pollset mem → ∀ p, p ∈ d._pollset → p ≠ NULL →
      (VDev.poll_notify d mem e).sem_value (mem.fds p).sem
        = mem.sem_value (mem.fds p).sem
          + (if (notified (mem.fds p) e).revents ≠ 0 ∧ mem.sem_value (mem.fds p).sem ≤ 0
              then 1 else 0)) ∧
    (PollCall.run (d, mem) (PollCall.notify e)).1 = d := by
  refine ⟨?_, ?_, ?_, ?_, ?_, rfl⟩
  · intro m p
    refine ⟨by rw [notify_one_fds]; simp, fun q hq => by rw [notify_one_fds]; simp [hq],
      notify_one_sem m p e⟩
  · intro p hp hpn
    have h : (VDev.poll_notify d mem e).fds p = notified (mem.fds p) e := by
      rw [poll_notify_eq, notifySlots_fds]; simp [hp, hpn]
    exact ⟨h, by rw [h]; rfl⟩
  · intro q hq
    rw [poll_notify_eq, notifySlots_fds]
    rcases hq with hq | hq
    · simp [hq]
    · simp [hq]
  · intro s hs
    rw [poll_notify_eq]
    exact notifySlots_sem_other d._pollset mem e s hs
  · intro hind p hp hpn
    rw [poll_notify_eq]
    exact notifySlots_sem d._pollset mem e hind p hp hpn

/-- Instance of C21: waiters 3 and 4 with their own semaphores and interest mask 1; a notify
with mask 1 sets the observed mask of waiter 4 and posts its semaphore once. -/
theorem poll_notify_slots_witness :
    ((VDev.poll_notify twoOwnSem.1 twoOwnSem.2 1).fds 4).revents
      = (twoOwnSem.2.fds 4).revents ||| ((twoOwnSem.2.fds 4).events &&& 1) ∧
    (VDev.poll_notify twoOwnSem.1 twoOwnSem.2 1).sem_value (twoOwnSem.2.fds 4).sem
      = twoOwnSem.2.sem_value (twoOwnSem.2.fds 4).sem
        + (if (notified (twoOwnSem.2.fds 4) 1).revents ≠ 0 ∧
              twoOwnSem.2.sem_value (twoOwnSem.2.fds 4).sem ≤ 0 then 1 else 0) :=
  have h := poll_notify_slots twoOwnSem.1 twoOwnSem.2 1
  ⟨(h.2.1 4 (by decide) (by decide)).2,
   h.2.2.2.2.1 (by unfold IndepWaiters; decide) 4 (by decide) (by decide)⟩

theorem or_and_or (r i a b : Nat) : (r ||| (i &&& a)) ||| (i &&& b) = r ||| (i &&& (a ||| b)) := by
  apply Nat.eq_of_testBit_eq
  intro k
  simp only [Nat.testBit_or, Nat.testBit_and]
  cases r.testBit k <;> cases i.testBit k <;> cases a.testBit k <;> cases b.testBit k <;> rfl

theorem notifyAll_append (d : VDevObject) (mem : PollMem) (es : List Nat) (e : Nat) :
    notifyAll d mem (es ++ [e]) = VDev.poll_notify d (notifyAll d mem es) e := by
  induction es generalizing mem with
  | nil => rfl
  | cons a es ih =>
    rw [List.cons_append]
    simp only [notifyAll]
    exact ih _

/-- The structure of a stored waiter after a sequence of notifies. -/
theorem notifyAll_fds (d : VDevObject) (mem : PollMem) (es : List Nat) (p : Ptr)
    (hp : p ∈ d._pollset) (hpn : p ≠ NULL) :
    (notifyAll d mem es).fds p = notified (mem.fds p) (orAll es) := by
  induction es generalizing mem with
  | nil => simp [notifyAll, notified, orAll]
  | cons e es ih =>
    have h1 : (VDev.poll_notify d mem e).fds p = notified (mem.fds p) e := by
      rw [poll_notify_eq, notifySlots_fds]; simp [hp, hpn]
    simp only [notifyAll, ih, h1, orAll]
    simp only [notified, or_and_or]

theorem orAll_testBit {es : List Nat} {e : Nat} (he : e ∈ es) (i : Nat)
    (h : e.testBit i = true) : (orAll es).testBit i = true := by
  induction es with
  | nil => exact absurd he (List.not_mem_nil _)
  | cons a es ih =>
    simp only [orAll, Nat.testBit_or, Bool.or_eq_true]
    rcases List.mem_cons.mp he with h1 | h1
    · left; rw [← h1]; exact h
    · right; exact ih h1

/-- C22. Readiness accumulates. For a waiter stored in a slot and any sequence of notify calls
with masks `e1 .. en`, the callers not touching the structure in between: the observed mask
ends as `initial | (interest & (e1 | ... | en))`, the interest mask staying; each further
notify with mask `e` or-s `interest & e` into it, so a bit once set stays set; and every bit
of an `ek` that is in the interest mask is set at the end. -/
theorem notify_accumulates (d : VDevObject) (mem : PollMem) (es : List Nat) (p : Ptr)
    (hp : p ∈ d._pollset) (hpn : p ≠ NULL) :
    ((notifyAll d mem es).fds p).revents
      = (mem.fds p).revents ||| ((mem.fds p).events &&& orAll es) ∧
    ((notifyAll d mem es).fds p).events = (mem.fds p).events ∧
    (∀ e, ((notifyAll d mem (es ++ [e])).fds p).revents
      = ((notifyAll d mem es).fds p).revents ||| ((mem.fds p).events &&& e)) ∧
    (∀ e i, ((notifyAll d mem es).fds p).revents.testBit i = true →
      ((notifyAll d mem (es ++ [e])).fds p).revents.testBit i = true) ∧
    (∀ e, e ∈ es → ∀ i, ((mem.fds p).events &&& e).testBit i = true →
      ((notifyAll d mem es).fds p).revents.testBit i = true) := by
  have hfin := notifyAll_fds d mem es p hp hpn
  have hstep : ∀ e, ((notifyAll d mem (es ++ [e])).fds p).revents
      = ((notifyAll d mem es).fds p).revents ||| ((mem.fds p).events &&& e) := by
    intro e
    rw [notifyAll_append, poll_notify_eq, notifySlots_fds]
    simp only [hp, hpn, ne_eq, not_false_eq_true, and_self, if_true, hfin]
    rfl
  refine ⟨by rw [hfin]; rfl, by rw [hfin]; rfl, hstep, ?_, ?_⟩
  · intro e i hi
    rw [hstep, Nat.testBit_or, hi, Bool.true_or]
  · intro e he i hi
    rw [hfin]
    simp only [notified, Nat.testBit_or, Nat.testBit_and, Bool.or_eq_true,
      Bool.and_eq_true] at hi ⊢
    exact Or.inr ⟨hi.1, orAll_testBit he i hi.2⟩

/-- Instance of C22: waiter 3 with interest mask 1 after notifies with masks 2, 1 and 4. -/
theorem notify_accumulates_witness :
    ((notifyAll twoOwnSem.1 twoOwnSem.2 [2, 1, 4]).fds 3).revents
      = (twoOwnSem.2.fds 3).revents ||| ((twoOwnSem.2.fds 3).events &&& orAll [2, 1, 4]) :=
  (notify_accumulates twoOwnSem.1 twoOwnSem.2 [2, 1, 4] 3 (by decide) (by decide)).1

/-! ## Claims about the sampling tick -/

/-- The tick on a reading that is not all zero, with no register wait pending. -/
theorem measure_valid {F Flt : Type} (co : Collab F Flt) (g : Gyrosim (Sensor F Flt))
    (mem : PollMem) (report : Report) (now : Nat) (hv : report.allZero = false)
    (hw : g.sensor._register_wait = 0) :
    GYROSIM.measure co g mem (some report) now
      = ({ g with sensor :=
            { g.sensor with
              _good_transfers := g.sensor._good_transfers + 1,
              _accel_reports := g.sensor._accel_reports.force (GYROSIM.arb co g.sensor report now),
              _gyro_reports := g.sensor._gyro_reports.force (GYROSIM.grb co g.sensor report now),
              floats := GYROSIM.floatsAfter co g.sensor report,
              _sample_perf := g.sensor._sample_perf + 1 } },
          VDev.poll_notify g.gyro (VDev.poll_notify g.accel mem POLLIN) POLLIN,
          [Effect.notify_accel POLLIN, Effect.notify_gyro POLLIN]
            ++ (if g.accel._pub_blocked then []
                else [Effect.publish_accel (GYROSIM.arb co g.sensor report now)])
            ++ (if g.accel._pub_blocked then []
                else [Effect.publish_gyro (GYROSIM.grb co g.sensor report now)])) := by
  simp only [GYROSIM.measure, hv, hw]
  rfl

/-- C23. The tick on the all-zero reading: `_bad_transfers` goes up by exactly one; both ring
buffers, the memory of the pollers (every observed mask and every semaphore) and the two
endpoint objects stay as they were, and nothing is notified or published. -/
theorem measure_fault {F Flt : Type} (co : Collab F Flt) (g : Gyrosim (Sensor F Flt))
    (mem : PollMem) (now : Nat) :
    (GYROSIM.measure co g mem (some zeroReport) now).1.sensor._bad_transfers
      = g.sensor._bad_transfers + 1 ∧
    (GYROSIM.measure co g mem (some zeroReport) now).1.sensor._accel_reports
      = g.sensor._accel_reports ∧
    (GYROSIM.measure co g mem (some zeroReport) now).1.sensor._gyro_reports
      = g.sensor._gyro_reports ∧
    (GYROSIM.measure co g mem (some zeroReport) now).2.1 = mem ∧
    (GYROSIM.measure co g mem (some zeroReport) now).2.2 = [] ∧
    (GYROSIM.measure co g mem (some zeroReport) now).1.accel = g.accel ∧
    (GYROSIM.measure co g mem (some zeroReport) now).1.gyro = g.gyro ∧
    zeroReport = { accel_x := 0, accel_y := 0, accel_z := 0, temp := 0, gyro_x := 0,
                   gyro_y := 0, gyro_z := 0 } := by
  have hz : zeroReport.allZero = true := by decide
  simp only [GYROSIM.measure, hz]
  exact ⟨rfl, rfl, rfl, rfl, rfl, rfl, rfl, rfl⟩

/-- C24. The tick on a reading that is not all zero, the transport having succeeded and no
register wait pending: the accel buffer is the old one with one record forced in, and so is
the gyro buffer; both records carry `error_count = _bad_transfers + _bad_registers` as they
are at the tick and the timestamp `now`; `_bad_transfers` does not change; and `poll_notify`
is called with `POLLIN` on the accel endpoint and then on the gyro endpoint. -/
theorem measure_stages {F Flt : Type} (co : Collab F Flt) (g : Gyrosim (Sensor F Flt))
    (mem : PollMem) (report : Report) (now : Nat) (hv : report.allZero = false)
    (hw : g.sensor._register_wait = 0) :
    (GYROSIM.measure co g mem (some report) now).1.sensor._accel_reports
      = g.sensor._accel_reports.force (GYROSIM.arb co g.sensor report now) ∧
    (GYROSIM.measure co g mem (some report) now).1.sensor._gyro_reports
      = g.sensor._gyro_reports.force (GYROSIM.grb co g.sensor report now) ∧
    (GYROSIM.arb co g.sensor report now).error_count
      = g.sensor._bad_transfers + g.sensor._bad_registers ∧
    (GYROSIM.grb co g.sensor report now).error_count
      = g.sensor._bad_transfers + g.sensor._bad_registers ∧
    (GYROSIM.arb co g.sensor report now).timestamp = now ∧
    (GYROSIM.grb co g.sensor report now).timestamp = now ∧
    (GYROSIM.measure co g mem (some report) now).1.sensor._bad_transfers
      = g.sensor._bad_transfers ∧
    (GYROSIM.measure co g mem (some report) now).2.1
      = VDev.poll_notify g.gyro (VDev.poll_notify g.accel mem POLLIN) POLLIN ∧
    (GYROSIM.measure co g mem (some report) now).2.2.take 2
      = [Effect.notify_accel POLLIN, Effect.notify_gyro POLLIN] := by
  rw [measure_valid co g mem report now hv hw]
  exact ⟨rfl, rfl, rfl, rfl, rfl, rfl, rfl, rfl, rfl⟩

/-- Instance of C24 on the sample sensor: the error count of the staged accel record is 0 + 0
and waiter 3 of the accel endpoint is signalled. -/
theorem measure_stages_witness :
    (GYROSIM.measure unitCollab sampleSensor ownSemMem (some sampleReport) 1000).1.sensor._accel_reports
      = sampleSensor.sensor._accel_reports.force
          (GYROSIM.arb unitCollab sampleSensor.sensor sampleReport 1000) ∧
    (GYROSIM.measure unitCollab sampleSensor ownSemMem (some sampleReport) 1000).2.1
      = VDev.poll_notify sampleSensor.gyro
          (VDev.poll_notify sampleSensor.accel ownSemMem POLLIN) POLLIN :=
  have h := measure_stages unitCollab sampleSensor ownSemMem sampleReport 1000 (by decide)
    (by decide)
  ⟨h.1, h.2.2.2.2.2.2.2.1⟩

/-- C25. `_pub_blocked` only gates publication. For a reading that is not all zero (no
register wait pending), the tick with the flag set leaves the same sensor members (the same
records forced into the two buffers) and the same memory of the pollers as the tick with the
flag clear; with the flag set the effects are the two notifications and nothing else; with
it clear they are the two notifications followed by the publication of the accel record and
then of the gyro record, the records that were forced into the buffers. -/
theorem measure_pub_blocked {F Flt : Type} (co : Collab F Flt) (g : Gyrosim (Sensor F Flt))
    (mem : PollMem) (report : Report) (now : Nat) (hv : report.allZero = false)
    (hw : g.sensor._register_wait = 0) :
    (GYROSIM.measure co (setPubBlocked g true) mem (some report) now).1.sensor
      = (GYROSIM.measure co (setPubBlocked g false) mem (some report) now).1.sensor ∧
    (GYROSIM.measure co (setPubBlocked g true) mem (some report) now).2.1
      = (GYROSIM.measure co (setPubBlocked g false) mem (some report) now).2.1 ∧
    (GYROSIM.measure co (setPubBlocked g true) mem (some report) now).2.2
      = [Effect.notify_accel POLLIN, Effect.notify_gyro POLLIN] ∧
    (GYROSIM.measure co (setPubBlocked g false) mem (some report) now).2.2
      = [Effect.notify_accel POLLIN, Effect.notify_gyro POLLIN,
         Effect.publish_accel (GYROSIM.arb co g.sensor report now),
         Effect.publish_gyro (GYROSIM.grb co g.sensor report now)] ∧
    (GYROSIM.measure co (setPubBlocked g false) mem (some report) now).1.sensor._accel_reports
      = g.sensor._accel_reports.force (GYROSIM.arb co g.sensor report now) ∧
    (GYROSIM.measure co (setPubBlocked g false) mem (some report) now).1.sensor._gyro_reports
      = g.sensor._gyro_reports.force (GYROSIM.grb co g.sensor report now) := by
  rw [measure_valid co (setPubBlocked g true) mem report now hv hw,
    measure_valid co (setPubBlocked g false) mem report now hv hw]
  exact ⟨rfl, rfl, rfl, rfl, rfl, rfl⟩

/-- Instance of C25 on the sample sensor. -/
theorem measure_pub_blocked_witness :
    (GYROSIM.measure unitCollab (setPubBlocked sampleSensor true) ownSemMem (some sampleReport)
        1000).2.2
      = [Effect.notify_accel POLLIN, Effect.notify_gyro POLLIN] ∧
    (GYROSIM.measure unitCollab (setPubBlocked sampleSensor false) ownSemMem (some sampleReport)
        1000).2.2
      = [Effect.notify_accel POLLIN, Effect.notify_gyro POLLIN,
         Effect.publish_accel (GYROSIM.arb unitCollab sampleSensor.sensor sampleReport 1000),
         Effect.publish_gyro (GYROSIM.grb unitCollab sampleSensor.sensor sampleReport 1000)] :=
  have h := measure_pub_blocked unitCollab sampleSensor ownSemMem sampleReport 1000 (by decide)
    (by decide)
  ⟨h.2.2.1, h.2.2.2.1⟩

/-! ## Claims about read -/

/-- The drain loop takes the oldest `n` records, as many as there are. -/
theorem drain_spec {α : Type} (n : Nat) (b : RingBuffer α) :
    drain n b = (b.records.take n, { b with records := b.records.drop n }) := by
  induction n generalizing b with
  | zero => simp [drain]
  | succ n ih =>
    cases hb : b.records with
    | nil =>
      have hget : b.get = (none, b) := by simp [RingBuffer.get, hb]
      simp only [drain, hget, List.take_nil, List.drop_nil]
      congr 1
      cases b
      simp only at hb
      simp [hb]
    | cons x xs =>
      have hget : b.get = (some x, { b with records := xs }) := by simp [RingBuffer.get, hb]
      simp only [drain, hget, ih, List.take_succ_cons, List.drop_succ_cons]

theorem read_count_small {buflen size : Nat} (h : buflen < size) : read_count buflen size = 0 := by
  simp [read_count, Nat.div_eq_of_lt h]

theorem read_count_exact {size : Nat} (h : 0 < size) : read_count size size = 1 := by
  simp [read_count, Nat.div_self h]

theorem empty_iff {α : Type} (b : RingBuffer α) : b.empty = true ↔ b.records = [] := by
  simp [RingBuffer.empty, List.isEmpty_iff]

theorem force_flushed {α : Type} (b : RingBuffer α) (x : α) :
    (b.flush.force x).records = [x] := by
  unfold RingBuffer.force RingBuffer.flush
  split <;> simp

/-- C26. A read with a buffer smaller than one record (`buflen < sizeof(report)`, so that the
count of records is below 1) returns `-ENOSPC` on the accel endpoint and on the gyro endpoint,
whatever `_call_interval` is; the sensor and the memory of the pollers are as before (no
buffer flushed, no counter changed), nothing is copied out and no tick runs (no effect). -/
theorem read_small_buffer {F Flt : Type} (co : Collab F Flt) (size : Nat)
    (g : Gyrosim (Sensor F Flt)) (mem : PollMem) (transfer : Option Report) (now : Nat)
    (buflen : Nat) (h : buflen < size) :
    GYROSIM.read co size g mem transfer now buflen
      = { ret := -ENOSPC, out := [], state := g, mem := mem, effects := [] } ∧
    GYROSIM.gyro_read co size g mem transfer now buflen
      = { ret := -ENOSPC, out := [], state := g, mem := mem, effects := [] } := by
  simp [GYROSIM.read, GYROSIM.gyro_read, read_count_small h]

/-- Instance of C26: a 47-byte buffer for 48-byte records, on the sample sensor. -/
theorem read_small_buffer_witness :
    GYROSIM.read unitCollab 48 sampleSensor ownSemMem (some sampleReport) 1000 47
      = { ret := -ENOSPC, out := [], state := sampleSensor, mem := ownSemMem, effects := [] } ∧
    GYROSIM.gyro_read unitCollab 48 sampleSensor ownSemMem (some sampleReport) 1000 47
      = { ret := -ENOSPC, out := [], state := sampleSensor, mem := ownSemMem, effects := [] } :=
  read_small_buffer unitCollab 48 sampleSensor ownSemMem (some sampleReport) 1000 47 (by decide)

/-- A manual-mode read: flush, one tick, then the check for data and the drain. -/
theorem read_manual {F Flt : Type} (co : Collab F Flt) (size : Nat)
    (g : Gyrosim (Sensor F Flt)) (mem : PollMem) (transfer : Option Report) (now : Nat)
    (buflen : Nat) (hm : g.sensor._call_interval = 0) (hc : 1 ≤ read_count buflen size) :
    GYROSIM.read co size g mem transfer now buflen
      = (if (GYROSIM.measure co (flushAccel g) mem transfer now).1.sensor._accel_reports.empty
        then
          { ret := -EAGAIN, out := [],
            state := (GYROSIM.measure co (flushAccel g) mem transfer now).1,
            mem := (GYROSIM.measure co (flushAccel g) mem transfer now).2.1,
            effects := Effect.flush_accel
              :: (GYROSIM.measure co (flushAccel g) mem transfer now).2.2 }
        else
          { ret := (((drain (read_count buflen size)
              (GYROSIM.measure co (flushAccel g) mem transfer now).1.sensor._accel_reports).1.length
                * size : Nat) : Int),
            out := (drain (read_count buflen size)
              (GYROSIM.measure co (flushAccel g) mem transfer now).1.sensor._accel_reports).1,
            state := drainAccel (GYROSIM.measure co (flushAccel g) mem transfer now).1
              (read_count buflen size),
            mem := (GYROSIM.measure co (flushAccel g) mem transfer now).2.1,
            effects := Effect.flush_accel
              :: (GYROSIM.measure co (flushAccel g) mem transfer now).2.2 }) := by
  have hc1 : ¬ read_count buflen size < 1 := by omega
  simp only [GYROSIM.read, hc1, if_false, if_pos hm]
  rfl

theorem gyro_read_manual {F Flt : Type} (co : Collab F Flt) (size : Nat)
    (g : Gyrosim (Sensor F Flt)) (mem : PollMem) (transfer : Option Report) (now : Nat)
    (buflen : Nat) (hm : g.sensor._call_interval = 0) (hc : 1 ≤ read_count buflen size) :
    GYROSIM.gyro_read co size g mem transfer now buflen
      = (if (GYROSIM.measure co (flushGyro g) mem transfer now).1.sensor._gyro_reports.empty
        then
          { ret := -EAGAIN, out := [],
            state := (GYROSIM.measure co (flushGyro g) mem transfer now).1,
            mem := (GYROSIM.measure co (flushGyro g) mem transfer now).2.1,
            effects := Effect.flush_gyro
              :: (GYROSIM.measure co (flushGyro g) mem transfer now).2.2 }
        else
          { ret := (((drain (read_count buflen size)
              (GYROSIM.measure co (flushGyro g) mem transfer now).1.sensor._gyro_reports).1.length
                * size : Nat) : Int),
            out := (drain (read_count buflen size)
              (GYROSIM.measure co (flushGyro g) mem transfer now).1.sensor._gyro_reports).1,
            state := drainGyro (GYROSIM.measure co (flushGyro g) mem transfer now).1
              (read_count buflen size),
            mem := (GYROSIM.measure co (flushGyro g) mem transfer now).2.1,
            effects := Effect.flush_gyro
              :: (GYROSIM.measure co (flushGyro g) mem transfer now).2.2 }) := by
  have hc1 : ¬ read_count buflen size < 1 := by omega
  simp only [GYROSIM.gyro_read, hc1, if_false, if_pos hm]
  rfl

/-- A read while the timer runs: no flush and no tick, only the check for data and the
drain. -/
theorem read_running {F Flt : Type} (co : Collab F Flt) (size : Nat)
    (g : Gyrosim (Sensor F Flt)) (mem : PollMem) (transfer : Option Report) (now : Nat)
    (buflen : Nat) (hm : g.sensor._call_interval ≠ 0) (hc : 1 ≤ read_count buflen size) :
    GYROSIM.read co size g mem transfer now buflen
      = (if g.sensor._accel_reports.empty then
          { ret := -EAGAIN, out := [], state := g, mem := mem, effects := [] }
        else
          { ret := (((drain (read_count buflen size) g.sensor._accel_reports).1.length
              * size : Nat) : Int),
            out := (drain (read_count buflen size) g.sensor._accel_reports).1,
            state := drainAccel g (read_count buflen size), mem := mem, effects := [] }) := by
  have hc1 : ¬ read_count buflen size < 1 := by omega
  simp only [GYROSIM.read, hc1, if_false, if_neg hm]
  rfl

theorem gyro_read_running {F Flt : Type} (co : Collab F Flt) (size : Nat)
    (g : Gyrosim (Sensor F Flt)) (mem : PollMem) (transfer : Option Report) (now : Nat)
    (buflen : Nat) (hm : g.sensor._call_interval ≠ 0) (hc : 1 ≤ read_count buflen size) :
    GYROSIM.gyro_read co size g mem transfer now buflen
      = (if g.sensor._gyro_reports.empty then
          { ret := -EAGAIN, out := [], state := g, mem := mem, effects := [] }
        else
          { ret := (((drain (read_count buflen size) g.sensor._gyro_reports).1.length
              * size : Nat) : Int),
            out := (drain (read_count buflen size) g.sensor._gyro_reports).1,
            state := drainGyro g (read_count buflen size), mem := mem, effects := [] }) := by
  have hc1 : ¬ read_count buflen size < 1 := by omega
  simp only [GYROSIM.gyro_read, hc1, if_false, if_neg hm]
  rfl

/-- A tick that does not stage leaves the buffers and the memory alone and has no effect. -/
theorem measure_not_staged {F Flt : Type} (co : Collab F Flt) (g : Gyrosim (Sensor F Flt))
    (mem : PollMem) (transfer : Option Report) (now : Nat) (h : ¬ Stages g transfer) :
    (GYROSIM.measure co g mem transfer now).1.sensor._accel_reports = g.sensor._accel_reports ∧
    (GYROSIM.measure co g mem transfer now).1.sensor._gyro_reports = g.sensor._gyro_reports ∧
    (GYROSIM.measure co g mem transfer now).2.1 = mem ∧
    (GYROSIM.measure co g mem transfer now).2.2 = [] := by
  cases transfer with
  | none => exact ⟨rfl, rfl, rfl, rfl⟩
  | some report =>
    by_cases hz : report.allZero = true
    · simp only [GYROSIM.measure, hz]
      exact ⟨rfl, rfl, rfl, rfl⟩
    · have hz1 : report.allZero = false := by simpa using hz
      have hw : g.sensor._register_wait ≠ 0 := fun hw => h ⟨report, rfl, hz1, hw⟩
      simp [GYROSIM.measure, hz1, hw]

theorem take_singleton {α : Type} (x : α) {n : Nat} (h : 1 ≤ n) : [x].take n = [x] := by
  cases n with
  | zero => omega
  | succ n => simp

/-- The accel buffer after the flush and a tick that stages holds the record of that tick. -/
theorem measure_flushAccel {F Flt : Type} (co : Collab F Flt) (g : Gyrosim (Sensor F Flt))
    (mem : PollMem) (report : Report) (now : Nat) (hv : report.allZero = false)
    (hw : g.sensor._register_wait = 0) :
    (GYROSIM.measure co (flushAccel g) mem (some report) now).1.sensor._accel_reports.records
      = [GYROSIM.arb co g.sensor report now] := by
  rw [measure_valid co (flushAccel g) mem report now hv hw]
  exact force_flushed _ _

theorem measure_flushGyro {F Flt : Type} (co : Collab F Flt) (g : Gyrosim (Sensor F Flt))
    (mem : PollMem) (report : Report) (now : Nat) (hv : report.allZero = false)
    (hw : g.sensor._register_wait = 0) :
    (GYROSIM.measure co (flushGyro g) mem (some report) now).1.sensor._gyro_reports.records
      = [GYROSIM.grb co g.sensor report now] := by
  rw [measure_valid co (flushGyro g) mem report now hv hw]
  exact force_flushed _ _

/-- A manual-mode read whose tick stages returns the record of that tick. -/
theorem read_manual_staged {F Flt : Type} (co : Collab F Flt) (size : Nat)
    (g : Gyrosim (Sensor F Flt)) (mem : PollMem) (report : Report) (now : Nat)
    (buflen : Nat) (hm : g.sensor._call_interval = 0) (hc : 1 ≤ read_count buflen size)
    (hv : report.allZero = false) (hw : g.sensor._register_wait = 0) :
    GYROSIM.read co size g mem (some report) now buflen
      = { ret := (size : Int), out := [GYROSIM.arb co g.sensor report now],
          state := drainAccel (GYROSIM.measure co (flushAccel g) mem (some report) now).1
            (read_count buflen size),
          mem := (GYROSIM.measure co (flushAccel g) mem (some report) now).2.1,
          effects := Effect.flush_accel
            :: (GYROSIM.measure co (flushAccel g) mem (some report) now).2.2 } := by
  have hrec := measure_flushAccel co g mem report now hv hw
  have hne : (GYROSIM.measure co (flushAccel g) mem (some report)
      now).1.sensor._accel_reports.empty = false := by
    simp [RingBuffer.empty, hrec]
  rw [read_manual co size g mem (some report) now buflen hm hc, hne]
  simp only [Bool.false_eq_true, if_false, drain_spec, hrec, take_singleton _ hc]
  simp

theorem gyro_read_manual_staged {F Flt : Type} (co : Collab F Flt) (size : Nat)
    (g : Gyrosim (Sensor F Flt)) (mem : PollMem) (report : Report) (now : Nat)
    (buflen : Nat) (hm : g.sensor._call_interval = 0) (hc : 1 ≤ read_count buflen size)
    (hv : report.allZero = false) (hw : g.sensor._register_wait = 0) :
    GYROSIM.gyro_read co size g mem (some report) now buflen
      = { ret := (size : Int), out := [GYROSIM.grb co g.sensor report now],
          state := drainGyro (GYROSIM.measure co (flushGyro g) mem (some report) now).1
            (read_count buflen size),
          mem := (GYROSIM.measure co (flushGyro g) mem (some report) now).2.1,
          effects := Effect.flush_gyro
            :: (GYROSIM.measure co (flushGyro g) mem (some report) now).2.2 } := by
  have hrec := measure_flushGyro co g mem report now hv hw
  have hne : (GYROSIM.measure co (flushGyro g) mem (some report)
      now).1.sensor._gyro_reports.empty = false := by
    simp [RingBuffer.empty, hrec]
  rw [gyro_read_manual co size g mem (some report) now buflen hm hc, hne]
  simp only [Bool.false_eq_true, if_false, drain_spec, hrec, take_singleton _ hc]
  simp

/-- A manual-mode read whose tick stages nothing fails with `-EAGAIN`. -/
theorem read_manual_unstaged {F Flt : Type} (co : Collab F Flt) (size : Nat)
    (g : Gyrosim (Sensor F Flt)) (mem : PollMem) (transfer : Option Report) (now : Nat)
    (buflen : Nat) (hm : g.sensor._call_interval = 0) (hc : 1 ≤ read_count buflen size)
    (hs : ¬ Stages g transfer) :
    GYROSIM.read co size g mem transfer now buflen
      = { ret := -EAGAIN, out := [],
          state := (GYROSIM.measure co (flushAccel g) mem transfer now).1,
          mem := mem, effects := [Effect.flush_accel] } := by
  have hs1 : ¬ Stages (flushAccel g) transfer := hs
  have h := measure_not_staged co (flushAccel g) mem transfer now hs1
  have he : (GYROSIM.measure co (flushAccel g) mem transfer now).1.sensor._accel_reports.empty
      = true := by
    rw [h.1]
    rfl
  rw [read_manual co size g mem transfer now buflen hm hc, he, if_pos rfl, h.2.2.1, h.2.2.2]

theorem gyro_read_manual_unstaged {F Flt : Type} (co : Collab F Flt) (size : Nat)
    (g : Gyrosim (Sensor F Flt)) (mem : PollMem) (transfer : Option Report) (now : Nat)
    (buflen : Nat) (hm : g.sensor._call_interval = 0) (hc : 1 ≤ read_count buflen size)
    (hs : ¬ Stages g transfer) :
    GYROSIM.gyro_read co size g mem transfer now buflen
      = { ret := -EAGAIN, out := [],
          state := (GYROSIM.measure co (flushGyro g) mem transfer now).1,
          mem := mem, effects := [Effect.flush_gyro] } := by
  have hs1 : ¬ Stages (flushGyro g) transfer := hs
  have h := measure_not_staged co (flushGyro g) mem transfer now hs1
  have he : (GYROSIM.measure co (flushGyro g) mem transfer now).1.sensor._gyro_reports.empty
      = true := by
    rw [h.2.1]
    rfl
  rw [gyro_read_manual co size g mem transfer now buflen hm hc, he, if_pos rfl, h.2.2.1,
    h.2.2.2]

/-- C27. A read with room for at least one record. In manual mode (`_call_interval == 0`)
the read flushes the ring buffer of its endpoint and runs one tick: its effects are the flush
followed by the effects of `measure` on the flushed sensor, and the memory of the pollers is
the one that tick leaves. If the tick stages (a reading that is not all zero, no register wait
pending), the read returns the size of one record and copies out exactly the record of this
tick; otherwise it returns `-EAGAIN` and copies nothing. With the timer running
(`_call_interval != 0`) the read has no effect (no flush, no tick), leaves the memory of the
pollers alone, copies out the oldest records of the buffer as it was, and the sensor is as
before or with only the read counted and those records removed. All this on the accel endpoint
and on the gyro endpoint. -/
theorem read_manual_mode {F Flt : Type} (co : Collab F Flt) (size : Nat)
    (g : Gyrosim (Sensor F Flt)) (mem : PollMem) (transfer : Option Report) (now : Nat)
    (buflen : Nat) (hc : 1 ≤ read_count buflen size) :
    (g.sensor._call_interval = 0 →
      (GYROSIM.read co size g mem transfer now buflen).effects
        = Effect.flush_accel :: (GYROSIM.measure co (flushAccel g) mem transfer now).2.2 ∧
      (GYROSIM.read co size g mem transfer now buflen).mem
        = (GYROSIM.measure co (flushAccel g) mem transfer now).2.1 ∧
      (GYROSIM.gyro_read co size g mem transfer now buflen).effects
        = Effect.flush_gyro :: (GYROSIM.measure co (flushGyro g) mem transfer now).2.2 ∧
      (GYROSIM.gyro_read co size g mem transfer now buflen).mem
        = (GYROSIM.measure co (flushGyro g) mem transfer now).2.1 ∧
      (∀ report, transfer = some report → report.allZero = false →
        g.sensor._register_wait = 0 →
        (GYROSIM.read co size g mem transfer now buflen).ret = (size : Int) ∧
        (GYROSIM.read co size g mem transfer now buflen).out
          = [GYROSIM.arb co g.sensor report now] ∧
        (GYROSIM.read co size g mem transfer now buflen).state
          = drainAccel (GYROSIM.measure co (flushAccel g) mem transfer now).1
              (read_count buflen size) ∧
        (GYROSIM.gyro_read co size g mem transfer now buflen).ret = (size : Int) ∧
        (GYROSIM.gyro_read co size g mem transfer now buflen).out
          = [GYROSIM.grb co g.sensor report now] ∧
        (GYROSIM.gyro_read co size g mem transfer now buflen).state
          = drainGyro (GYROSIM.measure co (flushGyro g) mem transfer now).1
              (read_count buflen size)) ∧
      (¬ Stages g transfer →
        (GYROSIM.read co size g mem transfer now buflen).ret = -EAGAIN ∧
        (GYROSIM.read co size g mem transfer now buflen).out = [] ∧
        (GYROSIM.read co size g mem transfer now buflen).state
          = (GYROSIM.measure co (flushAccel g) mem transfer now).1 ∧
        (GYROSIM.gyro_read co size g mem transfer now buflen).ret = -EAGAIN ∧
        (GYROSIM.gyro_read co size g mem transfer now buflen).out = [] ∧
        (GYROSIM.gyro_read co size g mem transfer now buflen).state
          = (GYROSIM.measure co (flushGyro g) mem transfer now).1)) ∧
    (g.sensor._call_interval ≠ 0 →
      (GYROSIM.read co size g mem transfer now buflen).effects = [] ∧
      (GYROSIM.read co size g mem transfer now buflen).mem = mem ∧
      (GYROSIM.read co size g mem transfer now buflen).out
        = g.sensor._accel_reports.records.take (read_count buflen size) ∧
      ((GYROSIM.read co size g mem transfer now buflen).state = g ∨
        (GYROSIM.read co size g mem transfer now buflen).state
          = drainAccel g (read_count buflen size)) ∧
      (GYROSIM.gyro_read co size g mem transfer now buflen).effects = [] ∧
      (GYROSIM.gyro_read co size g mem transfer now buflen).mem = mem ∧
      (GYROSIM.gyro_read co size g mem transfer now buflen).out
        = g.sensor._gyro_reports.records.take (read_count buflen size) ∧
      ((GYROSIM.gyro_read co size g mem transfer now buflen).state = g ∨
        (GYROSIM.gyro_read co size g mem transfer now buflen).state
          = drainGyro g (read_count buflen size))) := by
  refine ⟨fun hm => ⟨?_, ?_, ?_, ?_, ?_, ?_⟩, fun hm => ?_⟩
  · rw [read_manual co size g mem transfer now buflen hm hc]
    split <;> rfl
  · rw [read_manual co size g mem transfer now buflen hm hc]
    split <;> rfl
  · rw [gyro_read_manual co size g mem transfer now buflen hm hc]
    split <;> rfl
  · rw [gyro_read_manual co size g mem transfer now buflen hm hc]
    split <;> rfl
  · intro report ht hv hw
    subst ht
    rw [read_manual_staged co size g mem report now buflen hm hc hv hw,
      gyro_read_manual_staged co size g mem report now buflen hm hc hv hw]
    exact ⟨rfl, rfl, rfl, rfl, rfl, rfl⟩
  · intro hs
    rw [read_manual_unstaged co size g mem transfer now buflen hm hc hs,
      gyro_read_manual_unstaged co size g mem transfer now buflen hm hc hs]
    exact ⟨rfl, rfl, rfl, rfl, rfl, rfl⟩
  · rw [read_running co size g mem transfer now buflen hm hc,
      gyro_read_running co size g mem transfer now buflen hm hc]
    refine ⟨?_, ?_, ?_, ?_, ?_, ?_, ?_, ?_⟩
    · split <;> rfl
    · split <;> rfl
    · split
      · rename_i he
        rw [(empty_iff _).1 he]
        simp
      · simp only [drain_spec]
    · split
      · exact Or.inl rfl
      · exact Or.inr rfl
    · split <;> rfl
    · split <;> rfl
    · split
      · rename_i he
        rw [(empty_iff _).1 he]
        simp
      · simp only [drain_spec]
    · split
      · exact Or.inl rfl
      · exact Or.inr rfl

/-- Instance of C27 on the sample sensor, which is in manual mode: a read of one 48-byte record
returns the record of its own tick. -/
theorem read_manual_mode_witness :
    (GYROSIM.read unitCollab 48 sampleSensor ownSemMem (some sampleReport) 1000 48).ret = 48 ∧
    (GYROSIM.read unitCollab 48 sampleSensor ownSemMem (some sampleReport) 1000 48).out
      = [GYROSIM.arb unitCollab sampleSensor.sensor sampleReport 1000] :=
  have h := ((read_manual_mode unitCollab 48 sampleSensor ownSemMem (some sampleReport) 1000 48
    (by decide)).1 rfl).2.2.2.2.1 sampleReport rfl (by decide) rfl
  ⟨h.1, h.2.1⟩

/-- What a drain of a buffer returns fits `ReadReturns`. -/
theorem returns_of_drain {R : Type} (size count : Nat) (b : RingBuffer R) (hsz : 0 < size)
    (hc : 1 ≤ count) :
    ReadReturns size count b
      (if b.empty then -EAGAIN else (((drain count b).1.length * size : Nat) : Int))
      (if b.empty then [] else (drain count b).1)
      (if b.empty then b else (drain count b).2) := by
  by_cases he : b.empty = true
  · simp only [he, if_true]
    exact Or.inr (Or.inl ⟨rfl, by decide, hc, (empty_iff b).1 he, rfl⟩)
  · have hne : b.records ≠ [] := fun h => he ((empty_iff b).2 h)
    have hlen : 1 ≤ b.records.length := by
      cases hb : b.records with
      | nil => exact absurd hb hne
      | cons x xs => simp
    have he1 : b.empty = false := by simpa using he
    simp only [he1, Bool.false_eq_true, if_false, drain_spec]
    refine Or.inr (Or.inr ⟨rfl, ?_, ?_, ?_, rfl, rfl⟩)
    · have : 0 < (b.records.take count).length * size := by
        apply Nat.mul_pos _ hsz
        simp only [List.length_take]
        omega
      exact_mod_cast this
    · simp only [List.length_take]
      omega
    · simp only [List.length_take]

/-- The result of a read with room for a record, in terms of the buffer the drain finds. -/
theorem read_eq_staged {F Flt : Type} (co : Collab F Flt) (size : Nat)
    (g : Gyrosim (Sensor F Flt)) (mem : PollMem) (transfer : Option Report) (now : Nat)
    (buflen : Nat) (hc : 1 ≤ read_count buflen size) :
    (GYROSIM.read co size g mem transfer now buflen).ret
      = (if (stagedAccel co g mem transfer now).empty then -EAGAIN
         else (((drain (read_count buflen size) (stagedAccel co g mem transfer now)).1.length
            * size : Nat) : Int)) ∧
    (GYROSIM.read co size g mem transfer now buflen).out
      = (if (stagedAccel co g mem transfer now).empty then []
         else (drain (read_count buflen size) (stagedAccel co g mem transfer now)).1) ∧
    (GYROSIM.read co size g mem transfer now buflen).state.sensor._accel_reports
      = (if (stagedAccel co g mem transfer now).empty then stagedAccel co g mem transfer now
         else (drain (read_count buflen size) (stagedAccel co g mem transfer now)).2) := by
  by_cases hm : g.sensor._call_interval = 0
  · rw [read_manual co size g mem transfer now buflen hm hc]
    simp only [stagedAccel, if_pos hm]
    split <;> exact ⟨rfl, rfl, rfl⟩
  · rw [read_running co size g mem transfer now buflen hm hc]
    simp only [stagedAccel, if_neg hm]
    split <;> exact ⟨rfl, rfl, rfl⟩

theorem gyro_read_eq_staged {F Flt : Type} (co : Collab F Flt) (size : Nat)
    (g : Gyrosim (Sensor F Flt)) (mem : PollMem) (transfer : Option Report) (now : Nat)
    (buflen : Nat) (hc : 1 ≤ read_count buflen size) :
    (GYROSIM.gyro_read co size g mem transfer now buflen).ret
      = (if (stagedGyro co g mem transfer now).empty then -EAGAIN
         else (((drain (read_count buflen size) (stagedGyro co g mem transfer now)).1.length
            * size : Nat) : Int)) ∧
    (GYROSIM.gyro_read co size g mem transfer now buflen).out
      = (if (stagedGyro co g mem transfer now).empty then []
         else (drain (read_count buflen size) (stagedGyro co g mem transfer now)).1) ∧
    (GYROSIM.gyro_read co size g mem transfer now buflen).state.sensor._gyro_reports
      = (if (stagedGyro co g mem transfer now).empty then stagedGyro co g mem transfer now
         else (drain (read_count buflen size) (stagedGyro co g mem transfer now)).2) := by
  by_cases hm : g.sensor._call_interval = 0
  · rw [gyro_read_manual co size g mem transfer now buflen hm hc]
    simp only [stagedGyro, if_pos hm]
    split <;> exact ⟨rfl, rfl, rfl⟩
  · rw [gyro_read_running co size g mem transfer now buflen hm hc]
    simp only [stagedGyro, if_neg hm]
    split <;> exact ⟨rfl, rfl, rfl⟩

/-- C28, the claim as written fails: a read of one 48-byte record on the sample sensor copies
out one record and returns 48, the number of bytes, not the number of records. -/
theorem read_returns_bytes :
    (GYROSIM.read unitCollab 48 sampleSensor ownSemMem (some sampleReport) 1000 48).ret = 48 ∧
    (GYROSIM.read unitCollab 48 sampleSensor ownSemMem (some sampleReport) 1000 48).out.length
      = 1 ∧
    (GYROSIM.gyro_read unitCollab 48 sampleSensor ownSemMem (some sampleReport) 1000 96).ret
      = 48 ∧
    (GYROSIM.gyro_read unitCollab 48 sampleSensor ownSemMem (some sampleReport) 1000
      96).out.length = 1 := by
  decide

/-- C28, amended. For records of a positive size, every read on the accel endpoint and on the
gyro endpoint returns `-ENOSPC` (the caller's buffer holds no whole record), or `-EAGAIN`
(nothing is staged), both negative, or else a positive number of bytes: the size of a record
times the number k of records copied out, where k is the smaller of the count of records the
caller's buffer holds and the number of records staged, at least 1; the records copied are the
oldest k staged, oldest first, and the others stay in the ring buffer. -/
theorem read_return_value {F Flt : Type} (co : Collab F Flt) (size : Nat)
    (g : Gyrosim (Sensor F Flt)) (mem : PollMem) (transfer : Option Report) (now : Nat)
    (buflen : Nat) (hsz : 0 < size) :
    ReadReturns size (read_count buflen size) (stagedAccel co g mem transfer now)
      (GYROSIM.read co size g mem transfer now buflen).ret
      (GYROSIM.read co size g mem transfer now buflen).out
      (GYROSIM.read co size g mem transfer now buflen).state.sensor._accel_reports ∧
    ReadReturns size (read_count buflen size) (stagedGyro co g mem transfer now)
      (GYROSIM.gyro_read co size g mem transfer now buflen).ret
      (GYROSIM.gyro_read co size g mem transfer now buflen).out
      (GYROSIM.gyro_read co size g mem transfer now buflen).state.sensor._gyro_reports := by
  by_cases hc : read_count buflen size < 1
  · constructor
    · refine Or.inl ⟨?_, ?_, hc, ?_⟩ <;> simp [GYROSIM.read, hc, ENOSPC]
    · refine Or.inl ⟨?_, ?_, hc, ?_⟩ <;> simp [GYROSIM.gyro_read, hc, ENOSPC]
  · have hc1 : 1 ≤ read_count buflen size := by omega
    have ha := read_eq_staged co size g mem transfer now buflen hc1
    have hg := gyro_read_eq_staged co size g mem transfer now buflen hc1
    rw [ha.1, ha.2.1, ha.2.2, hg.1, hg.2.1, hg.2.2]
    exact ⟨returns_of_drain size _ _ hsz hc1, returns_of_drain size _ _ hsz hc1⟩

/-- Instance of C28, amended, on the sample sensor with 48-byte records and a 96-byte
buffer. -/
theorem read_return_value_witness :
    ReadReturns 48 (read_count 96 48) (stagedAccel unitCollab sampleSensor ownSemMem
        (some sampleReport) 1000)
      (GYROSIM.read unitCollab 48 sampleSensor ownSemMem (some sampleReport) 1000 96).ret
      (GYROSIM.read unitCollab 48 sampleSensor ownSemMem (some sampleReport) 1000 96).out
      (GYROSIM.read unitCollab 48 sampleSensor ownSemMem (some sampleReport) 1000
        96).state.sensor._accel_reports :=
  (read_return_value unitCollab 48 sampleSensor ownSemMem (some sampleReport) 1000 96
    (by decide)).1

/-- The tick keeps the interval, the timer entry, the register error count, the sample rate
and the two endpoint objects. -/
theorem measure_keeps {F Flt : Type} (co : Collab F Flt) (g : Gyrosim (Sensor F Flt))
    (mem : PollMem) (transfer : Option Report) (now : Nat) :
    (GYROSIM.measure co g mem transfer now).1.sensor._call_interval = g.sensor._call_interval ∧
    (GYROSIM.measure co g mem transfer now).1.sensor._call = g.sensor._call ∧
    (GYROSIM.measure co g mem transfer now).1.sensor._bad_registers = g.sensor._bad_registers ∧
    (GYROSIM.measure co g mem transfer now).1.sensor._sample_rate = g.sensor._sample_rate ∧
    (GYROSIM.measure co g mem transfer now).1.accel = g.accel ∧
    (GYROSIM.measure co g mem transfer now).1.gyro = g.gyro := by
  cases transfer with
  | none => exact ⟨rfl, rfl, rfl, rfl, rfl, rfl⟩
  | some report =>
    simp only [GYROSIM.measure]
    split
    · exact ⟨rfl, rfl, rfl, rfl, rfl, rfl⟩
    · split <;> exact ⟨rfl, rfl, rfl, rfl, rfl, rfl⟩

/-- With no register wait pending before the tick, none is pending after it. -/
theorem measure_wait_zero {F Flt : Type} (co : Collab F Flt) (g : Gyrosim (Sensor F Flt))
    (mem : PollMem) (transfer : Option Report) (now : Nat) (hw : g.sensor._register_wait = 0) :
    (GYROSIM.measure co g mem transfer now).1.sensor._register_wait = 0 := by
  cases transfer with
  | none => exact hw
  | some report =>
    simp only [GYROSIM.measure]
    split
    · exact hw
    · split
      · rename_i h
        exact absurd hw h
      · exact hw

theorem pollrate_manual {F Flt : Type} (p : RateMacros) (ic : IoctlCollab F Flt) (fuel : Nat)
    (g : Gyrosim (Sensor F Flt)) :
    GYROSIM.ioctl_pollrate p ic (fuel + 1) g p.SENSOR_POLLRATE_MANUAL
      = some (OK, { g with sensor :=
          { g.sensor with _call := hrt_cancel g.sensor._call, _call_interval := 0 } },
          [Effect.hrt_cancel]) := by
  simp only [GYROSIM.ioctl_pollrate, if_true]
  rfl

/-- In manual mode with no register wait pending, reads with room for exactly one record
return the size of a record. -/
theorem manual_reads {F Flt : Type} (co : Collab F Flt) (g1 : Gyrosim (Sensor F Flt))
    (mem : PollMem) (r1 r2 : Report) (t1 t2 sa sg : Nat)
    (hm : g1.sensor._call_interval = 0) (hw : g1.sensor._register_wait = 0)
    (hv1 : r1.allZero = false) (hv2 : r2.allZero = false) (hsa : 0 < sa) (hsg : 0 < sg) :
    (GYROSIM.read co sa g1 mem (some r1) t1 sa).ret = (sa : Int) ∧
    (GYROSIM.gyro_read co sg g1 mem (some r2) t2 sg).ret = (sg : Int) ∧
    (GYROSIM.gyro_read co sg (GYROSIM.read co sa g1 mem (some r1) t1 sa).state
      (GYROSIM.read co sa g1 mem (some r1) t1 sa).mem (some r2) t2 sg).ret = (sg : Int) := by
  have hca : 1 ≤ read_count sa sa := by rw [read_count_exact hsa]
  have hcg : 1 ≤ read_count sg sg := by rw [read_count_exact hsg]
  refine ⟨?_, ?_, ?_⟩
  · rw [read_manual_staged co sa g1 mem r1 t1 sa hm hca hv1 hw]
  · rw [gyro_read_manual_staged co sg g1 mem r2 t2 sg hm hcg hv2 hw]
  · rw [read_manual_staged co sa g1 mem r1 t1 sa hm hca hv1 hw]
    have hk := measure_keeps co (flushAccel g1) mem (some r1) t1
    have hz := measure_wait_zero co (flushAccel g1) mem (some r1) t1 hw
    have hm2 : (drainAccel (GYROSIM.measure co (flushAccel g1) mem (some r1) t1).1
        (read_count sa sa)).sensor._call_interval = 0 := hk.1.trans hm
    have hw2 : (drainAccel (GYROSIM.measure co (flushAccel g1) mem (some r1) t1).1
        (read_count sa sa)).sensor._register_wait = 0 := hz
    have h2 := gyro_read_manual_staged co sg
      (drainAccel (GYROSIM.measure co (flushAccel g1) mem (some r1) t1).1 (read_count sa sa))
      (GYROSIM.measure co (flushAccel g1) mem (some r1) t1).2.1 r2 t2 sg hm2 hcg hv2 hw2
    exact congrArg ReadOut.ret h2

/-- C29. The reads of the self-test. `SENSORIOCSPOLLRATE` with `SENSOR_POLLRATE_MANUAL`
returns `OK`, cancels the timer call and sets `_call_interval` to 0. On the sensor it leaves,
with no register wait pending (`_register_wait` is 0 from the constructor on and nothing sets
it), a read on the accel endpoint with a buffer of exactly the size of an accel report returns
that size, and a read on the gyro endpoint with a buffer of exactly the size of a gyro report
returns that size, also when it follows the accel read, for all readings that are not all
zero. -/
theorem self_test_reads {F Flt : Type} (co : Collab F Flt) (p : RateMacros)
    (ic : IoctlCollab F Flt) (fuel : Nat) (g : Gyrosim (Sensor F Flt)) (mem : PollMem)
    (r1 r2 : Report) (t1 t2 sa sg : Nat) (hw : g.sensor._register_wait = 0)
    (hv1 : r1.allZero = false) (hv2 : r2.allZero = false) (hsa : 0 < sa) (hsg : 0 < sg) :
    ∃ g1, GYROSIM.ioctl_pollrate p ic (fuel + 1) g p.SENSOR_POLLRATE_MANUAL
        = some (OK, g1, [Effect.hrt_cancel]) ∧
      g1.sensor._call_interval = 0 ∧
      (GYROSIM.read co sa g1 mem (some r1) t1 sa).ret = (sa : Int) ∧
      (GYROSIM.gyro_read co sg g1 mem (some r2) t2 sg).ret = (sg : Int) ∧
      (GYROSIM.gyro_read co sg (GYROSIM.read co sa g1 mem (some r1) t1 sa).state
        (GYROSIM.read co sa g1 mem (some r1) t1 sa).mem (some r2) t2 sg).ret = (sg : Int) := by
  exact ⟨_, pollrate_manual p ic fuel g, rfl,
    manual_reads co _ mem r1 r2 t1 t2 sa sg rfl hw hv1 hv2 hsa hsg⟩

/-- Instance of C29 on the sample sensor with 48-byte accel reports and 40-byte gyro
reports. -/
theorem self_test_reads_witness :
    ∃ g1, GYROSIM.ioctl_pollrate sampleRates unitIoctl 1 sampleSensor 1000000
        = some (OK, g1, [Effect.hrt_cancel]) ∧
      g1.sensor._call_interval = 0 ∧
      (GYROSIM.read unitCollab 48 g1 ownSemMem (some sampleReport) 1000 48).ret = 48 ∧
      (GYROSIM.gyro_read unitCollab 40 g1 ownSemMem (some sampleReport) 1001 40).ret = 40 ∧
      (GYROSIM.gyro_read unitCollab 40
        (GYROSIM.read unitCollab 48 g1 ownSemMem (some sampleReport) 1000 48).state
        (GYROSIM.read unitCollab 48 g1 ownSemMem (some sampleReport) 1000 48).mem
        (some sampleReport) 1001 40).ret = 40 :=
  self_test_reads unitCollab sampleRates unitIoctl 0 sampleSensor ownSemMem sampleReport
    sampleReport 1000 1001 48 40 rfl (by decide) (by decide) (by decide) (by decide)

/-! ## Claims about start -/

theorem force_mem {α : Type} (b : RingBuffer α) (x r : α) (h : r ∈ (b.force x).records) :
    r = x ∨ r ∈ b.records := by
  unfold RingBuffer.force at h
  split at h
  · simp only [List.mem_append, List.mem_singleton] at h
    exact h.symm
  · simp only [List.mem_append, List.mem_singleton] at h
    rcases h with h | h
    · exact Or.inr (List.mem_of_mem_drop h)
    · exact Or.inl h

theorem stamps_mono {F Flt : Type} {g : Gyrosim (Sensor F Flt)} {T : List Nat} (now : Nat)
    (h : StampsIn g T) : StampsIn g (now :: T) :=
  ⟨fun r hr => List.mem_cons_of_mem _ (h.1 r hr), fun r hr => List.mem_cons_of_mem _ (h.2 r hr)⟩

theorem measure_stamps {F Flt : Type} (co : Collab F Flt) (g : Gyrosim (Sensor F Flt))
    (mem : PollMem) (transfer : Option Report) (now : Nat) (T : List Nat) (h : StampsIn g T) :
    StampsIn (GYROSIM.measure co g mem transfer now).1 (now :: T) := by
  by_cases hs : Stages g transfer
  · obtain ⟨report, ht, hv, hw⟩ := hs
    subst ht
    rw [measure_valid co g mem report now hv hw]
    constructor
    · intro r hr
      rcases force_mem _ _ _ hr with h1 | h1
      · rw [h1]
        exact List.mem_cons_self _ _
      · exact List.mem_cons_of_mem _ (h.1 r h1)
    · intro r hr
      rcases force_mem _ _ _ hr with h1 | h1
      · rw [h1]
        exact List.mem_cons_self _ _
      · exact List.mem_cons_of_mem _ (h.2 r h1)
  · have hn := measure_not_staged co g mem transfer now hs
    constructor
    · rw [hn.1]
      exact (stamps_mono now h).1
    · rw [hn.2.1]
      exact (stamps_mono now h).2

theorem flushAccel_stamps {F Flt : Type} {g : Gyrosim (Sensor F Flt)} {T : List Nat}
    (h : StampsIn g T) : StampsIn (flushAccel g) T :=
  ⟨fun _ hr => absurd hr (List.not_mem_nil _), h.2⟩

theorem flushGyro_stamps {F Flt : Type} {g : Gyrosim (Sensor F Flt)} {T : List Nat}
    (h : StampsIn g T) : StampsIn (flushGyro g) T :=
  ⟨h.1, fun _ hr => absurd hr (List.not_mem_nil _)⟩

theorem drainAccel_stamps {F Flt : Type} {g : Gyrosim (Sensor F Flt)} {T : List Nat} (n : Nat)
    (h : StampsIn g T) :
    StampsIn (drainAccel g n) T ∧
    ∀ r ∈ (drain n g.sensor._accel_reports).1, r.timestamp ∈ T := by
  refine ⟨⟨fun r hr => ?_, h.2⟩, fun r hr => ?_⟩
  · have hr1 : r ∈ (drain n g.sensor._accel_reports).2.records := hr
    rw [drain_spec] at hr1
    exact h.1 r (List.mem_of_mem_drop hr1)
  · rw [drain_spec] at hr
    exact h.1 r (List.mem_of_mem_take hr)

theorem drainGyro_stamps {F Flt : Type} {g : Gyrosim (Sensor F Flt)} {T : List Nat} (n : Nat)
    (h : StampsIn g T) :
    StampsIn (drainGyro g n) T ∧
    ∀ r ∈ (drain n g.sensor._gyro_reports).1, r.timestamp ∈ T := by
  refine ⟨⟨h.1, fun r hr => ?_⟩, fun r hr => ?_⟩
  · have hr1 : r ∈ (drain n g.sensor._gyro_reports).2.records := hr
    rw [drain_spec] at hr1
    exact h.2 r (List.mem_of_mem_drop hr1)
  · rw [drain_spec] at hr
    exact h.2 r (List.mem_of_mem_take hr)

theorem read_stamps {F Flt : Type} (co : Collab F Flt) (size : Nat)
    (g : Gyrosim (Sensor F Flt)) (mem : PollMem) (transfer : Option Report) (now : Nat)
    (buflen : Nat) (T : List Nat) (h : StampsIn g T) :
    StampsIn (GYROSIM.read co size g mem transfer now buflen).state (now :: T) ∧
    ∀ r ∈ (GYROSIM.read co size g mem transfer now buflen).out, r.timestamp ∈ now :: T := by
  by_cases hc : read_count buflen size < 1
  · have : GYROSIM.read co size g mem transfer now buflen
        = { ret := -ENOSPC, out := [], state := g, mem := mem, effects := [] } := by
      simp [GYROSIM.read, hc]
    rw [this]
    exact ⟨stamps_mono now h, fun _ hr => absurd hr (List.not_mem_nil _)⟩
  · have hc1 : 1 ≤ read_count buflen size := by omega
    by_cases hm : g.sensor._call_interval = 0
    · rw [read_manual co size g mem transfer now buflen hm hc1]
      have hms := measure_stamps co (flushAccel g) mem transfer now T (flushAccel_stamps h)
      split
      · exact ⟨hms, fun _ hr => absurd hr (List.not_mem_nil _)⟩
      · exact drainAccel_stamps _ hms
    · rw [read_running co size g mem transfer now buflen hm hc1]
      split
      · exact ⟨stamps_mono now h, fun _ hr => absurd hr (List.not_mem_nil _)⟩
      · exact drainAccel_stamps _ (stamps_mono now h)

theorem gyro_read_stamps {F Flt : Type} (co : Collab F Flt) (size : Nat)
    (g : Gyrosim (Sensor F Flt)) (mem : PollMem) (transfer : Option Report) (now : Nat)
    (buflen : Nat) (T : List Nat) (h : StampsIn g T) :
    StampsIn (GYROSIM.gyro_read co size g mem transfer now buflen).state (now :: T) ∧
    ∀ r ∈ (GYROSIM.gyro_read co size g mem transfer now buflen).out,
      r.timestamp ∈ now :: T := by
  by_cases hc : read_count buflen size < 1
  · have : GYROSIM.gyro_read co size g mem transfer now buflen
        = { ret := -ENOSPC, out := [], state := g, mem := mem, effects := [] } := by
      simp [GYROSIM.gyro_read, hc]
    rw [this]
    exact ⟨stamps_mono now h, fun _ hr => absurd hr (List.not_mem_nil _)⟩
  · have hc1 : 1 ≤ read_count buflen size := by omega
    by_cases hm : g.sensor._call_interval = 0
    · rw [gyro_read_manual co size g mem transfer now buflen hm hc1]
      have hms := measure_stamps co (flushGyro g) mem transfer now T (flushGyro_stamps h)
      split
      · exact ⟨hms, fun _ hr => absurd hr (List.not_mem_nil _)⟩
      · exact drainGyro_stamps _ hms
    · rw [gyro_read_running co size g mem transfer now buflen hm hc1]
      split
      · exact ⟨stamps_mono now h, fun _ hr => absurd hr (List.not_mem_nil _)⟩
      · exact drainGyro_stamps _ (stamps_mono now h)

/-- Every timestamp read in a run is one of `T`, the timestamps in the buffers at its
beginning, or the time of a call of the run. -/
theorem run_stamps {F Flt : Type} (co : Collab F Flt) (sa sg : Nat) (calls : List SensorCall) :
    ∀ (st : Gyrosim (Sensor F Flt) × PollMem) (T : List Nat), StampsIn st.1 T →
      ∀ t ∈ (runSensor co sa sg st calls).2, t ∈ T ∨ t ∈ calls.map SensorCall.now := by
  induction calls with
  | nil =>
    intro st T _ t ht
    exact absurd ht (List.not_mem_nil _)
  | cons c cs ih =>
    intro st T h t ht
    simp only [runSensor, List.mem_append] at ht
    have hstep : StampsIn (c.run co sa sg st).1.1 (c.now :: T) ∧
        ∀ t ∈ (c.run co sa sg st).2, t ∈ c.now :: T := by
      cases c with
      | tick transfer now =>
        exact ⟨measure_stamps co st.1 st.2 transfer now T h,
          fun _ hr => absurd hr (List.not_mem_nil _)⟩
      | read transfer now buflen =>
        have hr := read_stamps co sa st.1 st.2 transfer now buflen T h
        refine ⟨hr.1, fun t ht => ?_⟩
        simp only [SensorCall.run, List.mem_map] at ht
        obtain ⟨r, hr1, hr2⟩ := ht
        rw [← hr2]
        exact hr.2 r hr1
      | gyro_read transfer now buflen =>
        have hr := gyro_read_stamps co sg st.1 st.2 transfer now buflen T h
        refine ⟨hr.1, fun t ht => ?_⟩
        simp only [SensorCall.run, List.mem_map] at ht
        obtain ⟨r, hr1, hr2⟩ := ht
        rw [← hr2]
        exact hr.2 r hr1
    simp only [List.map_cons, List.mem_cons]
    rcases ht with ht | ht
    · rcases List.mem_cons.1 (hstep.2 t ht) with h1 | h1
      · exact Or.inr (Or.inl h1)
      · exact Or.inl h1
    · rcases ih _ _ hstep.1 t ht with h1 | h1
      · rcases List.mem_cons.1 h1 with h2 | h2
        · exact Or.inr (Or.inl h2)
        · exact Or.inl h2
      · exact Or.inr (Or.inr h1)

/-- C30. `start()` from any state of the sensor: its effects are, in this order, the
cancellation of the timer call, the flush of the accel buffer, the flush of the gyro buffer
and the arming of the timer with delay 1000 and period `_call_interval`; after it both ring
buffers are empty and the timer call is pending; and in every sequence of ticks and reads on
either endpoint that follows, every record read carries the time of one of these calls, so
that it was staged by a tick made after the start. -/
theorem start_flushes {F Flt : Type} (co : Collab F Flt) (sa sg : Nat)
    (g : Gyrosim (Sensor F Flt)) (mem : PollMem) (calls : List SensorCall) :
    (GYROSIM.start g).2
      = [Effect.hrt_cancel, Effect.flush_accel, Effect.flush_gyro,
         Effect.hrt_call_every 1000 g.sensor._call_interval] ∧
    (GYROSIM.start g).1.sensor._accel_reports.records = [] ∧
    (GYROSIM.start g).1.sensor._gyro_reports.records = [] ∧
    (GYROSIM.start g).1.sensor._call
      = { scheduled := true, delay := 1000, period := g.sensor._call_interval } ∧
    (GYROSIM.start g).1.sensor._call_interval = g.sensor._call_interval ∧
    ∀ t ∈ (runSensor co sa sg ((GYROSIM.start g).1, mem) calls).2,
      t ∈ calls.map SensorCall.now := by
  refine ⟨rfl, rfl, rfl, rfl, rfl, fun t ht => ?_⟩
  have hs : StampsIn ((GYROSIM.start g).1, mem).1 [] :=
    ⟨fun _ hr => absurd hr (List.not_mem_nil _), fun _ hr => absurd hr (List.not_mem_nil _)⟩
  rcases run_stamps co sa sg calls _ [] hs t ht with h | h
  · exact absurd h (List.not_mem_nil _)
  · exact h

/-! ## Fault accounting over a run of ticks -/

/-- The records of `GYROSIM.staged` are the ones the tick forces into the buffers. -/
theorem staged_spec {F Flt : Type} (co : Collab F Flt) (g : Gyrosim (Sensor F Flt))
    (mem : PollMem) (transfer : Option Report) (now : Nat) :
    (GYROSIM.measure co g mem transfer now).1.sensor._accel_reports
      = (match GYROSIM.staged co g transfer now with
         | some r => g.sensor._accel_reports.force r.1
         | none => g.sensor._accel_reports) ∧
    (GYROSIM.measure co g mem transfer now).1.sensor._gyro_reports
      = (match GYROSIM.staged co g transfer now with
         | some r => g.sensor._gyro_reports.force r.2
         | none => g.sensor._gyro_reports) := by
  by_cases hs : Stages g transfer
  · obtain ⟨report, ht, hv, hw⟩ := hs
    subst ht
    rw [measure_valid co g mem report now hv hw]
    simp [GYROSIM.staged, hv, hw]
  · have hn := measure_not_staged co g mem transfer now hs
    have hnone : GYROSIM.staged co g transfer now = none := by
      cases transfer with
      | none => rfl
      | some report =>
        by_cases hz : report.allZero = true
        · simp [GYROSIM.staged, hz]
        · have hz1 : report.allZero = false := by simpa using hz
          have hw : g.sensor._register_wait ≠ 0 := fun hw => hs ⟨report, rfl, hz1, hw⟩
          simp [GYROSIM.staged, hz1, hw]
    rw [hn.1, hn.2.1, hnone]
    exact ⟨rfl, rfl⟩

/-- The tick on an all-zero reading. -/
theorem measure_zero {F Flt : Type} (co : Collab F Flt) (g : Gyrosim (Sensor F Flt))
    (mem : PollMem) (report : Report) (now : Nat) (hz : report.allZero = true) :
    (GYROSIM.measure co g mem (some report) now).1.sensor._bad_transfers
      = g.sensor._bad_transfers + 1 ∧
    (GYROSIM.measure co g mem (some report) now).1.sensor._register_wait
      = g.sensor._register_wait ∧
    GYROSIM.staged co g (some report) now = none := by
  simp [GYROSIM.measure, GYROSIM.staged, hz]

/-- The invariant of a run in which exactly every third reading is all zero. -/
theorem ticks_invariant {F Flt : Type} (co : Collab F Flt) (g : Gyrosim (Sensor F Flt))
    (mem : PollMem) (readings : Nat → Option Report) (times : Nat → Nat)
    (h0 : g.sensor._bad_transfers = 0) (h0r : g.sensor._bad_registers = 0)
    (hw : g.sensor._register_wait = 0)
    (hr : ∀ i, ∃ report, readings i = some report ∧
      (report.allZero = true ↔ (i + 1) % 3 = 0)) (N : Nat) :
    (runTicks co g mem readings times N).1.1.sensor._bad_transfers = N / 3 ∧
    (runTicks co g mem readings times N).1.1.sensor._bad_registers = 0 ∧
    (runTicks co g mem readings times N).1.1.sensor._register_wait = 0 ∧
    (runTicks co g mem readings times N).2.length = N - N / 3 ∧
    (1 ≤ N → ∃ last, (runTicks co g mem readings times N).2.getLast? = some last ∧
      last.1.error_count = (N - 1) / 3 ∧ last.2.error_count = (N - 1) / 3) := by
  induction N with
  | zero =>
    refine ⟨h0, h0r, hw, rfl, fun h => ?_⟩
    omega
  | succ n ih =>
    obtain ⟨ib, ir, iw, il, ilast⟩ := ih
    obtain ⟨report, hrd, hzero⟩ := hr n
    simp only [runTicks, hrd]
    have hk := measure_keeps co (runTicks co g mem readings times n).1.1
      (runTicks co g mem readings times n).1.2 (some report) (times n)
    by_cases hz : report.allZero = true
    · have hm3 : (n + 1) % 3 = 0 := hzero.1 hz
      have hmz := measure_zero co (runTicks co g mem readings times n).1.1
        (runTicks co g mem readings times n).1.2 report (times n) hz
      refine ⟨?_, ?_, ?_, ?_, fun _ => ?_⟩
      · rw [hmz.1, ib]
        omega
      · rw [hk.2.2.1, ir]
      · rw [hmz.2.1, iw]
      · rw [hmz.2.2]
        simp only [Option.toList, List.append_nil, il]
        clear ilast
        omega
      · rw [hmz.2.2]
        simp only [Option.toList, List.append_nil]
        obtain ⟨last, hl1, hl2, hl3⟩ := ilast (by omega)
        refine ⟨last, hl1, ?_, ?_⟩
        · rw [hl2]
          omega
        · rw [hl3]
          omega
    · have hz1 : report.allZero = false := by simpa using hz
      have hm3 : (n + 1) % 3 ≠ 0 := fun h => hz (hzero.2 h)
      have hv := measure_valid co (runTicks co g mem readings times n).1.1
        (runTicks co g mem readings times n).1.2 report (times n) hz1 iw
      have hst : GYROSIM.staged co (runTicks co g mem readings times n).1.1 (some report)
          (times n)
          = some (GYROSIM.arb co (runTicks co g mem readings times n).1.1.sensor report
              (times n),
            GYROSIM.grb co (runTicks co g mem readings times n).1.1.sensor report
              (times n)) := by
        simp [GYROSIM.staged, hz1, iw]
      refine ⟨?_, ?_, ?_, ?_, fun _ => ?_⟩
      · rw [hv]
        show (runTicks co g mem readings times n).1.1.sensor._bad_transfers = (n + 1) / 3
        rw [ib]
        omega
      · rw [hk.2.2.1, ir]
      · rw [hv]
        exact iw
      · rw [hst]
        simp only [Option.toList, List.length_append, List.length_singleton, il]
        clear ilast
        omega
      · rw [hst]
        refine ⟨(GYROSIM.arb co (runTicks co g mem readings times n).1.1.sensor report (times n),
          GYROSIM.grb co (runTicks co g mem readings times n).1.1.sensor report (times n)),
          by simp [Option.toList], ?_, ?_⟩
        · show (runTicks co g mem readings times n).1.1.sensor._bad_transfers
            + (runTicks co g mem readings times n).1.1.sensor._bad_registers = (n + 1 - 1) / 3
          rw [ib, ir]
          omega
        · show (runTicks co g mem readings times n).1.1.sensor._bad_transfers
            + (runTicks co g mem readings times n).1.1.sensor._bad_registers = (n + 1 - 1) / 3
          rw [ib, ir]
          omega

/-- C31, the claim as written fails when the number of ticks is a multiple of 3. Three ticks
on the sample sensor, whose counters are 0, the 3rd reading all zero and the first two not:
the fault counter `_bad_transfers` ends at 1 and two pairs of records are staged, but the last
staged pair, that of the 2nd tick, carries `error_count` 0 on both channels, not the fault
count 1: the fault of the 3rd tick comes after the last staging. -/
theorem fault_count_last_sample :
    (runTicks unitCollab sampleSensor ownSemMem thirdZero id 3).1.1.sensor._bad_transfers = 1 ∧
    (runTicks unitCollab sampleSensor ownSemMem thirdZero id 3).2.length = 2 ∧
    (runTicks unitCollab sampleSensor ownSemMem thirdZero id 3).2.getLast?.map
      (fun r => (r.1.error_count, r.2.error_count)) = some (0, 0) ∧
    (runTicks unitCollab sampleSensor ownSemMem thirdZero id 3).2.getLast?.map
      (fun r => r.1.timestamp) = some 1 ∧
    thirdZero 0 = some sampleReport ∧ thirdZero 1 = some sampleReport ∧
    thirdZero 2 = some zeroReport := by
  decide

/-- C31, amended. Fault accounting over a run. From a sensor whose counters of bad transfers
and of bad registers are 0 and which waits for no register, run `N` ticks whose readings are
all delivered, exactly every third of them (the 3rd, the 6th, ...) being all zero. Then
`_bad_transfers` is `N / 3`, rounded down; the number of pairs of records staged (one record
for each channel) is `N` minus that; and for `N` at least 1 there is a last staged pair,
whose `error_count` on both channels is `(N - 1) / 3`, the number of all-zero readings among
the ticks up to the one that staged it: this is the counter `N / 3` itself when the last tick
staged (`N` not a multiple of 3), and one less than the counter when the last tick was a
fault (`N` a multiple of 3). -/
theorem fault_accounting {F Flt : Type} (co : Collab F Flt) (g : Gyrosim (Sensor F Flt))
    (mem : PollMem) (readings : Nat → Option Report) (times : Nat → Nat) (N : Nat)
    (h0 : g.sensor._bad_transfers = 0) (h0r : g.sensor._bad_registers = 0)
    (hw : g.sensor._register_wait = 0)
    (hr : ∀ i, ∃ report, readings i = some report ∧
      (report.allZero = true ↔ (i + 1) % 3 = 0)) :
    (runTicks co g mem readings times N).1.1.sensor._bad_transfers = N / 3 ∧
    (runTicks co g mem readings times N).2.length
      = N - (runTicks co g mem readings times N).1.1.sensor._bad_transfers ∧
    (1 ≤ N → ∃ last, (runTicks co g mem readings times N).2.getLast? = some last ∧
      last.1.error_count = (N - 1) / 3 ∧ last.2.error_count = (N - 1) / 3 ∧
      (N % 3 ≠ 0 → last.1.error_count
        = (runTicks co g mem readings times N).1.1.sensor._bad_transfers) ∧
      (N % 3 = 0 → last.1.error_count + 1
        = (runTicks co g mem readings times N).1.1.sensor._bad_transfers)) := by
  obtain ⟨ib, _, _, il, ilast⟩ := ticks_invariant co g mem readings times h0 h0r hw hr N
  refine ⟨ib, by rw [il, ib], fun hN => ?_⟩
  obtain ⟨last, hl1, hl2, hl3⟩ := ilast hN
  refine ⟨last, hl1, hl2, hl3, fun h => ?_, fun h => ?_⟩
  · rw [hl2, ib]
    omega
  · rw [hl2, ib]
    omega

/-- Instance of C31, amended: six ticks on the sample sensor, the 3rd and the 6th reading all
zero; the counter ends at 2, four pairs are staged, and the last staged pair, that of the 5th
tick, carries `error_count` 1, one less than the counter. -/
theorem fault_accounting_witness :
    (runTicks unitCollab sampleSensor ownSemMem thirdZero id 6).1.1.sensor._bad_transfers
      = 6 / 3 ∧
    (runTicks unitCollab sampleSensor ownSemMem thirdZero id 6).2.length
      = 6 - (runTicks unitCollab sampleSensor ownSemMem thirdZero id
          6).1.1.sensor._bad_transfers ∧
    (1 ≤ 6 → ∃ last, (runTicks unitCollab sampleSensor ownSemMem thirdZero id 6).2.getLast?
        = some last ∧
      last.1.error_count = (6 - 1) / 3 ∧ last.2.error_count = (6 - 1) / 3 ∧
      (6 % 3 ≠ 0 → last.1.error_count
        = (runTicks unitCollab sampleSensor ownSemMem thirdZero id
            6).1.1.sensor._bad_transfers) ∧
      (6 % 3 = 0 → last.1.error_count + 1
        = (runTicks unitCollab sampleSensor ownSemMem thirdZero id
            6).1.1.sensor._bad_transfers)) :=
  fault_accounting unitCollab sampleSensor ownSemMem thirdZero id 6 rfl rfl rfl
    (fun i => by
      by_cases h3 : (i + 1) % 3 = 0
      · exact ⟨zeroReport, by simp [thirdZero, h3], by simp [h3]; decide⟩
      · exact ⟨sampleReport, by simp [thirdZero, h3], by simp [h3]; decide⟩)

/-! ## Teardown -/

theorem namedIn_mono {devmap : DevMap} {p : Ptr} {L L1 : List CStr} (hsub : ∀ n, n ∈ L → n ∈ L1)
    (h : NamedIn devmap p L) : NamedIn devmap p L1 :=
  fun i hi e he hp => hsub _ (h i hi e he hp)

theorem namedIn_insert_self {devmap : DevMap} {p : Ptr} {L : List CStr} (f : Nat) (n : CStr)
    (h : NamedIn devmap p L) :
    NamedIn (Function.update devmap f (some ⟨n, p⟩)) p (n :: L) := by
  intro i hi e he hp
  by_cases hif : i = f
  · subst hif
    simp only [Function.update_same, Option.some.injEq] at he
    rw [← he]
    exact List.mem_cons_self _ _
  · rw [Function.update_noteq hif] at he
    exact List.mem_cons_of_mem _ (h i hi e he hp)

theorem namedIn_insert_other {devmap : DevMap} {p q : Ptr} {L : List CStr} (f : Nat) (n : CStr)
    (hq : q ≠ p) (h : NamedIn devmap p L) :
    NamedIn (Function.update devmap f (some ⟨n, q⟩)) p L := by
  intro i hi e he hp
  by_cases hif : i = f
  · subst hif
    simp only [Function.update_same, Option.some.injEq] at he
    rw [← he] at hp
    exact absurd hp hq
  · rw [Function.update_noteq hif] at he
    exact h i hi e he hp

theorem update_none_sub {devmap : DevMap} {f i : Nat} {e : px4_dev_t}
    (he : Function.update devmap f none i = some e) : devmap i = some e := by
  by_cases hif : i = f
  · subst hif
    simp at he
  · rwa [Function.update_noteq hif] at he

/-- Either `register_driver` leaves the table as it is or it writes the record into a slot. -/
theorem register_driver_table (devmap : DevMap) (name : Option CStr) (data : Ptr) :
    ((register_driver devmap name data).2 = devmap ∧ (register_driver devmap name data).1 ≠ OK) ∨
    ∃ n f, name = some n ∧ (register_driver devmap name data).1 = OK ∧
      (register_driver devmap name data).2 = Function.update devmap f (some ⟨n, data⟩) := by
  have h1 : (-EINVAL : Int) ≠ OK := by decide
  have h2 : (-EEXIST : Int) ≠ OK := by decide
  have h3 : (-ENOSPC : Int) ≠ OK := by decide
  cases name with
  | none => exact Or.inl ⟨rfl, h1⟩
  | some n =>
    simp only [register_driver]
    split
    · exact Or.inl ⟨rfl, h1⟩
    · split
      · exact Or.inl ⟨rfl, h2⟩
      · split
        · rename_i f _
          exact Or.inr ⟨n, f, rfl, rfl, rfl⟩
        · exact Or.inl ⟨rfl, h3⟩

theorem unregister_driver_sub {devmap : DevMap} {name : Option CStr} {i : Nat} {e : px4_dev_t}
    (he : (unregister_driver devmap name).2 i = some e) : devmap i = some e := by
  cases name with
  | none => exact he
  | some n =>
    simp only [unregister_driver] at he
    split at he
    · exact update_none_sub he
    · exact he

theorem unregister_class_sub {devmap : DevMap} {c : CStr} {k i : Nat} {e : px4_dev_t}
    (he : (unregister_class_devname devmap c k).2 i = some e) : devmap i = some e := by
  simp only [unregister_class_devname] at he
  split at he
  · exact update_none_sub he
  · exact he

/-- With unique names, no record named `n` is left once the first one is removed. -/
theorem unregister_driver_gone {devmap : DevMap} {n : CStr} (huniq : UniqueNames devmap)
    {i : Nat} (hi : i < PX4_MAX_DEV) {e : px4_dev_t}
    (he : (unregister_driver devmap (some n)).2 i = some e) : e.name ≠ n := by
  intro hn
  simp only [unregister_driver] at he
  cases hs : firstIdx (nameAt devmap n) PX4_MAX_DEV 0 with
  | none =>
    rw [hs] at he
    have hf := firstIdx_none hs i (Nat.zero_le _) (by omega)
    rw [nameAt_true.2 ⟨e, he, hn⟩] at hf
    exact absurd hf (by simp)
  | some s =>
    rw [hs] at he
    obtain ⟨_, hslt, hsp, _⟩ := firstIdx_some hs
    obtain ⟨d, hd, hdn⟩ := nameAt_true.1 hsp
    have hie := update_none_sub he
    have : i = s := huniq i s hi (by omega) e d hie hd (hn.trans hdn.symm)
    subst this
    simp at he

theorem unregister_class_gone {devmap : DevMap} {c : CStr} {k : Nat}
    (huniq : UniqueNames devmap) {i : Nat} (hi : i < PX4_MAX_DEV) {e : px4_dev_t}
    (he : (unregister_class_devname devmap c k).2 i = some e) : e.name ≠ snprintf32 c k := by
  intro hn
  simp only [unregister_class_devname] at he
  cases hs : firstIdx (nameAt devmap (snprintf32 c k)) PX4_MAX_DEV 0 with
  | none =>
    rw [hs] at he
    have hf := firstIdx_none hs i (Nat.zero_le _) (by omega)
    rw [nameAt_true.2 ⟨e, he, hn⟩] at hf
    exact absurd hf (by simp)
  | some s =>
    rw [hs] at he
    obtain ⟨_, hslt, hsp, _⟩ := firstIdx_some hs
    obtain ⟨d, hd, hdn⟩ := nameAt_true.1 hsp
    have hie := update_none_sub he
    have : i = s := huniq i s hi (by omega) e d hie hd (hn.trans hdn.symm)
    subst this
    simp at he

theorem destruct_sub {d : VDev} {devmap : DevMap} {i : Nat} {e : px4_dev_t}
    (he : d.destruct devmap i = some e) : devmap i = some e := by
  simp only [VDev.destruct] at he
  split at he
  · exact unregister_driver_sub he
  · exact he

theorem unique_destruct (d : VDev) {devmap : DevMap} (huniq : UniqueNames devmap) :
    UniqueNames (d.destruct devmap) := by
  simp only [VDev.destruct]
  split
  · exact unique_unregister_driver _ huniq
  · exact huniq

/-- After `~VDev` no record carries the registration name of an object whose `_registered` is
set. -/
theorem destruct_gone {d : VDev} {devmap : DevMap} (huniq : UniqueNames devmap) {n : CStr}
    (hreg : d._registered = true) (hn : n ∈ d._devname.toList) {i : Nat}
    (hi : i < PX4_MAX_DEV) {e : px4_dev_t} (he : d.destruct devmap i = some e) :
    e.name ≠ n := by
  simp only [VDev.destruct, hreg, if_true] at he
  cases hd : d._devname with
  | none =>
    rw [hd] at hn
    exact absurd hn (List.not_mem_nil _)
  | some m =>
    rw [hd] at hn he
    simp only [Option.toList, List.mem_singleton] at hn
    rw [hn]
    exact unregister_driver_gone huniq hi he

/-- The class part of a destructor: `if (class_instance != -1) unregister_class_devname(...)`. -/
theorem class_unregister_gone {devmap : DevMap} (base : CStr) (ci : Int)
    (huniq : UniqueNames devmap) (hci : 0 ≤ ci) {i : Nat} (hi : i < PX4_MAX_DEV)
    {e : px4_dev_t}
    (he : (if ci ≠ -1 then (unregister_class_devname devmap base (uint_of_int ci)).2
      else devmap) i = some e) : e.name ≠ snprintf32 base (uint_of_int ci) := by
  have hne : ci ≠ -1 := by omega
  rw [if_pos hne] at he
  exact unregister_class_gone huniq hi he

theorem class_unregister_sub {devmap : DevMap} (base : CStr) (ci : Int) {i : Nat}
    {e : px4_dev_t}
    (he : (if ci ≠ -1 then (unregister_class_devname devmap base (uint_of_int ci)).2
      else devmap) i = some e) : devmap i = some e := by
  split at he
  · exact unregister_class_sub he
  · exact he

theorem unique_class_unregister {devmap : DevMap} (base : CStr) (ci : Int)
    (huniq : UniqueNames devmap) :
    UniqueNames (if ci ≠ -1 then (unregister_class_devname devmap base (uint_of_int ci)).2
      else devmap) := by
  split
  · exact unique_unregister_class_devname _ _ huniq
  · exact huniq

/-- The class part of a destructor followed by `~VDev`: no record named by `ownNames` is
left, and every record left was there before. -/
theorem object_destruct {devmap : DevMap} (d : VDev) (base : CStr) (ci : Int)
    (huniq : UniqueNames devmap) {i : Nat} (hi : i < PX4_MAX_DEV) {e : px4_dev_t}
    (he : d.destruct (if ci ≠ -1 then
        (unregister_class_devname devmap base (uint_of_int ci)).2 else devmap) i = some e) :
    devmap i = some e ∧ e.name ∉ ownNames d ci base := by
  refine ⟨class_unregister_sub base ci (destruct_sub he), fun hmem => ?_⟩
  simp only [ownNames, List.mem_append] at hmem
  rcases hmem with h | h
  · by_cases hreg : d._registered = true
    · rw [if_pos hreg] at h
      exact destruct_gone (unique_class_unregister base ci huniq) hreg h hi he rfl
    · rw [if_neg hreg] at h
      exact absurd h (List.not_mem_nil _)
  · by_cases hci : 0 ≤ ci
    · rw [if_pos hci] at h
      simp only [List.mem_singleton] at h
      exact class_unregister_gone base ci huniq hci hi (destruct_sub he) h
    · rw [if_neg hci] at h
      exact absurd h (List.not_mem_nil _)

theorem unique_object_destruct {devmap : DevMap} (d : VDev) (base : CStr) (ci : Int)
    (huniq : UniqueNames devmap) :
    UniqueNames (d.destruct (if ci ≠ -1 then
      (unregister_class_devname devmap base (uint_of_int ci)).2 else devmap)) :=
  unique_destruct d (unique_class_unregister base ci huniq)

/-- The destructors of the sensor: no record whose handle is one of the two objects is left,
when every such record carried a name the destructors look for. -/
theorem sensor_destruct {devmap : DevMap} (paths : ClassPaths) (s : SensorReg) (a g : Ptr)
    (huniq : UniqueNames devmap)
    (ha : NamedIn devmap a (ownNames s.accel s._accel_class_instance
      paths.ACCEL_BASE_DEVICE_PATH))
    (hg : NamedIn devmap g (ownNames s.gyro s._gyro_class_instance
      paths.GYRO_BASE_DEVICE_PATH))
    {i : Nat} (hi : i < PX4_MAX_DEV) {e : px4_dev_t}
    (he : GYROSIM.destruct paths s devmap i = some e) : e.cdev ≠ a ∧ e.cdev ≠ g := by
  have h2 := object_destruct s.accel paths.ACCEL_BASE_DEVICE_PATH s._accel_class_instance
    (unique_object_destruct s.gyro paths.GYRO_BASE_DEVICE_PATH s._gyro_class_instance huniq)
    hi he
  have h1 := object_destruct s.gyro paths.GYRO_BASE_DEVICE_PATH s._gyro_class_instance
    huniq hi h2.1
  exact ⟨fun hc => h2.2 (ha i hi e h1.1 hc), fun hc => h1.2 (hg i hi e h1.1 hc)⟩

theorem namedIn_register_other {devmap : DevMap} {p q : Ptr} {L : List CStr}
    (name : Option CStr) (hq : q ≠ p) (h : NamedIn devmap p L) :
    NamedIn (register_driver devmap name q).2 p L := by
  rcases register_driver_table devmap name q with h1 | ⟨n, f, _, _, h1⟩
  · rw [h1.1]
    exact h
  · rw [h1]
    exact namedIn_insert_other f n hq h

theorem namedIn_class_other {devmap : DevMap} {p q : Ptr} {L : List CStr}
    (c : Option CStr) (hq : q ≠ p) (h : NamedIn devmap p L) :
    NamedIn (register_class_devname devmap q c).2 p L := by
  rcases register_class_devname_table devmap q c with h1 | ⟨n, f, _, _, h1⟩
  · rw [h1]
    exact h
  · rw [h1]
    exact namedIn_insert_other f n hq h

theorem namedIn_unregister_driver {devmap : DevMap} {p : Ptr} {L : List CStr}
    (name : Option CStr) (h : NamedIn devmap p L) :
    NamedIn (unregister_driver devmap name).2 p L :=
  fun i hi e he hp => h i hi e (unregister_driver_sub he) hp

theorem namedIn_unregister_class {devmap : DevMap} {p : Ptr} {L : List CStr}
    (c : CStr) (k : Nat) (h : NamedIn devmap p L) :
    NamedIn (unregister_class_devname devmap c k).2 p L :=
  fun i hi e he hp => h i hi e (unregister_class_sub he) hp

/-- Calls that register other handles keep the names of the records of `p` within `L`. -/
theorem namedIn_runCalls {p : Ptr} {L : List CStr} (calls : List RegistryCall) :
    ∀ {devmap : DevMap}, (∀ c ∈ calls, c.data ≠ some p) → NamedIn devmap p L →
      NamedIn (runCalls devmap calls) p L := by
  induction calls with
  | nil => intro devmap _ h; exact h
  | cons c cs ih =>
    intro devmap hc h
    simp only [runCalls]
    refine ih (fun c1 hc1 => hc c1 (List.mem_cons_of_mem _ hc1)) ?_
    have hc0 := hc c (List.mem_cons_self _ _)
    cases c with
    | register_driver name data =>
      exact namedIn_register_other name (fun hd => hc0 (by rw [← hd]; rfl)) h
    | register_class_devname this class_devname =>
      exact namedIn_class_other class_devname (fun hd => hc0 (by rw [← hd]; rfl)) h
    | unregister_driver name => exact namedIn_unregister_driver name h
    | unregister_class_devname class_devname class_instance =>
      exact namedIn_unregister_class class_devname class_instance h

/-- After `init` of an object that was not registered, the records of the object carry its
registration name, and only when `_registered` is set. -/
theorem init_named_self {devmap : DevMap} {L : List CStr} (d : VDev) (this : Ptr)
    (device_init : Int) (hreg : d._registered = false) (h : NamedIn devmap this L) :
    NamedIn (d.init this device_init devmap).2.2 this
      ((if (d.init this device_init devmap).2.1._registered
        then (d.init this device_init devmap).2.1._devname.toList else []) ++ L) := by
  rcases init_cases d this device_init devmap with ⟨h1, h2⟩ | ⟨n, f, hn, _, _, h2, h1⟩
  · rw [h1, h2, hreg]
    exact h
  · rw [h1, h2]
    simp only [if_true, hn, Option.toList]
    exact namedIn_insert_self f n h

theorem init_named_other {devmap : DevMap} {L : List CStr} {p : Ptr} (d : VDev) (this : Ptr)
    (device_init : Int) (hp : this ≠ p) (h : NamedIn devmap p L) :
    NamedIn (d.init this device_init devmap).2.2 p L := by
  rcases init_cases d this device_init devmap with ⟨_, h2⟩ | ⟨n, f, _, _, _, h2, _⟩
  · rw [h2]
    exact h
  · rw [h2]
    exact namedIn_insert_other f n hp h

theorem uint_of_int_small {k : Nat} (hk : k < 4) : uint_of_int (Int.ofNat k) = k := by
  interval_cases k <;> decide

/-- After `register_class_devname` the records of the object carry the class instance name as
well, when the call returned an instance number. -/
theorem class_named_self {devmap : DevMap} {L : List CStr} (this : Ptr) (c : CStr)
    (h : NamedIn devmap this L) :
    NamedIn (register_class_devname devmap this (some c)).2 this
      ((if 0 ≤ (register_class_devname devmap this (some c)).1
        then [snprintf32 c (uint_of_int (register_class_devname devmap this (some c)).1)]
        else []) ++ L) := by
  rcases register_class_devname_spec devmap this c with ⟨k, devmap1, hk, h1, h2, _⟩ | ⟨h1, h2, _⟩
  · rw [h1]
    have h0 : (0 : Int) ≤ Int.ofNat k := Int.ofNat_nonneg k
    simp only [h0, if_true, uint_of_int_small hk, List.singleton_append]
    rcases register_driver_table devmap (some (snprintf32 c k)) this with h3 | ⟨n, f, hn, _, h3⟩
    · rw [h2] at h3
      exact absurd rfl h3.2
    · rw [h2] at h3
      simp only [Option.some.injEq] at hn
      have h4 : devmap1 = Function.update devmap f (some ⟨n, this⟩) := h3
      rw [h4, hn]
      exact namedIn_insert_self f _ h
  · rw [h1]
    have h0 : ¬ (0 : Int) ≤ (register_driver devmap (some (snprintf32 c 3)) this).1 := by omega
    simp only [h0, if_false, List.nil_append]
    exact h

theorem own_of_reg (d : VDev) (ci : Int) (base : CStr) (n : CStr)
    (h : n ∈ (if d._registered then d._devname.toList else []) ++ []) :
    n ∈ ownNames d ci base := by
  simp only [List.append_nil] at h
  exact List.mem_append_left _ h

theorem own_of_parts (d : VDev) (ci : Int) (base : CStr) (n : CStr)
    (h : n ∈ (if 0 ≤ ci then [snprintf32 base (uint_of_int ci)] else []) ++
      ((if d._registered then d._devname.toList else []) ++ [])) :
    n ∈ ownNames d ci base := by
  simp only [List.append_nil, List.mem_append] at h
  rcases h with h | h
  · exact List.mem_append_right _ h
  · exact List.mem_append_left _ h

/-- After `GYROSIM_gyro::init` every record of the gyro object carries a name its destructor
looks for, and the records of another object are as before. -/
theorem gyro_init_named (paths : ClassPaths) (d : VDev) (gci : Int) (a g : Ptr)
    (device_init : Int) (devmap : DevMap) (L : List CStr) (hag : a ≠ g)
    (hreg : d._registered = false) (hg : NamedIn devmap g []) (ha : NamedIn devmap a L) :
    NamedIn (GYROSIM_gyro.init paths d gci g device_init devmap).2.2.2 g
      (ownNames (GYROSIM_gyro.init paths d gci g device_init devmap).2.1
        (GYROSIM_gyro.init paths d gci g device_init devmap).2.2.1
        paths.GYRO_BASE_DEVICE_PATH) ∧
    NamedIn (GYROSIM_gyro.init paths d gci g device_init devmap).2.2.2 a L := by
  have hs := init_named_self d g device_init hreg hg
  have ho := init_named_other d g device_init (Ne.symm hag) ha
  simp only [GYROSIM_gyro.init]
  split
  · exact ⟨namedIn_mono (own_of_reg _ _ _) hs, ho⟩
  · exact ⟨namedIn_mono (own_of_parts _ _ _) (class_named_self g _ hs),
      namedIn_class_other _ (Ne.symm hag) ho⟩

/-- After `GYROSIM::init` of a sensor that was not registered, every record of either object
carries a name the destructors look for. -/
theorem sensor_init_named (paths : ClassPaths) (s : SensorReg) (a g : Ptr)
    (device_init gyro_device_init : Int) (ok1 ok2 : Bool) (devmap : DevMap) (hag : a ≠ g)
    (hra : s.accel._registered = false) (hrg : s.gyro._registered = false)
    (ha : NamedIn devmap a []) (hg : NamedIn devmap g []) :
    NamedIn (GYROSIM.init paths s a g device_init gyro_device_init ok1 ok2 devmap).2.2 a
      (ownNames (GYROSIM.init paths s a g device_init gyro_device_init ok1 ok2 devmap).2.1.accel
        (GYROSIM.init paths s a g device_init gyro_device_init ok1 ok2
          devmap).2.1._accel_class_instance paths.ACCEL_BASE_DEVICE_PATH) ∧
    NamedIn (GYROSIM.init paths s a g device_init gyro_device_init ok1 ok2 devmap).2.2 g
      (ownNames (GYROSIM.init paths s a g device_init gyro_device_init ok1 ok2 devmap).2.1.gyro
        (GYROSIM.init paths s a g device_init gyro_device_init ok1 ok2
          devmap).2.1._gyro_class_instance paths.GYRO_BASE_DEVICE_PATH) := by
  have hs := init_named_self s.accel a device_init hra ha
  have ho := init_named_other s.accel a device_init hag hg
  have hg0 : NamedIn (s.accel.init a device_init devmap).2.2 g
      (ownNames s.gyro s._gyro_class_instance paths.GYRO_BASE_DEVICE_PATH) :=
    namedIn_mono (fun _ h => absurd h (List.not_mem_nil _)) ho
  have hgy := gyro_init_named paths s.gyro s._gyro_class_instance a g gyro_device_init
    (s.accel.init a device_init devmap).2.2 _ hag hrg ho hs
  simp only [GYROSIM.init]
  split
  · exact ⟨namedIn_mono (own_of_reg _ _ _) hs, hg0⟩
  · split
    · exact ⟨namedIn_mono (own_of_reg _ _ _) hs, hg0⟩
    · split
      · exact ⟨namedIn_mono (own_of_reg _ _ _) hs, hg0⟩
      · split
        · exact ⟨namedIn_mono (own_of_reg _ _ _) hgy.2, hgy.1⟩
        · exact ⟨namedIn_mono (own_of_parts _ _ _) (class_named_self a _ hgy.2),
            namedIn_class_other _ hag hgy.1⟩

theorem unique_init (d : VDev) (this : Ptr) (device_init : Int) {devmap : DevMap}
    (huniq : UniqueNames devmap) : UniqueNames (d.init this device_init devmap).2.2 := by
  rcases init_cases d this device_init devmap with ⟨_, h2⟩ | ⟨n, f, _, hn, _, h2, _⟩
  · rw [h2]
    exact huniq
  · rw [h2]
    exact unique_insert f huniq hn

theorem unique_sensor_init (paths : ClassPaths) (s : SensorReg) (a g : Ptr)
    (device_init gyro_device_init : Int) (ok1 ok2 : Bool) {devmap : DevMap}
    (huniq : UniqueNames devmap) :
    UniqueNames (GYROSIM.init paths s a g device_init gyro_device_init ok1 ok2 devmap).2.2 := by
  have h1 := unique_init s.accel a device_init huniq
  have h2 : UniqueNames (GYROSIM_gyro.init paths s.gyro s._gyro_class_instance g
      gyro_device_init (s.accel.init a device_init devmap).2.2).2.2.2 := by
    simp only [GYROSIM_gyro.init]
    split
    · exact unique_init _ _ _ h1
    · exact unique_register_class_devname _ _ (unique_init _ _ _ h1)
  simp only [GYROSIM.init]
  split
  · exact h1
  · split
    · exact h1
    · split
      · exact h1
      · split
        · exact h2
        · exact unique_register_class_devname _ _ h2

/-- A table without a record of handle `p` counts none. -/
theorem recordsOf_zero {devmap : DevMap} {p : Ptr}
    (h : ∀ i, i < PX4_MAX_DEV → ∀ e, devmap i = some e → e.cdev ≠ p) :
    recordsOf devmap p = 0 := by
  simp only [recordsOf, List.length_eq_zero, List.filter_eq_nil_iff, List.mem_range]
  intro i hi
  cases he : devmap i with
  | none => simp
  | some e => simpa using h i hi e he

/-- C32, the claim as written fails for the destructor of the base class: an object is
constructed with the name `/dev/foo`, `init` registers it, `register_class_devname` registers
it as `/dev/accel0`, and `~VDev` removes the record `/dev/foo` only: one record with the
destroyed object as handle is left, and `getDev` of `/dev/accel0` still returns it. -/
theorem class_record_dangles :
    recordsOf ((VDev.construct (some "/dev/foo".toList)).init 7 0 emptyMap).2.2 7 = 1 ∧
    (register_class_devname ((VDev.construct (some "/dev/foo".toList)).init 7 0 emptyMap).2.2 7
      (some "/dev/accel".toList)).1 = 0 ∧
    recordsOf (((VDev.construct (some "/dev/foo".toList)).init 7 0 emptyMap).2.1.destruct
      (register_class_devname ((VDev.construct (some "/dev/foo".toList)).init 7 0 emptyMap).2.2
        7 (some "/dev/accel".toList)).2) 7 = 1 ∧
    getDev (((VDev.construct (some "/dev/foo".toList)).init 7 0 emptyMap).2.1.destruct
      (register_class_devname ((VDev.construct (some "/dev/foo".toList)).init 7 0 emptyMap).2.2
        7 (some "/dev/accel".toList)).2) "/dev/accel0".toList = 7 := by
  decide

/-- C32, amended. On a table with unique names that holds no record of the objects
concerned, and whatever registry calls for other handles are made between initialisation and
destruction. (1) A `VDev` object registered through `init` alone: after `~VDev` no record has
the object as handle. (2) The sensor, initialised once by `GYROSIM::init` (which registers the
two objects under their paths and under a class instance name each): after `~GYROSIM`, which
runs `~GYROSIM_gyro` and the two `~VDev`, no record has the accel object or the gyro object
as handle. A record registered through `register_class_devname` is removed by the destructors
of the sensor only, not by `~VDev`. -/
theorem teardown_no_dangling (devmap : DevMap) (huniq : UniqueNames devmap)
    (calls : List RegistryCall) :
    (∀ (devname : Option CStr) (this : Ptr) (device_init : Int),
      NamedIn devmap this [] → (∀ c ∈ calls, c.data ≠ some this) →
      recordsOf (((VDev.construct devname).init this device_init devmap).2.1.destruct
        (runCalls ((VDev.construct devname).init this device_init devmap).2.2 calls)) this
        = 0) ∧
    (∀ (paths : ClassPaths) (path_accel path_gyro : Option CStr) (a g : Ptr)
      (device_init gyro_device_init : Int) (ok1 ok2 : Bool), a ≠ g →
      NamedIn devmap a [] → NamedIn devmap g [] →
      (∀ c ∈ calls, c.data ≠ some a ∧ c.data ≠ some g) →
      recordsOf (GYROSIM.destruct paths
        (GYROSIM.init paths (SensorReg.construct path_accel path_gyro) a g device_init
          gyro_device_init ok1 ok2 devmap).2.1
        (runCalls (GYROSIM.init paths (SensorReg.construct path_accel path_gyro) a g
          device_init gyro_device_init ok1 ok2 devmap).2.2 calls)) a = 0 ∧
      recordsOf (GYROSIM.destruct paths
        (GYROSIM.init paths (SensorReg.construct path_accel path_gyro) a g device_init
          gyro_device_init ok1 ok2 devmap).2.1
        (runCalls (GYROSIM.init paths (SensorReg.construct path_accel path_gyro) a g
          device_init gyro_device_init ok1 ok2 devmap).2.2 calls)) g = 0) := by
  constructor
  · intro devname this device_init hthis hcalls
    have hs := init_named_self (VDev.construct devname) this device_init rfl hthis
    have hu : UniqueNames ((VDev.construct devname).init this device_init devmap).2.2 := by
      rcases init_cases (VDev.construct devname) this device_init devmap with
        ⟨_, h2⟩ | ⟨n, f, _, hn, _, h2, _⟩
      · rw [h2]
        exact huniq
      · rw [h2]
        exact unique_insert f huniq hn
    have hr := namedIn_runCalls calls hcalls hs
    have hur := unique_runCalls calls hu
    refine recordsOf_zero (fun i hi e he hc => ?_)
    have hin := hr i hi e (destruct_sub he) hc
    simp only [List.append_nil] at hin
    by_cases hreg : ((VDev.construct devname).init this device_init devmap).2.1._registered = true
    · rw [if_pos hreg] at hin
      exact destruct_gone hur hreg hin hi he rfl
    · rw [if_neg hreg] at hin
      exact absurd hin (List.not_mem_nil _)
  · intro paths path_accel path_gyro a g device_init gyro_device_init ok1 ok2 hag ha hg hcalls
    have hin := sensor_init_named paths (SensorReg.construct path_accel path_gyro) a g
      device_init gyro_device_init ok1 ok2 devmap hag rfl rfl ha hg
    have hu : UniqueNames (GYROSIM.init paths (SensorReg.construct path_accel path_gyro) a g
        device_init gyro_device_init ok1 ok2 devmap).2.2 :=
      unique_sensor_init paths _ a g device_init gyro_device_init ok1 ok2 huniq
    have hra := namedIn_runCalls calls (fun c hc => (hcalls c hc).1) hin.1
    have hrg := namedIn_runCalls calls (fun c hc => (hcalls c hc).2) hin.2
    have hur := unique_runCalls calls hu
    exact ⟨recordsOf_zero (fun i hi e he => (sensor_destruct paths _ a g hur hra hrg hi he).1),
      recordsOf_zero (fun i hi e he => (sensor_destruct paths _ a g hur hra hrg hi he).2)⟩

/-- Instance of C32, amended: the sample sensor at addresses 1 and 2 on the empty table, with
no other call in between. -/
theorem teardown_no_dangling_witness :
    recordsOf (GYROSIM.destruct samplePaths
      (GYROSIM.init samplePaths
        (SensorReg.construct (some "/dev/gyrosim_accel".toList)
          (some "/dev/gyrosim_gyro".toList)) 1 2 0 0 true true emptyMap).2.1
      (runCalls (GYROSIM.init samplePaths
        (SensorReg.construct (some "/dev/gyrosim_accel".toList)
          (some "/dev/gyrosim_gyro".toList)) 1 2 0 0 true true emptyMap).2.2 [])) 1 = 0 :=
  ((teardown_no_dangling emptyMap unique_empty []).2 samplePaths
    (some "/dev/gyrosim_accel".toList) (some "/dev/gyrosim_gyro".toList) 1 2 0 0 true true
    (by decide) (fun _ _ _ h => by simp [emptyMap] at h)
    (fun _ _ _ h => by simp [emptyMap] at h)
    (fun _ h => absurd h (List.not_mem_nil _))).1

/-! ## Claims about listing the names -/

theorem prefixedAt_none {devmap : DevMap} {pre : CStr} {i : Nat}
    (h : prefixAt devmap pre i = false) : prefixedAt devmap pre i = none := by
  unfold prefixAt at h
  unfold prefixedAt
  cases hd : devmap i with
  | none => rfl
  | some d =>
    rw [hd] at h
    simp only [decide_eq_false_iff_not] at h
    simp [h]

theorem prefixedAt_some {devmap : DevMap} {pre : CStr} {i : Nat}
    (h : prefixAt devmap pre i = true) :
    ∃ d, devmap i = some d ∧ prefixedAt devmap pre i = some d.name := by
  unfold prefixAt at h
  unfold prefixedAt
  cases hd : devmap i with
  | none =>
    rw [hd] at h
    exact absurd h (by simp)
  | some d =>
    rw [hd] at h
    simp only [decide_eq_true_eq] at h
    exact ⟨d, rfl, by simp [h]⟩

theorem filterMap_range_none {devmap : DevMap} {pre : CStr} (start n : Nat)
    (h : ∀ m, start ≤ m → m < start + n → prefixAt devmap pre m = false) :
    (List.range' start n).filterMap (prefixedAt devmap pre) = [] := by
  rw [List.filterMap_eq_nil_iff]
  intro m hm
  rw [List.mem_range'_1] at hm
  exact prefixedAt_none (h m hm.1 hm.2)

/-- The caller's loop from the cursor `start` takes the prefixed names of the slots from
`start` on, and ends within `PX4_MAX_DEV - start + 1` calls. -/
theorem enumerate_from (devmap : DevMap) (pre : CStr) (n : Nat) :
    ∀ (start fuel : Nat), start + n = PX4_MAX_DEV → n < fuel →
      enumerate (listScan devmap pre) fuel start
        = some ((List.range' start n).filterMap (prefixedAt devmap pre)) := by
  induction n using Nat.strong_induction_on with
  | _ n ih =>
    intro start fuel hsn hfuel
    cases fuel with
    | zero => omega
    | succ fuel =>
      have hn : PX4_MAX_DEV - start = n := by omega
      simp only [enumerate, listScan, hn]
      cases hf : firstIdx (prefixAt devmap pre) n start with
      | none =>
        simp only
        rw [filterMap_range_none start n (firstIdx_none hf)]
      | some i =>
        obtain ⟨h1, h2, h3, h4⟩ := firstIdx_some hf
        obtain ⟨d, hd, hpd⟩ := prefixedAt_some h3
        simp only [hd]
        have hsplit : List.range' start n
            = List.range' start (i - start) ++ (i :: List.range' (i + 1) (n - (i - start) - 1)) := by
          have e2 : start + (i - start) = i := by omega
          have e3 := List.range'_append_1 start (i - start) (n - (i - start) - 1 + 1)
          rw [e2, List.range'_succ] at e3
          rw [e3]
          congr 1
          omega
        rw [hsplit, List.filterMap_append,
          filterMap_range_none start (i - start) (fun m hm1 hm2 => h4 m hm1 (by omega)),
          List.nil_append, List.filterMap_cons, hpd,
          ih (n - (i - start) - 1) (by omega) (i + 1) fuel (by omega) (by omega)]

theorem prefixedAt_eq_some {devmap : DevMap} {pre n : CStr} {i : Nat}
    (h : prefixedAt devmap pre i = some n) :
    ∃ d, devmap i = some d ∧ d.name = n ∧ d.name.take 5 = pre := by
  unfold prefixedAt at h
  cases hd : devmap i with
  | none =>
    rw [hd] at h
    exact absurd h (by simp)
  | some d =>
    rw [hd] at h
    by_cases hp : d.name.take 5 = pre
    · simp only [hp, if_true, Option.some.injEq] at h
      exact ⟨d, rfl, h, hp⟩
    · simp [hp] at h

theorem namesWithPrefix_mem {devmap : DevMap} {pre n : CStr} :
    n ∈ namesWithPrefix devmap pre ↔
      ∃ i, i < PX4_MAX_DEV ∧ ∃ d, devmap i = some d ∧ d.name = n ∧ d.name.take 5 = pre := by
  simp only [namesWithPrefix, List.mem_filterMap, List.mem_range]
  constructor
  · rintro ⟨i, hi, h⟩
    exact ⟨i, hi, prefixedAt_eq_some h⟩
  · rintro ⟨i, hi, d, hd, hn, hp⟩
    subst hn
    exact ⟨i, hi, by simp [prefixedAt, hd, hp]⟩

theorem namesWithPrefix_nodup {devmap : DevMap} (pre : CStr) (huniq : UniqueNames devmap) :
    (namesWithPrefix devmap pre).Nodup := by
  unfold namesWithPrefix List.Nodup
  rw [List.pairwise_filterMap]
  refine List.Pairwise.imp_of_mem ?_ (List.nodup_range PX4_MAX_DEV)
  intro a a1 ha ha1 hne b hb b1 hb1 hbb
  obtain ⟨d, hd, hdn, _⟩ := prefixedAt_eq_some (Option.mem_def.1 hb)
  obtain ⟨d1, hd1, hdn1, _⟩ := prefixedAt_eq_some (Option.mem_def.1 hb1)
  exact hne (huniq a a1 (List.mem_range.1 ha) (List.mem_range.1 ha1) d d1 hd hd1
    (by rw [hdn, hdn1, hbb]))

/-- C33. Listing with a prefix. For every table, the caller's loop that starts with the cursor
at 0 and calls `devList` until it returns `NULL` ends within 101 calls and takes exactly the
registered names whose first five bytes are `/dev/`, one for each slot that holds such a name,
in increasing slot order; `topicList` does the same for `/obj/`. The sequence has at most 100
elements, names each such record (and nothing else), has no name twice when the names of the
table are unique, and is the same whenever the loop is started again at 0 on the same table;
after the end, with the cursor at `PX4_MAX_DEV`, a further call returns `NULL` again. -/
theorem list_enumerates (devmap : DevMap) (k k1 : Nat) :
    enumerate (VDev.devList devmap) (PX4_MAX_DEV + 1 + k) 0
      = some (namesWithPrefix devmap "/dev/".toList) ∧
    enumerate (VDev.topicList devmap) (PX4_MAX_DEV + 1 + k) 0
      = some (namesWithPrefix devmap "/obj/".toList) ∧
    (namesWithPrefix devmap "/dev/".toList).length ≤ 100 ∧
    (namesWithPrefix devmap "/obj/".toList).length ≤ 100 ∧
    (∀ n, n ∈ namesWithPrefix devmap "/dev/".toList ↔
      ∃ i, i < PX4_MAX_DEV ∧ ∃ d, devmap i = some d ∧ d.name = n ∧
        d.name.take 5 = "/dev/".toList) ∧
    (∀ n, n ∈ namesWithPrefix devmap "/obj/".toList ↔
      ∃ i, i < PX4_MAX_DEV ∧ ∃ d, devmap i = some d ∧ d.name = n ∧
        d.name.take 5 = "/obj/".toList) ∧
    (UniqueNames devmap → (namesWithPrefix devmap "/dev/".toList).Nodup ∧
      (namesWithPrefix devmap "/obj/".toList).Nodup) ∧
    enumerate (VDev.devList devmap) (PX4_MAX_DEV + 1 + k1) 0
      = enumerate (VDev.devList devmap) (PX4_MAX_DEV + 1 + k) 0 ∧
    enumerate (VDev.topicList devmap) (PX4_MAX_DEV + 1 + k1) 0
      = enumerate (VDev.topicList devmap) (PX4_MAX_DEV + 1 + k) 0 ∧
    VDev.devList devmap PX4_MAX_DEV = (none, PX4_MAX_DEV) ∧
    VDev.topicList devmap PX4_MAX_DEV = (none, PX4_MAX_DEV) := by
  have hd : ∀ j, enumerate (VDev.devList devmap) (PX4_MAX_DEV + 1 + j) 0
      = some (namesWithPrefix devmap "/dev/".toList) := fun j =>
    enumerate_from devmap "/dev/".toList PX4_MAX_DEV 0 (PX4_MAX_DEV + 1 + j) (by omega)
      (by omega)
  have ht : ∀ j, enumerate (VDev.topicList devmap) (PX4_MAX_DEV + 1 + j) 0
      = some (namesWithPrefix devmap "/obj/".toList) := fun j =>
    enumerate_from devmap "/obj/".toList PX4_MAX_DEV 0 (PX4_MAX_DEV + 1 + j) (by omega)
      (by omega)
  have hlen : ∀ pre, (namesWithPrefix devmap pre).length ≤ 100 := fun pre =>
    (List.length_filterMap_le _ _).trans (by simp [PX4_MAX_DEV])
  refine ⟨hd k, ht k, hlen _, hlen _, fun n => namesWithPrefix_mem,
    fun n => namesWithPrefix_mem,
    fun hu => ⟨namesWithPrefix_nodup _ hu, namesWithPrefix_nodup _ hu⟩, ?_, ?_, rfl, rfl⟩
  · rw [hd k1, hd k]
  · rw [ht k1, ht k]

/-! ## Claims about the poll rate -/

theorem accelLabels_distinct {c : SensorCmds} (hd : c.accelLabels.Nodup) :
    c.SENSORIOCSPOLLRATE ≠ c.SENSORIOCRESET ∧ c.SENSORIOCGPOLLRATE ≠ c.SENSORIOCRESET ∧
    c.SENSORIOCGPOLLRATE ≠ c.SENSORIOCSPOLLRATE := by
  simp only [SensorCmds.accelLabels, List.nodup_cons, List.mem_cons, List.mem_singleton,
    not_or] at hd
  exact ⟨Ne.symm hd.1.1, Ne.symm hd.1.2.1, Ne.symm hd.2.1.1⟩

/-- The dispatch of `SENSORIOCSPOLLRATE` on the accel endpoint. -/
theorem ioctl_spollrate {F Flt : Type} (c : SensorCmds) (k : BaseCmds) (p : RateMacros)
    (ic : IoctlCollab F Flt) (fuel : Nat) (this : Ptr) (g : Gyrosim (Sensor F Flt)) (arg : Nat)
    (hd : c.accelLabels.Nodup) (r : Int × Gyrosim (Sensor F Flt) × List (Effect F))
    (hr : GYROSIM.ioctl_pollrate p ic fuel g arg = some r) :
    GYROSIM.ioctl c k (sensorBodies c p ic fuel) this g c.SENSORIOCSPOLLRATE arg
      = (r.1, r.2.1, none) := by
  have hmem : c.SENSORIOCSPOLLRATE ∈ c.accelLabels := by simp [SensorCmds.accelLabels]
  obtain ⟨h1, _, _⟩ := accelLabels_distinct hd
  simp only [GYROSIM.ioctl, hmem, if_true, sensorBodies, GYROSIM.accel_case, h1, if_false, hr]

/-- The dispatch of `SENSORIOCGPOLLRATE` on the accel endpoint. -/
theorem ioctl_gpollrate {F Flt : Type} (c : SensorCmds) (k : BaseCmds) (p : RateMacros)
    (ic : IoctlCollab F Flt) (fuel : Nat) (this : Ptr) (g : Gyrosim (Sensor F Flt)) (arg : Nat)
    (hd : c.accelLabels.Nodup) :
    GYROSIM.ioctl c k (sensorBodies c p ic fuel) this g c.SENSORIOCGPOLLRATE arg
      = (GYROSIM.ioctl_get_pollrate p g, g, none) := by
  have hmem : c.SENSORIOCGPOLLRATE ∈ c.accelLabels := by simp [SensorCmds.accelLabels]
  obtain ⟨_, h2, h3⟩ := accelLabels_distinct hd
  simp only [GYROSIM.ioctl, hmem, if_true, sensorBodies, GYROSIM.accel_case, h2, h3, if_false]

/-- The poll-rate case for a rate that is none of the special values. -/
theorem pollrate_plain {F Flt : Type} (p : RateMacros) (ic : IoctlCollab F Flt) (fuel : Nat)
    (g : Gyrosim (Sensor F Flt)) (arg : Nat) (h0 : arg ≠ 0)
    (hm : arg ≠ p.SENSOR_POLLRATE_MANUAL) (he : arg ≠ p.SENSOR_POLLRATE_EXTERNAL)
    (hx : arg ≠ p.SENSOR_POLLRATE_MAX) (hdf : arg ≠ p.SENSOR_POLLRATE_DEFAULT) :
    (1000000 / arg < 1000 →
      GYROSIM.ioctl_pollrate p ic (fuel + 1) g arg = some (-EINVAL, g, [])) ∧
    (1000 ≤ 1000000 / arg →
      ∃ g1 eff, GYROSIM.ioctl_pollrate p ic (fuel + 1) g arg = some (OK, g1, eff) ∧
        g1.sensor._call_interval = 1000000 / arg ∧ g1.sensor._call.period = 1000000 / arg ∧
        g1.accel = g.accel ∧ g1.gyro = g.gyro) := by
  have hle : 1000000 / arg ≤ 1000000 := Nat.div_le_self _ _
  have hmod : (1000000 / arg) % 2 ^ 32 = 1000000 / arg := Nat.mod_eq_of_lt (by omega)
  constructor
  · intro hlt
    simp only [GYROSIM.ioctl_pollrate, hm, he, h0, hx, hdf, or_self, if_false, hmod, hlt,
      if_true]
  · intro hge
    have hnlt : ¬ 1000000 / arg < 1000 := by omega
    simp only [GYROSIM.ioctl_pollrate, hm, he, h0, hx, hdf, or_self, if_false, hmod, hnlt]
    split
    · exact ⟨_, _, rfl, rfl, rfl, rfl, rfl⟩
    · exact ⟨_, _, rfl, rfl, rfl, rfl, rfl⟩

theorem rate_round_trip {r : Nat} (h1 : 1 ≤ r) (h2 : r ≤ 1000) :
    1000 ≤ 1000000 / r ∧ 1000000 / (1000000 / r) = r := by
  have hq : 1000 ≤ 1000000 / r := (Nat.le_div_iff_mul_le (by omega)).2 (by omega)
  refine ⟨hq, Nat.div_eq_of_lt_le ?_ ?_⟩
  · have := Nat.mul_div_le 1000000 r
    linarith [Nat.mul_comm r (1000000 / r)]
  · have hlt := Nat.lt_mul_div_succ 1000000 (show 0 < r by omega)
    nlinarith

/-- C34. The round trip of the poll rate on the accel endpoint, the labels of the `switch`
being distinct. For a rate `r` from 1 to 1000 that is none of the four special values of
`SENSOR_POLLRATE_*`: `SENSORIOCSPOLLRATE` with `r` returns `OK` (the poll-rate case returns
at once) and stores the interval `1000000 / r`, and `SENSORIOCGPOLLRATE` on the sensor it
leaves returns `r`. `SENSORIOCSPOLLRATE` with `SENSOR_POLLRATE_MANUAL` returns `OK` and stores
the interval 0, and `SENSORIOCGPOLLRATE` then returns `SENSOR_POLLRATE_MANUAL`. -/
theorem pollrate_round_trip {F Flt : Type} (c : SensorCmds) (k : BaseCmds) (p : RateMacros)
    (ic : IoctlCollab F Flt) (fuel : Nat) (this : Ptr) (g : Gyrosim (Sensor F Flt))
    (r arg1 : Nat) (hd : c.accelLabels.Nodup) (h1 : 1 ≤ r) (h2 : r ≤ 1000)
    (hm : r ≠ p.SENSOR_POLLRATE_MANUAL) (he : r ≠ p.SENSOR_POLLRATE_EXTERNAL)
    (hx : r ≠ p.SENSOR_POLLRATE_MAX) (hdf : r ≠ p.SENSOR_POLLRATE_DEFAULT) :
    (∃ g1 eff, GYROSIM.ioctl_pollrate p ic (fuel + 1) g r = some (OK, g1, eff) ∧
      GYROSIM.ioctl c k (sensorBodies c p ic (fuel + 1)) this g c.SENSORIOCSPOLLRATE r
        = (OK, g1, none) ∧
      g1.sensor._call_interval = 1000000 / r ∧
      1000000 / (1000000 / r) = r ∧
      GYROSIM.ioctl c k (sensorBodies c p ic (fuel + 1)) this g1 c.SENSORIOCGPOLLRATE arg1
        = ((r : Int), g1, none)) ∧
    (∃ g2, GYROSIM.ioctl c k (sensorBodies c p ic (fuel + 1)) this g c.SENSORIOCSPOLLRATE
        p.SENSOR_POLLRATE_MANUAL = (OK, g2, none) ∧
      g2.sensor._call_interval = 0 ∧
      GYROSIM.ioctl c k (sensorBodies c p ic (fuel + 1)) this g2 c.SENSORIOCGPOLLRATE arg1
        = ((p.SENSOR_POLLRATE_MANUAL : Int), g2, none)) := by
  obtain ⟨hq, hrt⟩ := rate_round_trip h1 h2
  obtain ⟨g1, eff, hg1, hint, _, _, _⟩ :=
    (pollrate_plain p ic fuel g r (by omega) hm he hx hdf).2 hq
  constructor
  · refine ⟨g1, eff, hg1, ioctl_spollrate c k p ic (fuel + 1) this g r hd _ hg1, hint, hrt, ?_⟩
    rw [ioctl_gpollrate c k p ic (fuel + 1) this g1 arg1 hd]
    have hne : ¬ 1000000 / r = 0 := by omega
    simp only [GYROSIM.ioctl_get_pollrate, hint, hne, if_false, hrt]
  · refine ⟨_, ioctl_spollrate c k p ic (fuel + 1) this g _ hd _ (pollrate_manual p ic fuel g),
      rfl, ?_⟩
    rw [ioctl_gpollrate c k p ic (fuel + 1) this _ arg1 hd]
    simp only [GYROSIM.ioctl_get_pollrate, if_true]

/-- Instance of C34: the rate 250 on the sample sensor with the sample command values. -/
theorem pollrate_round_trip_witness :
    ∃ g1 eff, GYROSIM.ioctl_pollrate sampleRates unitIoctl 1 sampleSensor 250
        = some (OK, g1, eff) ∧
      GYROSIM.ioctl sampleSensorCmds sampleBaseCmds
          (sensorBodies sampleSensorCmds sampleRates unitIoctl 1) 7 sampleSensor
          sampleSensorCmds.SENSORIOCSPOLLRATE 250 = (OK, g1, none) ∧
      g1.sensor._call_interval = 1000000 / 250 ∧
      1000000 / (1000000 / 250) = 250 ∧
      GYROSIM.ioctl sampleSensorCmds sampleBaseCmds
          (sensorBodies sampleSensorCmds sampleRates unitIoctl 1) 7 g1
          sampleSensorCmds.SENSORIOCGPOLLRATE 0 = (((250 : Nat) : Int), g1, none) :=
  (pollrate_round_trip sampleSensorCmds sampleBaseCmds sampleRates unitIoctl 0 7 sampleSensor
    250 0 (by decide) (by decide) (by decide) (by decide) (by decide) (by decide)
    (by decide)).1

/-! ## The interval of the sampling engine -/

theorem start_interval {F Flt : Type} (g : Gyrosim (Sensor F Flt)) :
    (GYROSIM.start g).1.sensor._call_interval = g.sensor._call_interval := rfl

/-- The poll-rate case keeps the interval 0 or within bounds. -/
theorem pollrate_interval {F Flt : Type} (p : RateMacros) (ic : IoctlCollab F Flt) :
    ∀ (fuel : Nat) (g : Gyrosim (Sensor F Flt)) (arg : Nat)
      (r : Int × Gyrosim (Sensor F Flt) × List (Effect F)),
      GYROSIM.ioctl_pollrate p ic fuel g arg = some r →
      IntervalOk g.sensor._call_interval → IntervalOk r.2.1.sensor._call_interval := by
  intro fuel
  induction fuel with
  | zero =>
    intro g arg r hr
    simp [GYROSIM.ioctl_pollrate] at hr
  | succ fuel ih =>
    intro g arg r hr hg
    simp only [GYROSIM.ioctl_pollrate] at hr
    split at hr
    · simp only [Option.some.injEq] at hr
      rw [← hr]
      exact Or.inl rfl
    · split at hr
      · simp only [Option.some.injEq] at hr
        rw [← hr]
        exact hg
      · split at hr
        · exact ih g 1000 r hr hg
        · split at hr
          · exact ih g GYROSIM_ACCEL_DEFAULT_RATE r hr hg
          · have hle : (1000000 / arg) % 2 ^ 32 ≤ 1000000 :=
              (Nat.mod_le _ _).trans (Nat.div_le_self _ _)
            split at hr
            · simp only [Option.some.injEq] at hr
              rw [← hr]
              exact hg
            · rename_i hge
              split at hr
              · simp only [Option.some.injEq] at hr
                rw [← hr]
                exact Or.inr ⟨by simp only [start_interval]; omega, hle⟩
              · simp only [Option.some.injEq] at hr
                rw [← hr]
                exact Or.inr ⟨by simp only; omega, hle⟩

theorem set_sample_rate_interval {F Flt : Type} (p : RateMacros) (s : Sensor F Flt) (d : Nat) :
    (GYROSIM._set_sample_rate p s d)._call_interval = s._call_interval := rfl

theorem accel_case_some_interval {F Flt : Type} (c : SensorCmds) (p : RateMacros)
    (ic : IoctlCollab F Flt) (fuel : Nat) (cmd : Int) (arg : Nat) (g : Gyrosim (Sensor F Flt))
    (r : Int × Gyrosim (Sensor F Flt)) (hr : GYROSIM.accel_case c p ic fuel cmd arg g = some r)
    (hg : IntervalOk g.sensor._call_interval) : IntervalOk r.2.sensor._call_interval := by
  simp only [GYROSIM.accel_case] at hr
  split at hr
  · simp only [Option.some.injEq] at hr
    rw [← hr]
    exact hg
  · split at hr
    · cases hp : GYROSIM.ioctl_pollrate p ic fuel g arg with
      | none => simp [hp] at hr
      | some r1 =>
        simp only [hp, Option.some.injEq] at hr
        rw [← hr]
        exact pollrate_interval p ic fuel g arg r1 hp hg
    · split at hr
      · simp only [Option.some.injEq] at hr
        rw [← hr]
        exact hg
      · split at hr
        · split at hr <;>
          · simp only [Option.some.injEq] at hr
            rw [← hr]
            exact hg
        · split at hr
          · simp only [Option.some.injEq] at hr
            rw [← hr]
            exact hg
          · split at hr
            · simp only [Option.some.injEq] at hr
              rw [← hr]
              exact hg
            · split at hr
              · simp only [Option.some.injEq] at hr
                rw [← hr]
                exact hg
              · split at hr <;>
                · simp only [Option.some.injEq] at hr
                  rw [← hr]
                  exact hg

theorem accel_case_interval {F Flt : Type} (c : SensorCmds) (p : RateMacros)
    (ic : IoctlCollab F Flt) (fuel : Nat) (cmd : Int) (arg : Nat) (g : Gyrosim (Sensor F Flt))
    (hg : IntervalOk g.sensor._call_interval) :
    IntervalOk ((sensorBodies c p ic fuel).accel_case cmd arg g).2.sensor._call_interval := by
  simp only [sensorBodies]
  cases hr : GYROSIM.accel_case c p ic fuel cmd arg g with
  | none => exact hg
  | some r => exact accel_case_some_interval c p ic fuel cmd arg g r hr hg

theorem gyro_case_interval {F Flt : Type} (c : SensorCmds) (p : RateMacros)
    (ic : IoctlCollab F Flt) (fuel : Nat) (cmd : Int) (arg : Nat) (g : Gyrosim (Sensor F Flt))
    (hg : IntervalOk g.sensor._call_interval) :
    IntervalOk ((sensorBodies c p ic fuel).gyro_case cmd arg g).2.sensor._call_interval := by
  simp only [sensorBodies, GYROSIM.gyro_case]
  split
  · split <;> exact hg
  · split
    · exact hg
    · split
      · exact hg
      · split
        · exact hg
        · split
          · exact hg
          · split <;> exact hg

/-- Every ioctl call on either endpoint keeps the interval 0 or within bounds. -/
theorem ioctl_call_interval {F Flt : Type} (c : SensorCmds) (k : BaseCmds) (p : RateMacros)
    (fuel : Nat) (this gyro_this : Ptr) (g : Gyrosim (Sensor F Flt)) (call : IoctlCall F Flt)
    (hg : IntervalOk g.sensor._call_interval) :
    IntervalOk (call.run c k p fuel this gyro_this g).2.1.sensor._call_interval := by
  have ha : ∀ cmd arg, IntervalOk (GYROSIM.ioctl c k (sensorBodies c p call.ic fuel) this g cmd
      arg).2.1.sensor._call_interval := by
    intro cmd arg
    simp only [GYROSIM.ioctl]
    split
    · exact accel_case_interval c p call.ic fuel cmd arg g hg
    · exact hg
  simp only [IoctlCall.run]
  split
  · simp only [GYROSIM_gyro.ioctl]
    split
    · exact hg
    · simp only [GYROSIM.gyro_ioctl]
      split
      · exact ha _ _
      · split
        · exact gyro_case_interval c p call.ic fuel _ _ g hg
        · exact hg
  · exact ha _ _

theorem runIoctls_interval {F Flt : Type} (c : SensorCmds) (k : BaseCmds) (p : RateMacros)
    (fuel : Nat) (this gyro_this : Ptr) (calls : List (IoctlCall F Flt)) :
    ∀ (g : Gyrosim (Sensor F Flt)), IntervalOk g.sensor._call_interval →
      IntervalOk (runIoctls c k p fuel this gyro_this g calls).sensor._call_interval := by
  induction calls with
  | nil => intro g hg; exact hg
  | cons call calls ih =>
    intro g hg
    exact ih _ (ioctl_call_interval c k p fuel this gyro_this g call hg)

/-- The poll-rate case refuses 0, the external value and plain rates above 1000. -/
theorem pollrate_refused {F Flt : Type} (p : RateMacros) (ic : IoctlCollab F Flt) (fuel : Nat)
    (g : Gyrosim (Sensor F Flt)) (arg : Nat) (hm0 : p.SENSOR_POLLRATE_MANUAL ≠ 0)
    (hme : p.SENSOR_POLLRATE_MANUAL ≠ p.SENSOR_POLLRATE_EXTERNAL)
    (harg : arg = 0 ∨ arg = p.SENSOR_POLLRATE_EXTERNAL ∨
      (1000 < arg ∧ arg ≠ p.SENSOR_POLLRATE_MANUAL ∧ arg ≠ p.SENSOR_POLLRATE_MAX ∧
        arg ≠ p.SENSOR_POLLRATE_DEFAULT)) :
    GYROSIM.ioctl_pollrate p ic (fuel + 1) g arg = some (-EINVAL, g, []) := by
  rcases harg with h | h | ⟨h1, h2, h3, h4⟩
  · subst h
    simp only [GYROSIM.ioctl_pollrate, Ne.symm hm0, if_false, or_true, if_true]
  · subst h
    simp only [GYROSIM.ioctl_pollrate, Ne.symm hme, if_false, true_or, if_true]
  · by_cases he : arg = p.SENSOR_POLLRATE_EXTERNAL
    · subst he
      simp only [GYROSIM.ioctl_pollrate, Ne.symm hme, if_false, true_or, if_true]
    · exact (pollrate_plain p ic fuel g arg (by omega) h2 he h3 h4).1
        ((Nat.div_lt_iff_lt_mul (by omega)).2 (by omega))

/-- C35. The interval of the sampling engine. From a sensor as the constructor leaves it
(`_call_interval` 0), after every sequence of ioctl calls on the accel endpoint and on the gyro
endpoint, with any commands and arguments, `_call_interval` is 0 or lies between 1000 and
1000000. And with `SENSOR_POLLRATE_MANUAL` different from 0 and from
`SENSOR_POLLRATE_EXTERNAL`, as the labels of one `switch` are: `SENSORIOCSPOLLRATE` with the
argument 0, with `SENSOR_POLLRATE_EXTERNAL`, or with a rate above 1000 that is none of the
special values returns `-EINVAL` on either endpoint and leaves the whole sensor, the interval
and the timer entry with it, as it was. -/
theorem interval_invariant {F Flt : Type} (c : SensorCmds) (k : BaseCmds) (p : RateMacros)
    (fuel : Nat) (this gyro_this : Ptr) (g0 : Gyrosim (Sensor F Flt))
    (calls : List (IoctlCall F Flt)) (h0 : g0.sensor._call_interval = 0)
    (hd : c.accelLabels.Nodup) (hdev : c.SENSORIOCSPOLLRATE ≠ c.DEVIOCGDEVICEID)
    (hm0 : p.SENSOR_POLLRATE_MANUAL ≠ 0)
    (hme : p.SENSOR_POLLRATE_MANUAL ≠ p.SENSOR_POLLRATE_EXTERNAL) :
    IntervalOk (runIoctls c k p (fuel + 1) this gyro_this g0 calls).sensor._call_interval ∧
    (∀ (ic : IoctlCollab F Flt) (g : Gyrosim (Sensor F Flt)) (arg : Nat),
      (arg = 0 ∨ arg = p.SENSOR_POLLRATE_EXTERNAL ∨
        (1000 < arg ∧ arg ≠ p.SENSOR_POLLRATE_MANUAL ∧ arg ≠ p.SENSOR_POLLRATE_MAX ∧
          arg ≠ p.SENSOR_POLLRATE_DEFAULT)) →
      GYROSIM.ioctl_pollrate p ic (fuel + 1) g arg = some (-EINVAL, g, []) ∧
      GYROSIM.ioctl c k (sensorBodies c p ic (fuel + 1)) this g c.SENSORIOCSPOLLRATE arg
        = (-EINVAL, g, none) ∧
      GYROSIM_gyro.ioctl c k (sensorBodies c p ic (fuel + 1)) gyro_this this g
        c.SENSORIOCSPOLLRATE arg = (-EINVAL, g, none)) := by
  refine ⟨runIoctls_interval c k p (fuel + 1) this gyro_this calls g0 (Or.inl h0), ?_⟩
  intro ic g arg harg
  have hp := pollrate_refused p ic fuel g arg hm0 hme harg
  have ha := ioctl_spollrate c k p ic (fuel + 1) this g arg hd _ hp
  refine ⟨hp, ha, ?_⟩
  have hs : c.SENSORIOCSPOLLRATE ∈ c.sharedLabels := by simp [SensorCmds.sharedLabels]
  simp only [GYROSIM_gyro.ioctl, hdev, if_false, GYROSIM.gyro_ioctl, hs, if_true]
  exact ha

/-- Instance of C35 on the sample sensor: after setting the rate 250 on the gyro endpoint and
asking for the rate 2000 on the accel endpoint the interval is within bounds, and the rate
2000 is refused. -/
theorem interval_invariant_witness :
    IntervalOk (runIoctls sampleSensorCmds sampleBaseCmds sampleRates 1 7 9 sampleSensor
      [{ on_gyro := true, cmd := 11, arg := 250, ic := unitIoctl },
       { on_gyro := false, cmd := 11, arg := 2000, ic := unitIoctl }]).sensor._call_interval ∧
    GYROSIM.ioctl sampleSensorCmds sampleBaseCmds
      (sensorBodies sampleSensorCmds sampleRates unitIoctl 1) 7 sampleSensor
      sampleSensorCmds.SENSORIOCSPOLLRATE 2000 = (-EINVAL, sampleSensor, none) :=
  have h := interval_invariant sampleSensorCmds sampleBaseCmds sampleRates 0 7 9 sampleSensor
    [{ on_gyro := true, cmd := 11, arg := 250, ic := unitIoctl },
     { on_gyro := false, cmd := 11, arg := 2000, ic := unitIoctl }] rfl (by decide) (by decide)
    (by decide) (by decide)
  ⟨h.1, (h.2 unitIoctl sampleSensor 2000 (Or.inr (Or.inr (by decide)))).2.1⟩

/-! ## Claims about the raw values, the publication flag and the sample rate -/

/-- C36. The swap of the axes. For a reading of `int16_t` values that is not all zero (no
register wait pending), the records the tick forces into the two ring buffers have, on each
channel, `x_raw` equal to the `y` of the reading, `y_raw` equal to minus the `x` of the
reading, or 32767 when that `x` is -32768, and `z_raw` equal to the `z` of the reading; the
three raw values lie between -32768 and 32767, and the conversion to `int16_t` of the values
assigned to `accel_yt` and `gyro_yt` changes nothing. -/
theorem axis_swap {F Flt : Type} (co : Collab F Flt) (g : Gyrosim (Sensor F Flt))
    (mem : PollMem) (report : Report) (now : Nat) (hv : report.allZero = false)
    (hw : g.sensor._register_wait = 0) (hr : report.InRange) :
    (GYROSIM.measure co g mem (some report) now).1.sensor._accel_reports
      = g.sensor._accel_reports.force (GYROSIM.arb co g.sensor report now) ∧
    (GYROSIM.measure co g mem (some report) now).1.sensor._gyro_reports
      = g.sensor._gyro_reports.force (GYROSIM.grb co g.sensor report now) ∧
    ((GYROSIM.arb co g.sensor report now).x_raw = report.accel_y ∧
      (GYROSIM.arb co g.sensor report now).y_raw
        = (if report.accel_x = -32768 then 32767 else -report.accel_x) ∧
      (GYROSIM.arb co g.sensor report now).z_raw = report.accel_z) ∧
    ((GYROSIM.grb co g.sensor report now).x_raw = report.gyro_y ∧
      (GYROSIM.grb co g.sensor report now).y_raw
        = (if report.gyro_x = -32768 then 32767 else -report.gyro_x) ∧
      (GYROSIM.grb co g.sensor report now).z_raw = report.gyro_z) ∧
    ((-32768 ≤ (GYROSIM.arb co g.sensor report now).x_raw ∧
        (GYROSIM.arb co g.sensor report now).x_raw ≤ 32767) ∧
      (-32768 ≤ (GYROSIM.arb co g.sensor report now).y_raw ∧
        (GYROSIM.arb co g.sensor report now).y_raw ≤ 32767) ∧
      (-32768 ≤ (GYROSIM.arb co g.sensor report now).z_raw ∧
        (GYROSIM.arb co g.sensor report now).z_raw ≤ 32767)) ∧
    ((-32768 ≤ (GYROSIM.grb co g.sensor report now).x_raw ∧
        (GYROSIM.grb co g.sensor report now).x_raw ≤ 32767) ∧
      (-32768 ≤ (GYROSIM.grb co g.sensor report now).y_raw ∧
        (GYROSIM.grb co g.sensor report now).y_raw ≤ 32767) ∧
      (-32768 ≤ (GYROSIM.grb co g.sensor report now).z_raw ∧
        (GYROSIM.grb co g.sensor report now).z_raw ≤ 32767)) ∧
    int16_of_int (if report.accel_x = -32768 then 32767 else -report.accel_x)
      = (if report.accel_x = -32768 then 32767 else -report.accel_x) ∧
    int16_of_int (if report.gyro_x = -32768 then 32767 else -report.gyro_x)
      = (if report.gyro_x = -32768 then 32767 else -report.gyro_x) := by
  obtain ⟨⟨ax1, ax2⟩, ⟨ay1, ay2⟩, ⟨az1, az2⟩, _, ⟨gx1, gx2⟩, ⟨gy1, gy2⟩, ⟨gz1, gz2⟩⟩ := hr
  have hay : -32768 ≤ (if report.accel_x = -32768 then (32767 : Int) else -report.accel_x) ∧
      (if report.accel_x = -32768 then (32767 : Int) else -report.accel_x) ≤ 32767 := by
    split <;> omega
  have hgy : -32768 ≤ (if report.gyro_x = -32768 then (32767 : Int) else -report.gyro_x) ∧
      (if report.gyro_x = -32768 then (32767 : Int) else -report.gyro_x) ≤ 32767 := by
    split <;> omega
  rw [measure_valid co g mem report now hv hw]
  refine ⟨rfl, rfl, ⟨rfl, rfl, rfl⟩, ⟨rfl, rfl, rfl⟩, ⟨⟨ay1, ay2⟩, hay, ⟨az1, az2⟩⟩,
    ⟨⟨gy1, gy2⟩, hgy, ⟨gz1, gz2⟩⟩, ?_, ?_⟩
  · unfold int16_of_int
    omega
  · unfold int16_of_int
    omega

/-- Instance of C36: the sample reading, whose gyro `x` is -32768. -/
theorem axis_swap_witness :
    (GYROSIM.grb unitCollab sampleSensor.sensor sampleReport 1000).x_raw = sampleReport.gyro_y ∧
    (GYROSIM.grb unitCollab sampleSensor.sensor sampleReport 1000).y_raw
      = (if sampleReport.gyro_x = -32768 then 32767 else -sampleReport.gyro_x) ∧
    (GYROSIM.grb unitCollab sampleSensor.sensor sampleReport 1000).z_raw
      = sampleReport.gyro_z :=
  (axis_swap unitCollab sampleSensor ownSemMem sampleReport 1000 (by decide) rfl
    (by unfold Report.InRange; decide)).2.2.2.1

/-- The generic commands of `VDev::ioctl` one by one, their values being distinct. -/
theorem vdev_ioctl_cases (k : BaseCmds) (hk : k.Distinct) (d : VDevObject) (this : Ptr)
    (a : Nat) :
    VDev.ioctl k d this k.PX4_DEVIOCSPUBBLOCK a
      = (PX4_OK, { d with _pub_blocked := decide (a ≠ 0) }, none) ∧
    VDev.ioctl k d this k.PX4_DEVIOCGPUBBLOCK a = ((if d._pub_blocked then 1 else 0), d, none) ∧
    VDev.ioctl k d this k.PX4_DEVIOCGDEVICEID a = (int_of_uint32 d._device_id, d, none) ∧
    k.PX4_DEVIOCSPUBBLOCK ≠ k.PX4_DEVIOCGDEVICEID ∧
    k.PX4_DEVIOCGPUBBLOCK ≠ k.PX4_DEVIOCGDEVICEID := by
  simp only [BaseCmds.Distinct, List.nodup_cons, List.mem_cons, List.mem_singleton,
    List.not_mem_nil, or_false, not_or, List.nodup_nil, and_true] at hk
  obtain ⟨⟨h12, h13, h14⟩, ⟨h23, h24⟩, h34, _⟩ := hk
  refine ⟨?_, ?_, ?_, h24, h34⟩
  · simp [VDev.ioctl, Ne.symm h12]
  · simp [VDev.ioctl, Ne.symm h13, Ne.symm h23]
  · simp [VDev.ioctl, Ne.symm h14, Ne.symm h24, Ne.symm h34]

/-- C37. The publication flag is that of the `GYROSIM` object. With the generic command
values distinct, `DEVIOCGDEVICEID` being `PX4_DEVIOCGDEVICEID`, and the two flag commands
being no label of `GYROSIM::gyro_ioctl` (nor, for reading, of `GYROSIM::ioctl`):
`PX4_DEVIOCSPUBBLOCK` with argument `a` on the gyro endpoint returns `PX4_OK` and sets
`_pub_blocked` of the `GYROSIM` object to `a != 0`, the `GYROSIM_gyro` object staying as it
was; `PX4_DEVIOCGPUBBLOCK` returns the flag of the `GYROSIM` object on the gyro endpoint and
on the accel endpoint alike; `DEVIOCGDEVICEID` on the gyro endpoint returns the device id of
the `GYROSIM_gyro` object; and a tick that stages after the flag was set through the gyro
endpoint publishes neither record when `a != 0`, and both when `a == 0`. -/
theorem gyro_pub_block {F Flt : Type} (c : SensorCmds) (k : BaseCmds)
    (b : CaseBodies (Sensor F Flt)) (co : Collab F Flt) (this gyro_this : Ptr)
    (g : Gyrosim (Sensor F Flt)) (mem : PollMem) (a a1 : Nat) (report : Report) (now : Nat)
    (hk : k.Distinct) (hid : c.DEVIOCGDEVICEID = k.PX4_DEVIOCGDEVICEID)
    (hs1 : k.PX4_DEVIOCSPUBBLOCK ∉ c.sharedLabels) (hs2 : k.PX4_DEVIOCSPUBBLOCK ∉ c.gyroLabels)
    (hg1 : k.PX4_DEVIOCGPUBBLOCK ∉ c.sharedLabels) (hg2 : k.PX4_DEVIOCGPUBBLOCK ∉ c.gyroLabels)
    (hg3 : k.PX4_DEVIOCGPUBBLOCK ∉ c.accelLabels)
    (hv : report.allZero = false) (hw : g.sensor._register_wait = 0) :
    GYROSIM_gyro.ioctl c k b gyro_this this g k.PX4_DEVIOCSPUBBLOCK a
      = (PX4_OK, setPubBlocked g (decide (a ≠ 0)), none) ∧
    (setPubBlocked g (decide (a ≠ 0))).gyro = g.gyro ∧
    (setPubBlocked g (decide (a ≠ 0))).accel._pub_blocked = decide (a ≠ 0) ∧
    GYROSIM_gyro.ioctl c k b gyro_this this g k.PX4_DEVIOCGPUBBLOCK a1
      = ((if g.accel._pub_blocked then 1 else 0), g, none) ∧
    GYROSIM.ioctl c k b this g k.PX4_DEVIOCGPUBBLOCK a1
      = ((if g.accel._pub_blocked then 1 else 0), g, none) ∧
    GYROSIM_gyro.ioctl c k b gyro_this this g c.DEVIOCGDEVICEID a1
      = (int_of_uint32 g.gyro._device_id, g, none) ∧
    (a ≠ 0 →
      (GYROSIM.measure co (GYROSIM_gyro.ioctl c k b gyro_this this g k.PX4_DEVIOCSPUBBLOCK
        a).2.1 mem (some report) now).2.2
        = [Effect.notify_accel POLLIN, Effect.notify_gyro POLLIN]) ∧
    (a = 0 →
      (GYROSIM.measure co (GYROSIM_gyro.ioctl c k b gyro_this this g k.PX4_DEVIOCSPUBBLOCK
        a).2.1 mem (some report) now).2.2
        = [Effect.notify_accel POLLIN, Effect.notify_gyro POLLIN,
           Effect.publish_accel (GYROSIM.arb co g.sensor report now),
           Effect.publish_gyro (GYROSIM.grb co g.sensor report now)]) := by
  obtain ⟨hset, hget, _, hsd, hgd⟩ := vdev_ioctl_cases k hk g.accel this a
  obtain ⟨_, hget1, _, _, _⟩ := vdev_ioctl_cases k hk g.accel this a1
  obtain ⟨_, _, hdev, _, _⟩ := vdev_ioctl_cases k hk g.gyro gyro_this a1
  have hsd1 : k.PX4_DEVIOCSPUBBLOCK ≠ c.DEVIOCGDEVICEID := by rw [hid]; exact hsd
  have hgd1 : k.PX4_DEVIOCGPUBBLOCK ≠ c.DEVIOCGDEVICEID := by rw [hid]; exact hgd
  have h1 : GYROSIM_gyro.ioctl c k b gyro_this this g k.PX4_DEVIOCSPUBBLOCK a
      = (PX4_OK, setPubBlocked g (decide (a ≠ 0)), none) := by
    simp only [GYROSIM_gyro.ioctl, hsd1, if_false, GYROSIM.gyro_ioctl, hs1, hs2, hset]
    rfl
  refine ⟨h1, rfl, rfl, ?_, ?_, ?_, ?_, ?_⟩
  · simp only [GYROSIM_gyro.ioctl, hgd1, if_false, GYROSIM.gyro_ioctl, hg1, hg2, hget1]
  · simp only [GYROSIM.ioctl, hg3, if_false, hget1]
  · simp only [GYROSIM_gyro.ioctl, if_true, hid, hdev]
  · intro ha
    rw [h1]
    show (GYROSIM.measure co (setPubBlocked g (decide (a ≠ 0))) mem (some report) now).2.2 = _
    rw [measure_valid co (setPubBlocked g (decide (a ≠ 0))) mem report now hv hw]
    simp [setPubBlocked, ha]
  · intro ha
    rw [h1]
    show (GYROSIM.measure co (setPubBlocked g (decide (a ≠ 0))) mem (some report) now).2.2 = _
    rw [measure_valid co (setPubBlocked g (decide (a ≠ 0))) mem report now hv hw]
    simp [setPubBlocked, ha]

/-- Instance of C37 with the sample command values on the sample sensor: blocking through the
gyro endpoint with argument 1. -/
theorem gyro_pub_block_witness :
    GYROSIM_gyro.ioctl sampleSensorCmds sampleBaseCmds
        (sensorBodies sampleSensorCmds sampleRates unitIoctl 1) 9 7 sampleSensor
        sampleBaseCmds.PX4_DEVIOCSPUBBLOCK 1
      = (PX4_OK, setPubBlocked sampleSensor (decide (1 ≠ 0)), none) ∧
    (GYROSIM.measure unitCollab (GYROSIM_gyro.ioctl sampleSensorCmds sampleBaseCmds
        (sensorBodies sampleSensorCmds sampleRates unitIoctl 1) 9 7 sampleSensor
        sampleBaseCmds.PX4_DEVIOCSPUBBLOCK 1).2.1 ownSemMem (some sampleReport) 1000).2.2
      = [Effect.notify_accel POLLIN, Effect.notify_gyro POLLIN] :=
  have h := gyro_pub_block sampleSensorCmds sampleBaseCmds
    (sensorBodies sampleSensorCmds sampleRates unitIoctl 1) unitCollab 7 9 sampleSensor
    ownSemMem 1 0 sampleReport 1000 (by unfold BaseCmds.Distinct; decide) rfl (by decide)
    (by decide) (by decide) (by decide) (by decide) (by decide) rfl
  ⟨h.1, h.2.2.2.2.2.2.1 (by decide)⟩

/-- The divider `_set_sample_rate` uses, after the two clamps. -/
theorem sample_rate_eq {F Flt : Type} (p : RateMacros) (s : Sensor F Flt) (d : Nat) :
    ∃ div, 1 ≤ div ∧ div ≤ 200 ∧ (GYROSIM._set_sample_rate p s d)._sample_rate = 1000 / div ∧
      ((d ≠ 0 ∧ d ≠ p.GYRO_SAMPLERATE_DEFAULT ∧ d ≠ p.ACCEL_SAMPLERATE_DEFAULT) →
        (1 ≤ (1000 / d) % 2 ^ 8 → (1000 / d) % 2 ^ 8 ≤ 200 → div = (1000 / d) % 2 ^ 8) ∧
        (200 < (1000 / d) % 2 ^ 8 → div = 200)) := by
  simp only [GYROSIM._set_sample_rate]
  by_cases hd : d = 0 ∨ d = p.GYRO_SAMPLERATE_DEFAULT ∨ d = p.ACCEL_SAMPLERATE_DEFAULT
  · refine ⟨1, le_refl _, by omega, ?_, fun h => ?_⟩
    · simp only [hd, if_true, GYROSIM_GYRO_DEFAULT_RATE]
      rfl
    · exact absurd hd (by simp [h.1, h.2.1, h.2.2])
  · simp only [hd, if_false]
    by_cases h200 : (1000 / d) % 2 ^ 8 > 200
    · refine ⟨200, by omega, le_refl _, ?_, fun _ => ⟨fun _ h => by omega, fun _ => rfl⟩⟩
      simp only [h200, if_true]
      rfl
    · by_cases h1 : (1000 / d) % 2 ^ 8 < 1
      · refine ⟨1, le_refl _, by omega, ?_, fun _ => ⟨fun h => by omega, fun h => by omega⟩⟩
        simp only [h200, if_false, h1, if_true]
      · refine ⟨(1000 / d) % 2 ^ 8, by omega, by omega, ?_,
          fun _ => ⟨fun _ _ => rfl, fun h => by omega⟩⟩
        simp only [h200, if_false, h1]

/-- C38, what the code does. `_set_sample_rate` stores `1000 / div`, where `div` is
`1000 / d` as a `uint8_t`, that is modulo 256, clamped to 1..200. The stored rate always lies
between 5 and 1000. For a rate `d` from 4 to 1000 (none of the default values) it is
`1000 / min(200, 1000 / d)`, and among such rates a greater request stores no smaller rate.
For `d = 3` the quotient 333 does not fit the `uint8_t`: the value is 77 and the stored rate
12, where `1000 / min(200, 1000 / 3)` is 5; the request 4 stores 5, so the greater request
stores the smaller rate. -/
theorem set_sample_rate_truncates {F Flt : Type} (p : RateMacros) (s : Sensor F Flt) :
    (∀ d, 5 ≤ (GYROSIM._set_sample_rate p s d)._sample_rate ∧
      (GYROSIM._set_sample_rate p s d)._sample_rate ≤ 1000) ∧
    (∀ d, 4 ≤ d → d ≤ 1000 → d ≠ p.GYRO_SAMPLERATE_DEFAULT →
      d ≠ p.ACCEL_SAMPLERATE_DEFAULT →
      (GYROSIM._set_sample_rate p s d)._sample_rate = 1000 / min 200 (1000 / d)) ∧
    (∀ d1 d2, 4 ≤ d1 → d1 ≤ d2 → d2 ≤ 1000 →
      d1 ≠ p.GYRO_SAMPLERATE_DEFAULT → d1 ≠ p.ACCEL_SAMPLERATE_DEFAULT →
      d2 ≠ p.GYRO_SAMPLERATE_DEFAULT → d2 ≠ p.ACCEL_SAMPLERATE_DEFAULT →
      (GYROSIM._set_sample_rate p s d1)._sample_rate
        ≤ (GYROSIM._set_sample_rate p s d2)._sample_rate) ∧
    (3 ≠ p.GYRO_SAMPLERATE_DEFAULT → 3 ≠ p.ACCEL_SAMPLERATE_DEFAULT →
      4 ≠ p.GYRO_SAMPLERATE_DEFAULT → 4 ≠ p.ACCEL_SAMPLERATE_DEFAULT →
      (GYROSIM._set_sample_rate p s 3)._sample_rate = 12 ∧
      (GYROSIM._set_sample_rate p s 4)._sample_rate = 5 ∧
      1000 / min 200 (1000 / 3) = 5 ∧ (1000 / 3) % 2 ^ 8 = 77) := by
  have hform : ∀ d, 4 ≤ d → d ≤ 1000 → d ≠ p.GYRO_SAMPLERATE_DEFAULT →
      d ≠ p.ACCEL_SAMPLERATE_DEFAULT →
      (GYROSIM._set_sample_rate p s d)._sample_rate = 1000 / min 200 (1000 / d) := by
    intro d h4 h1000 hg ha
    obtain ⟨div, hd1, hd2, hrate, hdiv⟩ := sample_rate_eq p s d
    have hq1 : 1 ≤ 1000 / d := (Nat.le_div_iff_mul_le (by omega)).2 (by omega)
    have hq2 : 1000 / d ≤ 250 := by
      have := Nat.div_le_div_left (a := 1000) h4 (by omega : 0 < 4)
      omega
    have hmod : (1000 / d) % 2 ^ 8 = 1000 / d := Nat.mod_eq_of_lt (by omega)
    rw [hrate]
    have hdv := hdiv ⟨by omega, hg, ha⟩
    rw [hmod] at hdv
    by_cases h200 : 200 < 1000 / d
    · rw [hdv.2 h200, Nat.min_eq_left (by omega)]
    · rw [hdv.1 hq1 (by omega), Nat.min_eq_right (by omega)]
  refine ⟨fun d => ?_, hform, ?_, ?_⟩
  · obtain ⟨div, hd1, hd2, hrate, _⟩ := sample_rate_eq p s d
    rw [hrate]
    exact ⟨(Nat.le_div_iff_mul_le (by omega)).2 (by omega), Nat.div_le_self _ _⟩
  · intro d1 d2 h4 h12 h1000 hg1 ha1 hg2 ha2
    rw [hform d1 h4 (by omega) hg1 ha1, hform d2 (by omega) h1000 hg2 ha2]
    have hq : 1000 / d2 ≤ 1000 / d1 := Nat.div_le_div_left h12 (by omega)
    have hq2 : 1 ≤ 1000 / d2 := (Nat.le_div_iff_mul_le (by omega)).2 (by omega)
    exact Nat.div_le_div_left (by omega) (by omega)
  · intro h3g h3a h4g h4a
    have h3 : ¬ ((3 : Nat) = 0 ∨ 3 = p.GYRO_SAMPLERATE_DEFAULT ∨
        3 = p.ACCEL_SAMPLERATE_DEFAULT) := by simp [h3g, h3a]
    have h4 : ¬ ((4 : Nat) = 0 ∨ 4 = p.GYRO_SAMPLERATE_DEFAULT ∨
        4 = p.ACCEL_SAMPLERATE_DEFAULT) := by simp [h4g, h4a]
    refine ⟨?_, ?_, by decide, by decide⟩
    · simp only [GYROSIM._set_sample_rate, h3, if_false]
      rfl
    · simp only [GYROSIM._set_sample_rate, h4, if_false]
      rfl

/-- Instance of C38 with the default sample rates at 1000003, on the sample sensor: the
request 3 stores 12 and the request 4 stores 5. -/
theorem set_sample_rate_truncates_witness :
    (GYROSIM._set_sample_rate sampleRates sampleSensor.sensor 3)._sample_rate = 12 ∧
    (GYROSIM._set_sample_rate sampleRates sampleSensor.sensor 4)._sample_rate = 5 ∧
    1000 / min 200 (1000 / 3) = 5 ∧ (1000 / 3) % 2 ^ 8 = 77 :=
  (set_sample_rate_truncates sampleRates sampleSensor.sensor).2.2.2 (by decide) (by decide)
    (by decide) (by decide)

/-- The listing of the sample table: the two device nodes in slot order, the name `/dev` of
four bytes left out, and the one topic. -/
theorem mixedMap_listing :
    enumerate (VDev.devList mixedMap) 101 0
      = some ["/dev/accel0".toList, "/dev/gyro0".toList] ∧
    enumerate (VDev.topicList mixedMap) 101 0 = some ["/obj/sensor_accel".toList] := by
  decide

end device
